import Mathlib

/-!
# Rook flexvolume controller: the attachment-record coordinator

A shallow embedding of `pkg/agent/flexvolume/controller.go`.  The controller
talks to three collaborators: the attachment registry (the VolumeAttachment
store), the pod lookup of the cluster API and the device backend (the volume
manager).  Their answers are carried by an environment `Env`; the registry
contents and the log of calls made so far are carried by a `World` that every
operation takes and returns.  Mount and Unmount also talk to the volume
metadata of the cluster API and to the mount primitives of the node, whose
answers are carried by a `Host`.
-/

namespace Flexvolume

/-! ## Data model -/

/-- Modelled from the spec: the mode constant `ReadOnly` of package flexvolume,
whose declaration is outside the sources at hand; the two modes of a request
are "rw" and "ro". -/
def ReadOnly : String := "ro"

/-- The library function `strings.ToLower` of Go, on ASCII letters.  Outside
ASCII no letter is lowered to `r` or `o`, so the comparison of the result with
"ro" made by `attach` is the same for both. -/
def ToLower (s : String) : String := ⟨s.data.map Char.toLower⟩

/-- Modelled from the spec: the type `crd.Attachment`, one element of a
volume's attachment set (node, pod namespace, pod name, mount path, read-only
flag); these are the five fields `attach` writes. -/
structure Attachment where
  Node : String
  PodNamespace : String
  PodName : String
  MountDir : String
  ReadOnly : Bool
deriving DecidableEq, Repr

/-- Modelled from the spec: the type `crd.VolumeAttachment`, the per-volume
record, keyed in the registry by its namespace and name. -/
structure VolumeAttachment where
  Name : String
  Namespace : String
  Attachments : List Attachment
deriving DecidableEq, Repr

/-- Modelled from the spec: the request type `AttachOptions` (section 6, wire
shape), whose declaration is outside the sources at hand. -/
structure AttachOptions where
  MountDir : String
  Pool : String
  Image : String
  ClusterName : String
  StorageClass : String
  RW : String
  FsType : String
  Pod : String
  PodNamespace : String
  PodID : String
  VolumeName : String
deriving DecidableEq, Repr

/-- Modelled from the spec: the helper `crd.NewVolumeAttachment`, which builds
the record of a first attach: named and namespaced as given, containing a
single Attachment for this call. -/
def NewVolumeAttachment (name namespace0 node podNamespace podName mountDir : String)
    (readOnly : Bool) : VolumeAttachment :=
  { Name := name
    Namespace := namespace0
    Attachments :=
      [{ Node := node, PodNamespace := podNamespace, PodName := podName,
         MountDir := mountDir, ReadOnly := readOnly }] }

/-! ## Collaborators -/

deriving instance DecidableEq for Except

/-- The signals of the attachment registry: the two that `attach` tells apart
(`errors.IsNotFound`, `errors.IsAlreadyExists`) and any other failure. -/
inductive RegistryError where
  | notFound
  | alreadyExists
  | other
deriving DecidableEq, Repr

/-- The answer of `clientset.Core().Pods(ns).Get(name)`: the pod with its
status phase, a not-found error, or another error. -/
inductive PodLookup where
  | found (phase : String)
  | notFound
  | failed
deriving DecidableEq, Repr

/-- The errors the controller returns, one constructor per `fmt.Errorf` site
(the registry's own error where the code returns it as is).  The error of a
failed bind mount keeps, as `cause`, the error of the mount primitive that its
message prints. -/
inductive Error where
  | getVolumeCRDFailed (crdName : String)
  | createVolumeCRDFailed (crdName : String)
  | alreadyAttachedByDifferentPod (crdName : String)
  | getPodFailed (podNamespace podName : String)
  | updateVolumeCRDFailed (crdName : String)
  | alreadyAttachedByPod (crdName podNamespace podName phase : String)
  | alreadyAttachedByPods (crdName : String)
  | attachVolumeFailed (pool image : String)
  | getVolumeAttachCRDFailed (namespace0 crdName : String)
  | registry (e : RegistryError)
  | attachmentNotFound (crdName mountDir : String)
  | indexOutOfRange
  | parseMountDirFailed (mountDir : String)
  | getPersistentVolumeFailed (volumeName : String)
  | getPodsFailed (podNamespace : String)
  | parseClusterNameFailed (storageClass : String)
  | nilPointerDereference
  | createGlobalMountPathFailed (path : String)
  | mountPointCheckFailed (path : String)
  | mountDeviceFailed (devicePath fsType path : String)
  | isLikelyNotMountPointFailed (mountDir : String)
  | unmountFailed (mountDir : String)
  | stillMounted (mountDir : String)
  | mountVolumeFailed (pool image path mountDir cause : String)
  | getMountRefsFailed (mountDir : String)
  | unmountVolumeFailed (path : String)
  | removeAttachmentFailed (mountDir : String)
  | detachVolumeFailed (pool image : String)
deriving DecidableEq, Repr

/-- One call made to a collaborator. -/
inductive Call where
  | registryGet (namespace0 name : String)
  | registryCreate (obj : VolumeAttachment)
  | registryUpdate (obj : VolumeAttachment)
  | registryDelete (namespace0 name : String)
  | podGet (podNamespace podName : String)
  | backendAttach (image pool clusterName : String)
  | backendDetach (image pool clusterName : String)
  | persistentVolumesGet (name : String)
  | storageClassesGet (name : String)
  | podsList (podNamespace nodeName : String)
  | isLikelyNotMountPoint (path : String)
  | mkdirAll (path : String)
  | formatAndMount (source target fstype : String) (options : List String)
  | mount (source target fstype : String) (options : List String)
  | unmount (target : String)
  | remove (path : String)
  | getMountRefs (path : String)
  | unmountPath (path : String)
deriving DecidableEq, Repr

/-- What surrounds one controller call: the two environment variables it reads
and the answers of the collaborators.  A registry fault, when present, is the
error the registry returns for that operation whatever its contents. -/
structure Env where
  podNamespaceEnv : String
  nodeNameEnv : String
  getFault : Option RegistryError
  createFault : Option RegistryError
  updateFault : Option RegistryError
  podGet : String → String → PodLookup
  volumeManagerAttach : String → String → String → Except String String

/-- The registry contents and the calls made so far, oldest first. -/
structure World where
  registry : List VolumeAttachment
  calls : List Call

/-- The world after one more call is written to the log. -/
def World.log (w : World) (c : Call) : World :=
  { w with calls := w.calls ++ [c] }

/-- Modelled from the spec: the registry is a store of records keyed by
(namespace, name); this is the record stored under a key, if any. -/
def lookup (reg : List VolumeAttachment) (namespace0 name : String) : Option VolumeAttachment :=
  reg.find? (fun o => o.Namespace == namespace0 && o.Name == name)

/-- Modelled from the spec: the registry contents after the record stored under
the key of `obj` is overwritten by `obj`. -/
def overwrite (reg : List VolumeAttachment) (obj : VolumeAttachment) : List VolumeAttachment :=
  reg.map (fun o => if o.Namespace == obj.Namespace && o.Name == obj.Name then obj else o)

/-- Modelled from the spec: registry `Get(namespace, name) → record|NotFound`
(the `crd.VolumeAttachmentController` interface is outside the sources at
hand). -/
def registryGet (env : Env) (w : World) (namespace0 name : String) :
    Except RegistryError VolumeAttachment × World :=
  let w1 := w.log (Call.registryGet namespace0 name)
  match env.getFault with
  | some e => (.error e, w1)
  | none =>
    match lookup w.registry namespace0 name with
    | some obj => (.ok obj, w1)
    | none => (.error .notFound, w1)

/-- Modelled from the spec: registry `Create(record) → AlreadyExists|ok`; create
fails if the object already exists. -/
def registryCreate (env : Env) (w : World) (obj : VolumeAttachment) :
    Except RegistryError Unit × World :=
  let w1 := w.log (Call.registryCreate obj)
  match env.createFault with
  | some e => (.error e, w1)
  | none =>
    match lookup w.registry obj.Namespace obj.Name with
    | some _ => (.error .alreadyExists, w1)
    | none => (.ok (), { w1 with registry := w.registry ++ [obj] })

/-- Modelled from the spec: registry `Update(record) → ok|error`, a blind
overwrite of the record stored under the object's key. -/
def registryUpdate (env : Env) (w : World) (obj : VolumeAttachment) :
    Except RegistryError Unit × World :=
  let w1 := w.log (Call.registryUpdate obj)
  match env.updateFault with
  | some e => (.error e, w1)
  | none =>
    match lookup w.registry obj.Namespace obj.Name with
    | none => (.error .notFound, w1)
    | some _ => (.ok (), { w1 with registry := overwrite w.registry obj })

/-- The pod lookup `c.clientset.Core().Pods(ns).Get(name, ...)`. -/
def podsGet (env : Env) (w : World) (podNamespace podName : String) : PodLookup × World :=
  (env.podGet podNamespace podName, w.log (Call.podGet podNamespace podName))

/-! ## The controller -/

/-- The scan of `getPodRWAttachmentObject`, from position `i` on. -/
def getPodRWAttachmentObjectFrom : List Attachment → Nat → Int
  | [], _ => -1
  | a :: rest, i => if !a.ReadOnly then (i : Int) else getPodRWAttachmentObjectFrom rest (i + 1)

/-- The index of the first read-write attachment of the record, or -1. -/
def getPodRWAttachmentObject (volumeAttachmentObject : VolumeAttachment) : Int :=
  getPodRWAttachmentObjectFrom volumeAttachmentObject.Attachments 0

/-- Lines 242-247 of `attach`: the call of the device backend. -/
def attachDevice (env : Env) (w : World) (attachOpts : AttachOptions) :
    Except Error String × World :=
  let w1 := w.log (Call.backendAttach attachOpts.Image attachOpts.Pool attachOpts.ClusterName)
  match env.volumeManagerAttach attachOpts.Image attachOpts.Pool attachOpts.ClusterName with
  | .error _ => (.error (.attachVolumeFailed attachOpts.Pool attachOpts.Image), w1)
  | .ok devicePath => (.ok devicePath, w1)

/-- Lines 218-247 of `attach`: look for an attachment at the request's mount
path, append one and update the record if there is none, then attach the
device. -/
def attachRecord (env : Env) (w : World) (volumeattachObj : VolumeAttachment)
    (attachOpts : AttachOptions) : Except Error String × World :=
  let node := env.nodeNameEnv
  let crdName := attachOpts.VolumeName
  let found := volumeattachObj.Attachments.any (fun a => a.MountDir == attachOpts.MountDir)
  if !found then
    let newAttach : Attachment :=
      { Node := node
        PodNamespace := attachOpts.PodNamespace
        PodName := attachOpts.Pod
        MountDir := attachOpts.MountDir
        ReadOnly := attachOpts.RW == ReadOnly }
    let volumeattachObj1 :=
      { volumeattachObj with Attachments := volumeattachObj.Attachments ++ [newAttach] }
    match registryUpdate env w volumeattachObj1 with
    | (.error _, w1) => (.error (.updateVolumeCRDFailed crdName), w1)
    | (.ok _, w1) => attachDevice env w1 attachOpts
  else
    attachDevice env w attachOpts

/-- The method `FlexvolumeController.attach` (lines 155-248). -/
def attach (env : Env) (w : World) (attachOpts : AttachOptions) :
    Except Error String × World :=
  let namespace0 := env.podNamespaceEnv
  let node := env.nodeNameEnv
  let crdName := attachOpts.VolumeName
  match registryGet env w namespace0 crdName with
  | (.error err, w1) =>
    if err ≠ RegistryError.notFound then
      (.error (.getVolumeCRDFailed crdName), w1)
    else
      let volumeattachObj := NewVolumeAttachment crdName namespace0 node
        attachOpts.PodNamespace attachOpts.Pod attachOpts.MountDir
        (ToLower attachOpts.RW == ReadOnly)
      match registryCreate env w1 volumeattachObj with
      | (.error err1, w2) =>
        if err1 ≠ RegistryError.alreadyExists then
          (.error (.createVolumeCRDFailed crdName), w2)
        else
          (.error (.alreadyAttachedByDifferentPod crdName), w2)
      | (.ok _, w2) => attachDevice env w2 attachOpts
  | (.ok volumeattachObj, w1) =>
    let index := getPodRWAttachmentObject volumeattachObj
    if index ≠ -1 then
      match volumeattachObj.Attachments[index.toNat]? with
      | none => (.error .indexOutOfRange, w1)
      | some attachment =>
        match podsGet env w1 attachment.PodNamespace attachment.PodName with
        | (.failed, w2) =>
          (.error (.getPodFailed attachment.PodNamespace attachment.PodName), w2)
        | (.notFound, w2) =>
          let attachment1 : Attachment :=
            { attachment with
              Node := node
              MountDir := attachOpts.MountDir
              PodNamespace := attachOpts.PodNamespace
              PodName := attachOpts.Pod
              ReadOnly := attachOpts.RW == ReadOnly }
          let volumeattachObj1 :=
            { volumeattachObj with
              Attachments := volumeattachObj.Attachments.set index.toNat attachment1 }
          match registryUpdate env w2 volumeattachObj1 with
          | (.error _, w3) => (.error (.updateVolumeCRDFailed crdName), w3)
          | (.ok _, w3) => attachRecord env w3 volumeattachObj1 attachOpts
        | (.found phase, w2) =>
          (.error (.alreadyAttachedByPod crdName attachment.PodNamespace
            attachment.PodName phase), w2)
    else
      if attachOpts.RW == "rw" && volumeattachObj.Attachments.length > 0 then
        (.error (.alreadyAttachedByPods crdName), w1)
      else
        attachRecord env w1 volumeattachObj attachOpts

/-- The loop of `removeAttachmentObject` (lines 373-381): the index of the
first attachment at the mount path, if any. -/
def findMountDir (attachments : List Attachment) (mountDir : String) : Option Nat :=
  attachments.findIdx? (fun v => v.MountDir == mountDir)

/-- The method `FlexvolumeController.removeAttachmentObject` (lines 365-383);
`append(a[:i], a[i+1:]...)` is `a.take i ++ a.drop (i + 1)`. -/
def removeAttachmentObject (env : Env) (w : World) (detachOpts : AttachOptions) :
    Except Error Unit × World :=
  let namespace0 := env.podNamespaceEnv
  let crdName := detachOpts.VolumeName
  match registryGet env w namespace0 crdName with
  | (.error _, w1) => (.error (.getVolumeAttachCRDFailed namespace0 crdName), w1)
  | (.ok volumeAttach, w1) =>
    match findMountDir volumeAttach.Attachments detachOpts.MountDir with
    | some i =>
      let volumeAttach1 :=
        { volumeAttach with
          Attachments := volumeAttach.Attachments.take i ++ volumeAttach.Attachments.drop (i + 1) }
      match registryUpdate env w1 volumeAttach1 with
      | (.error e, w2) => (.error (.registry e), w2)
      | (.ok _, w2) => (.ok (), w2)
    | none => (.error (.attachmentNotFound crdName detachOpts.MountDir), w1)

/-! ## Sequences of attach calls -/

/-- A sequence of attach calls, each with its own environment, run one after
the other on the same world; the outcome of every call is kept with its
request. -/
def attachAll (w : World) : List (Env × AttachOptions) →
    List (AttachOptions × Except Error String) × World
  | [] => ([], w)
  | (env, attachOpts) :: rest =>
    let r := attach env w attachOpts
    let rs := attachAll r.2 rest
    ((attachOpts, r.1) :: rs.1, rs.2)

/-- Whether a call returned without error. -/
def succeeded {α : Type} : Except Error α → Bool
  | .ok _ => true
  | .error _ => false

/-- The number of attachments of a list that are read-write. -/
def rwCount (attachments : List Attachment) : Nat :=
  attachments.countP (fun a => !a.ReadOnly)

/-! ## The node: volume metadata, mounts and teardown -/

/-- The constant `StorageClassKey` (line 48). -/
def StorageClassKey : String := "storageClass"

/-- The constant `PoolKey` (line 49). -/
def PoolKey : String := "pool"

/-- The constant `ImageKey` (line 50). -/
def ImageKey : String := "image"

/-- Modelled from the spec: the constant `FlexvolumeVendor`, declared outside
the sources at hand; its value is the vendor of the driver directory
`rook.io~rook` that the comments of controller.go and root.go name. -/
def FlexvolumeVendor : String := "rook.io"

/-- Modelled from the spec: the constant `FlexvolumeDriver`, declared outside
the sources at hand; its value is the driver of the directory `rook.io~rook`. -/
def FlexvolumeDriver : String := "rook"

/-- Modelled from the spec: the constant `cluster.DefaultClusterName`, the
well-known default cluster name, declared outside the sources at hand; line 392
of controller.go says "Defaults to rook if not found". -/
def DefaultClusterName : String := "rook"

/-- The components of a list of characters between the occurrences of `sep`:
one more component than there are separators. -/
def splitChars (sep : Char) : List Char → List (List Char)
  | [] => [[]]
  | c :: cs =>
    if c = sep then [] :: splitChars sep cs
    else
      match splitChars sep cs with
      | t :: ts => (c :: t) :: ts
      | [] => [[c]]

/-- The library call `strings.Split(s, string(filepath.Separator))` of Go, the
separator being the slash. -/
def Split (s : String) : List String :=
  (splitChars '/' s.data).map String.mk

/-- The elements of a cleaned path: empty and `.` elements are dropped, and a
`..` element removes the element before it, is dropped at the root, and is
kept at the start of a path that is not rooted.  The stack holds the elements
kept so far, last first. -/
def cleanElements (rooted : Bool) : List String → List String → List String
  | stack, [] => stack.reverse
  | stack, c :: rest =>
    if c == "" || c == "." then cleanElements rooted stack rest
    else if c == ".." then
      match stack with
      | top :: below =>
        if top == ".." then cleanElements rooted (c :: stack) rest
        else cleanElements rooted below rest
      | [] =>
        if rooted then cleanElements rooted [] rest
        else cleanElements rooted [c] rest
    else cleanElements rooted (c :: stack) rest

/-- The library function `path.Clean` of Go. -/
def Clean (p : String) : String :=
  let rooted := p.data.head? == some '/'
  let body := "/".intercalate (cleanElements rooted [] (Split p))
  if rooted then "/" ++ body
  else if body == "" then "."
  else body

/-- The library function `path.Join` of Go: the elements from the first
non-empty one on, joined by slashes and cleaned; the empty string when every
element is empty. -/
def Join (elem : List String) : String :=
  match elem.dropWhile (fun e => e == "") with
  | [] => ""
  | rest => Clean ("/".intercalate rest)

/-- A lookup `m[key]` in a Go map of strings: the empty string when the key is
absent. -/
def mapGet (m : List (String × String)) (key : String) : String :=
  (m.lookup key).getD ""

/-- What the code reads of a persistent volume: `pv.Spec.ClaimRef` (nil, or
the namespace of the claim) and `pv.Spec.PersistentVolumeSource.FlexVolume`
(nil, or its options). -/
structure PersistentVolume where
  ClaimRef : Option String
  FlexVolume : Option (List (String × String))
deriving DecidableEq, Repr

/-- What the code reads of a storage class: its parameters. -/
structure StorageClass where
  Parameters : List (String × String)
deriving DecidableEq, Repr

/-- What the code reads of a pod of a pod list: its UID and its name. -/
structure Pod where
  UID : String
  Name : String
deriving DecidableEq, Repr

/-- An error of the mount layer: the one `os.IsNotExist` recognises, or another. -/
inductive OsError where
  | notExist
  | other
deriving DecidableEq, Repr

/-- The node an agent runs on and the rest of the collaborators of Mount and
Unmount: the kubelet root directory of the environment, the registry Delete
and the backend Detach, the volume metadata of the cluster API, and the mount
primitives (`getMountRefs` and `unmountPath` are the library functions
`k8smount.GetMountRefs` and `util.UnmountPath`).  The answer of a mount
primitive may depend on the calls made before it, which it is given. -/
structure Host where
  kubeletRootDirEnv : String
  deleteFault : Option RegistryError
  volumeManagerDetach : String → String → String → Except String Unit
  persistentVolumesGet : String → Except String PersistentVolume
  storageClassesGet : String → Except String StorageClass
  podsList : String → String → Except String (List Pod)
  isLikelyNotMountPoint : List Call → String → Except OsError Bool
  mkdirAll : List Call → String → Except String Unit
  formatAndMount : List Call → String → String → String → List String → Except String Unit
  mount : List Call → String → String → String → List String → Except String Unit
  unmount : List Call → String → Except String Unit
  getMountRefs : List Call → String → Except String (List String)
  unmountPath : List Call → String → Except String Unit

/-- Modelled from the spec: the registry contents after the record stored under
a key is deleted. -/
def remove (reg : List VolumeAttachment) (namespace0 name : String) : List VolumeAttachment :=
  reg.filter (fun o => !(o.Namespace == namespace0 && o.Name == name))

/-- Modelled from the spec: registry `Delete(namespace, name) → ok|error`. -/
def registryDelete (host : Host) (w : World) (namespace0 name : String) :
    Except RegistryError Unit × World :=
  let w1 := w.log (Call.registryDelete namespace0 name)
  match host.deleteFault with
  | some e => (.error e, w1)
  | none =>
    match lookup w.registry namespace0 name with
    | none => (.error .notFound, w1)
    | some _ => (.ok (), { w1 with registry := remove w.registry namespace0 name })

/-- Modelled from the spec: the record that registry `Get` hands back next to
an error.  The controller of package crd is outside the sources at hand; its
`Get` returns a VolumeAttachment by value, and a Go function that fails
returns the zero value with its error. -/
def zeroVolumeAttachment : VolumeAttachment :=
  { Name := "", Namespace := "", Attachments := [] }

/-- The function `getGlobalMountPath` (lines 458-461). -/
def getGlobalMountPath (host : Host) (volumeName : String) : String :=
  Join [host.kubeletRootDirEnv, "plugins", FlexvolumeVendor, FlexvolumeDriver, "mounts",
    volumeName]

/-- The function `getPodAndPVNameFromMountDir` (lines 464-474).  The result of
`filepath.Clean(mountDir)` is dropped by the code, so the tokens are those of
the mount path as given. -/
def getPodAndPVNameFromMountDir (mountDir : String) : Except Error (String × String) :=
  let token := Split mountDir
  let length := token.length
  if length < 5 then
    .error (.parseMountDirFailed mountDir)
  else
    match token[length - 4]?, token[length - 1]? with
    | some podID, some pvName => .ok (podID, pvName)
    | _, _ => .error .indexOutOfRange

/-- The function `findPodByID` (lines 476-483): the first pod of the list with
the UID, or nil. -/
def findPodByID (pods : List Pod) (podUID : String) : Option Pod :=
  pods.find? (fun p => p.UID == podUID)

/-- The method `parseClusterName` (lines 385-397). -/
def parseClusterName (host : Host) (w : World) (storageClassName : String) :
    Except Error String × World :=
  let w1 := w.log (Call.storageClassesGet storageClassName)
  match host.storageClassesGet storageClassName with
  | .error _ => (.error (.parseClusterNameFailed storageClassName), w1)
  | .ok sc =>
    match sc.Parameters.lookup "clusterName" with
    | none => (.ok DefaultClusterName, w1)
    | some clusterName => (.ok clusterName, w1)

/-- Lines 404-411 of `getAttachInfoFromMountDir`: pod ID and volume name from
the mount path, when the pod ID is empty. -/
def resolvePodAndVolume (attachOptions : AttachOptions) : Except Error AttachOptions :=
  if attachOptions.PodID == "" then
    match getPodAndPVNameFromMountDir attachOptions.MountDir with
    | .error e => .error e
    | .ok (podID, pvName) => .ok { attachOptions with PodID := podID, VolumeName := pvName }
  else
    .ok attachOptions

/-- Lines 418-421: the pod namespace from the claim of the persistent volume,
when it is empty; a nil `ClaimRef` is a nil pointer dereference. -/
def resolvePodNamespace (pv : PersistentVolume) (attachOptions : AttachOptions) :
    Except Error AttachOptions :=
  if attachOptions.PodNamespace == "" then
    match pv.ClaimRef with
    | none => .error .nilPointerDereference
    | some claimNamespace => .ok { attachOptions with PodNamespace := claimNamespace }
  else
    .ok attachOptions

/-- Lines 423-438: the pod name from the pods scheduled to this node, when it
is empty; a pod that is not in the list leaves it empty. -/
def resolvePod (env : Env) (host : Host) (w : World) (attachOptions : AttachOptions) :
    Except Error AttachOptions × World :=
  let node := env.nodeNameEnv
  if attachOptions.Pod == "" then
    let w1 := w.log (Call.podsList attachOptions.PodNamespace node)
    match host.podsList attachOptions.PodNamespace node with
    | .error _ => (.error (.getPodsFailed attachOptions.PodNamespace), w1)
    | .ok pods =>
      match findPodByID pods attachOptions.PodID with
      | some pod => (.ok { attachOptions with Pod := pod.Name }, w1)
      | none => (.ok attachOptions, w1)
  else
    (.ok attachOptions, w)

/-- One of the three assignments of lines 440-448: the field, when empty, is
read from the options of the flexvolume source; a nil `FlexVolume` is a nil
pointer dereference. -/
def flexVolumeOption (pv : PersistentVolume) (current key : String) : Except Error String :=
  if current == "" then
    match pv.FlexVolume with
    | none => .error .nilPointerDereference
    | some options => .ok (mapGet options key)
  else
    .ok current

/-- Lines 440-448: image, pool and storage class from the options of the
persistent volume, each when it is empty.  The options are returned as they
are when the code stops. -/
def resolveVolumeSource (pv : PersistentVolume) (attachOptions : AttachOptions) :
    Except Error Unit × AttachOptions :=
  match flexVolumeOption pv attachOptions.Image ImageKey with
  | .error e => (.error e, attachOptions)
  | .ok image =>
    let o1 := { attachOptions with Image := image }
    match flexVolumeOption pv o1.Pool PoolKey with
    | .error e => (.error e, o1)
    | .ok pool =>
      let o2 := { o1 with Pool := pool }
      match flexVolumeOption pv o2.StorageClass StorageClassKey with
      | .error e => (.error e, o2)
      | .ok storageClass => (.ok (), { o2 with StorageClass := storageClass })

/-- The method `getAttachInfoFromMountDir` (lines 402-454).  It changes the
options it is given in place; the options returned here are those at the
moment the method returns, with or without an error. -/
def getAttachInfoFromMountDir (env : Env) (host : Host) (w : World)
    (attachOptions : AttachOptions) : Except Error Unit × AttachOptions × World :=
  match resolvePodAndVolume attachOptions with
  | .error e => (.error e, attachOptions, w)
  | .ok o1 =>
    let w1 := w.log (Call.persistentVolumesGet o1.VolumeName)
    match host.persistentVolumesGet o1.VolumeName with
    | .error _ => (.error (.getPersistentVolumeFailed o1.VolumeName), o1, w1)
    | .ok pv =>
      match resolvePodNamespace pv o1 with
      | .error e => (.error e, o1, w1)
      | .ok o2 =>
        match resolvePod env host w1 o2 with
        | (.error e, w2) => (.error e, o2, w2)
        | (.ok o3, w2) =>
          match resolveVolumeSource pv o3 with
          | (.error e, o4) => (.error e, o4, w2)
          | (.ok _, o4) =>
            match parseClusterName host w2 o4.StorageClass with
            | (.error e, w3) => (.error e, { o4 with ClusterName := "" }, w3)
            | (.ok clusterName, w3) => (.ok (), { o4 with ClusterName := clusterName }, w3)

/-- The method `mountDevice` (lines 251-277). -/
def mountDevice (host : Host) (w : World) (opts : AttachOptions) (devicePath : String) :
    Except Error Unit × World :=
  let globalVolumeMountPath := getGlobalMountPath host opts.VolumeName
  let options := [opts.RW]
  let formatAndMount := fun (w0 : World) =>
    let w1 := w0.log (Call.formatAndMount devicePath globalVolumeMountPath opts.FsType options)
    match host.formatAndMount w0.calls devicePath globalVolumeMountPath opts.FsType options with
    | .error _ =>
      (Except.error (Error.mountDeviceFailed devicePath opts.FsType globalVolumeMountPath),
        w1.log (Call.remove globalVolumeMountPath))
    | .ok _ => (Except.ok (), w1)
  let w1 := w.log (Call.isLikelyNotMountPoint globalVolumeMountPath)
  match host.isLikelyNotMountPoint w.calls globalVolumeMountPath with
  | .error .notExist =>
    let w2 := w1.log (Call.mkdirAll globalVolumeMountPath)
    match host.mkdirAll w1.calls globalVolumeMountPath with
    | .error _ => (.error (.createGlobalMountPathFailed globalVolumeMountPath), w2)
    | .ok _ => formatAndMount w2
  | .error .other => (.error (.mountPointCheckFailed globalVolumeMountPath), w1)
  | .ok notMnt =>
    if notMnt then formatAndMount w1
    else (.ok (), w1)

/-- The method `mount` (lines 280-312): the bind mount of the global mount
path on the mount path of the pod.  The error returned at line 310 prints the
error of the bind mount; the errors returned before it print the error of the
check or of the unmount that failed. -/
def mount (host : Host) (w : World) (opts : AttachOptions) : Except Error Unit × World :=
  let globalVolumeMountPath := getGlobalMountPath host opts.VolumeName
  let options := [opts.RW] ++ ["bind"]
  let failed := fun (cause : String) (w0 : World) =>
    (Except.error (Error.mountVolumeFailed opts.Pool opts.Image globalVolumeMountPath
      opts.MountDir cause), w0.log (Call.remove opts.MountDir))
  let w1 := w.log (Call.mount globalVolumeMountPath opts.MountDir "" options)
  match host.mount w.calls globalVolumeMountPath opts.MountDir "" options with
  | .ok _ => (.ok (), w1)
  | .error err =>
    let w2 := w1.log (Call.isLikelyNotMountPoint opts.MountDir)
    match host.isLikelyNotMountPoint w1.calls opts.MountDir with
    | .error _ => (.error (.isLikelyNotMountPointFailed opts.MountDir), w2)
    | .ok notMnt =>
      if !notMnt then
        let w3 := w2.log (Call.unmount opts.MountDir)
        match host.unmount w2.calls opts.MountDir with
        | .error _ => (.error (.unmountFailed opts.MountDir), w3)
        | .ok _ =>
          let w4 := w3.log (Call.isLikelyNotMountPoint opts.MountDir)
          match host.isLikelyNotMountPoint w3.calls opts.MountDir with
          | .error _ => (.error (.isLikelyNotMountPointFailed opts.MountDir), w4)
          | .ok notMnt1 =>
            if !notMnt1 then (.error (.stillMounted opts.MountDir), w4)
            else failed err w4
      else failed err w2

/-- The method `unmount` (lines 315-330): the unmount of the mount path of the
pod, then the removal of its attachment. -/
def unmount (env : Env) (host : Host) (w : World) (opts : AttachOptions) :
    Except Error Unit × World :=
  let w1 := w.log (Call.unmountPath opts.MountDir)
  match host.unmountPath w.calls opts.MountDir with
  | .error _ => (.error (.unmountVolumeFailed opts.MountDir), w1)
  | .ok _ =>
    match removeAttachmentObject env w1 opts with
    | (.error _, w2) => (.error (.removeAttachmentFailed opts.MountDir), w2)
    | (.ok _, w2) => (.ok (), w2)

/-- The method `unmountDevice` (lines 333-343): the unmount of the global
mount path. -/
def unmountDevice (host : Host) (w : World) (opts : AttachOptions) :
    Except Error Unit × World :=
  let globalVolumeMountPath := getGlobalMountPath host opts.VolumeName
  let w1 := w.log (Call.unmountPath globalVolumeMountPath)
  match host.unmountPath w.calls globalVolumeMountPath with
  | .error _ => (.error (.unmountVolumeFailed globalVolumeMountPath), w1)
  | .ok _ => (.ok (), w1)

/-- The method `detach` (lines 346-362).  The error of the registry Get is
not looked at: the attachments counted are those of the record the Get
returned, the zero record when it failed. -/
def detach (env : Env) (host : Host) (w : World) (opts : AttachOptions) :
    Except Error Unit × World :=
  let w1 := w.log (Call.backendDetach opts.Image opts.Pool opts.ClusterName)
  match host.volumeManagerDetach opts.Image opts.Pool opts.ClusterName with
  | .error _ => (.error (.detachVolumeFailed opts.Pool opts.Image), w1)
  | .ok _ =>
    let namespace0 := env.podNamespaceEnv
    let crdName := opts.VolumeName
    let got := registryGet env w1 namespace0 crdName
    let volumeAttach :=
      match got.1 with
      | .ok obj => obj
      | .error _ => zeroVolumeAttachment
    if volumeAttach.Attachments.length == 0 then
      match registryDelete host got.2 namespace0 crdName with
      | (.error e, w3) => (.error (.registry e), w3)
      | (.ok _, w3) => (.ok (), w3)
    else
      (.ok (), got.2)

/-- Lines 98-116 of `Mount`: attach, device mount, bind mount, on the options
as resolution left them. -/
def mountResolved (env : Env) (host : Host) (w : World) (attachOpts : AttachOptions) :
    Except Error Unit × World :=
  match attach env w attachOpts with
  | (.error e, w1) => (.error e, w1)
  | (.ok devicePath, w1) =>
    match mountDevice host w1 attachOpts devicePath with
    | (.error e, w2) => (.error e, w2)
    | (.ok _, w2) => mount host w2 attachOpts

/-- The method `Mount` (lines 91-117).  The error `getAttachInfoFromMountDir`
returns is not looked at (line 96); only a nil pointer dereference, which is
a panic and not a returned error, stops the call there. -/
def Mount (env : Env) (host : Host) (w : World) (attachOpts : AttachOptions) :
    Except Error Unit × World :=
  match getAttachInfoFromMountDir env host w attachOpts with
  | (.error .nilPointerDereference, _, w1) => (.error .nilPointerDereference, w1)
  | (_, attachOpts1, w1) => mountResolved env host w1 attachOpts1

/-- Lines 127-151 of `Unmount`: reference lookup, pod unmount with attachment
removal, and with exactly one reference the global unmount and the detach, on
the options as resolution left them. -/
def unmountResolved (env : Env) (host : Host) (w : World) (detachOpts : AttachOptions) :
    Except Error Unit × World :=
  let w1 := w.log (Call.getMountRefs detachOpts.MountDir)
  match host.getMountRefs w.calls detachOpts.MountDir with
  | .error _ => (.error (.getMountRefsFailed detachOpts.MountDir), w1)
  | .ok refs =>
    match unmount env host w1 detachOpts with
    | (.error e, w2) => (.error e, w2)
    | (.ok _, w2) =>
      if refs.length == 1 then
        match unmountDevice host w2 detachOpts with
        | (.error e, w3) => (.error e, w3)
        | (.ok _, w3) => detach env host w3 detachOpts
      else
        (.ok (), w2)

/-- The method `Unmount` (lines 120-152).  As in `Mount`, the error of
`getAttachInfoFromMountDir` is not looked at (line 125). -/
def Unmount (env : Env) (host : Host) (w : World) (detachOpts : AttachOptions) :
    Except Error Unit × World :=
  match getAttachInfoFromMountDir env host w detachOpts with
  | (.error .nilPointerDereference, _, w1) => (.error .nilPointerDereference, w1)
  | (_, detachOpts1, w1) => unmountResolved env host w1 detachOpts1

/-! ## Notions used to state the properties -/

/-- The attachment written for a request on the append and overwrite paths. -/
def requestAttachment (env : Env) (attachOpts : AttachOptions) : Attachment :=
  { Node := env.nodeNameEnv
    PodNamespace := attachOpts.PodNamespace
    PodName := attachOpts.Pod
    MountDir := attachOpts.MountDir
    ReadOnly := attachOpts.RW == ReadOnly }

/-- The record of the volume exists, is not empty, and each of its attachments
belongs to a pod of one of the given calls. -/
def heldByCallers (all : List (Env × AttachOptions)) (reg : List VolumeAttachment)
    (ns vol : String) : Prop :=
  ∃ obj, lookup reg ns vol = some obj ∧ obj.Attachments ≠ [] ∧
    ∀ a ∈ obj.Attachments, ∃ c ∈ all, a.PodNamespace = c.2.PodNamespace ∧ a.PodName = c.2.Pod

/-- The number of calls with mode "rw" that returned success. -/
def rwSuccesses (results : List (AttachOptions × Except Error String)) : Nat :=
  results.countP (fun r => r.1.RW == "rw" && succeeded r.2)

/-- The mount paths of a list of attachments, in order. -/
def mountDirs (attachments : List Attachment) : List String :=
  attachments.map (fun a => a.MountDir)

/-- Whether a call is a call of the backend Attach. -/
def isBackendAttach : Call → Bool
  | .backendAttach _ _ _ => true
  | _ => false

/-- The calls made from one world to a later one include no backend Attach. -/
def noBackendAttach (before after : World) : Prop :=
  ∃ new, after.calls = before.calls ++ new ∧ ∀ c ∈ new, isBackendAttach c = false

/-- The segments of a mount path as the spec counts them: the non-empty
components between separators. -/
def segments (mountDir : String) : List String :=
  (Split mountDir).filter (fun t => t != "")

/-- The attachment list of the record stored under a key; the empty list when
no record is stored. -/
def storedAttachments (reg : List VolumeAttachment) (namespace0 name : String) : List Attachment :=
  match lookup reg namespace0 name with
  | some obj => obj.Attachments
  | none => []

/-- The options after resolution keep what the request supplied: mount path,
mode and filesystem type as they are, and each of pod ID, pod name, pod
namespace, pool, image and storage class when the request gave it non-empty;
the volume name is kept when the pod ID was given. -/
def keepsSupplied (o o1 : AttachOptions) : Prop :=
  o1.MountDir = o.MountDir ∧ o1.RW = o.RW ∧ o1.FsType = o.FsType ∧
  (o.PodID ≠ "" → o1.PodID = o.PodID ∧ o1.VolumeName = o.VolumeName) ∧
  (o.Pod ≠ "" → o1.Pod = o.Pod) ∧
  (o.PodNamespace ≠ "" → o1.PodNamespace = o.PodNamespace) ∧
  (o.Pool ≠ "" → o1.Pool = o.Pool) ∧
  (o.Image ≠ "" → o1.Image = o.Image) ∧
  (o.StorageClass ≠ "" → o1.StorageClass = o.StorageClass)

/-! ## Scenario data

The scenario of the spec: volume `img1` of pool `pool1`, persistent volume
`pv1`, pods `A` and `B`, agents running in namespace `rook-system`. -/

/-- An environment without faults in which every pod looked up is present. -/
def envLive : Env :=
  { podNamespaceEnv := "rook-system"
    nodeNameEnv := "node1"
    getFault := none
    createFault := none
    updateFault := none
    podGet := fun _ _ => .found "Running"
    volumeManagerAttach := fun _ _ _ => .ok "/dev/rbd0" }

/-- An environment without faults in which every pod looked up is gone. -/
def envGone : Env :=
  { envLive with nodeNameEnv := "node2", podGet := fun _ _ => .notFound }

/-- The mount request of pod `A`: read-write at `/pods/A/volumes/v~d/pv1`. -/
def optsA : AttachOptions :=
  { MountDir := "/pods/A/volumes/v~d/pv1"
    Pool := "pool1"
    Image := "img1"
    ClusterName := "rook"
    StorageClass := "rook-block"
    RW := "rw"
    FsType := "ext4"
    Pod := "A"
    PodNamespace := "default"
    PodID := "A"
    VolumeName := "pv1" }

/-- The mount request of pod `B` for the same volume, read-write. -/
def optsB : AttachOptions :=
  { optsA with MountDir := "/pods/B/volumes/v~d/pv1", Pod := "B", PodID := "B" }

/-- The attachment of pod `A`, read-write, made on `node1`. -/
def attachmentA : Attachment :=
  { Node := "node1", PodNamespace := "default", PodName := "A",
    MountDir := "/pods/A/volumes/v~d/pv1", ReadOnly := false }

/-- The attachment of pod `B`, read-write, made on `node2`. -/
def attachmentB : Attachment :=
  { Node := "node2", PodNamespace := "default", PodName := "B",
    MountDir := "/pods/B/volumes/v~d/pv1", ReadOnly := false }

/-- The record of `pv1` holding the given attachments. -/
def recordOf (attachments : List Attachment) : VolumeAttachment :=
  { Name := "pv1", Namespace := "rook-system", Attachments := attachments }

/-- A world whose registry holds nothing. -/
def worldEmpty : World := { registry := [], calls := [] }

/-- A world whose registry holds the record of `pv1` with the given attachments. -/
def worldOf (attachments : List Attachment) : World :=
  { registry := [recordOf attachments], calls := [] }

/-- The mount request of pod `B` for the same volume, read-only. -/
def optsBro : AttachOptions := { optsB with RW := "ro" }

/-- The mount request of pod `P`: read-only at `/pods/P/volumes/v~d/pv1`. -/
def optsP : AttachOptions :=
  { optsA with MountDir := "/pods/P/volumes/v~d/pv1", Pod := "P", PodID := "P", RW := "ro" }

/-- The attachment of pod `P`, read-only, made on `node1`. -/
def attachmentP : Attachment :=
  { Node := "node1", PodNamespace := "default", PodName := "P",
    MountDir := "/pods/P/volumes/v~d/pv1", ReadOnly := true }

/-- The persistent volume `pv1`: bound to a claim of namespace `default`, with
the image, pool and storage class of the scenario. -/
def pv1 : PersistentVolume :=
  { ClaimRef := some "default"
    FlexVolume := some [("image", "img1"), ("pool", "pool1"), ("storageClass", "rook-block")] }

/-- A host without faults: it knows `pv1`, the storage class and the pods `A`,
`B` and `P`; no path is a mount point, every mount primitive succeeds, and the
mount path of a pod has the global mount as its only other reference. -/
def hostOk : Host :=
  { kubeletRootDirEnv := "/var/lib/kubelet"
    deleteFault := none
    volumeManagerDetach := fun _ _ _ => .ok ()
    persistentVolumesGet := fun name => if name == "pv1" then .ok pv1 else .error "not found"
    storageClassesGet := fun _ => .ok { Parameters := [("clusterName", "rook")] }
    podsList := fun _ _ => .ok [{ UID := "A", Name := "A" }, { UID := "B", Name := "B" },
      { UID := "P", Name := "P" }]
    isLikelyNotMountPoint := fun _ _ => .ok true
    mkdirAll := fun _ _ => .ok ()
    formatAndMount := fun _ _ _ _ _ => .ok ()
    mount := fun _ _ _ _ _ => .ok ()
    unmount := fun _ _ => .ok ()
    getMountRefs := fun _ _ => .ok ["/var/lib/kubelet/plugins/rook.io/rook/mounts/pv1"]
    unmountPath := fun _ _ => .ok () }

/-- The unmount request as the command line sends it: the mount path of pod
`A` and nothing else. -/
def optsUnmountA : AttachOptions :=
  { MountDir := "/pods/A/volumes/v~d/pv1", Pool := "", Image := "", ClusterName := "",
    StorageClass := "", RW := "", FsType := "", Pod := "", PodNamespace := "", PodID := "",
    VolumeName := "" }

/-- A mount request of pod `A` with a mount path of three segments and no pod
ID. -/
def optsShort : AttachOptions := { optsA with MountDir := "a/b/c", PodID := "" }

/-- A mount request for `pv1` that gives a pod ID no pod of the node has, and
no pod name. -/
def optsNoPod : AttachOptions := { optsA with Pod := "", PodID := "Z" }

/-- A mount request of pod `A` naming a persistent volume the cluster does not
know. -/
def optsUnknown : AttachOptions := { optsA with VolumeName := "pv9" }

/-- The host `hostOk`, except that the global mount of `pv1` cannot be
unmounted. -/
def hostBusy : Host :=
  { hostOk with
    unmountPath := fun _ path =>
      if path == "/var/lib/kubelet/plugins/rook.io/rook/mounts/pv1" then .error "busy"
      else .ok () }

/-- The options of `optsUnmountA` after resolution on `hostOk`. -/
def optsResolvedA : AttachOptions :=
  { MountDir := "/pods/A/volumes/v~d/pv1", Pool := "pool1", Image := "img1",
    ClusterName := "rook", StorageClass := "rook-block", RW := "", FsType := "", Pod := "A",
    PodNamespace := "default", PodID := "A", VolumeName := "pv1" }

/-- The world after that resolution, pod `A` holding `pv1`. -/
def worldResolved : World :=
  { registry := [recordOf [attachmentA]]
    calls := [.persistentVolumesGet "pv1", .podsList "default" "node1",
      .storageClassesGet "rook-block"] }

/-- The world after the reference lookup, the unmount of the mount of pod `A`
and the removal of its attachment. -/
def worldAfterRemoval : World :=
  { registry := [recordOf []]
    calls := [.persistentVolumesGet "pv1", .podsList "default" "node1",
      .storageClassesGet "rook-block", .getMountRefs "/pods/A/volumes/v~d/pv1",
      .unmountPath "/pods/A/volumes/v~d/pv1", .registryGet "rook-system" "pv1",
      .registryUpdate (recordOf [])] }

/-! ## Notions and scenario data for the mount stages, the resolution and the mode -/

/-- The calls made from one world to a later one. -/
def newCalls (before after : World) : List Call :=
  after.calls.drop before.calls.length

/-- Whether a call is a call of `os.Remove`. -/
def isRemove : Call → Bool
  | .remove _ => true
  | _ => false

/-- A read-write attachment of the list, if there is one, is its only
attachment. -/
def noMixing (attachments : List Attachment) : Prop :=
  ∀ a ∈ attachments, a.ReadOnly = false → attachments = [a]

/-- The host `hostOk`, except that every path is a mount point. -/
def hostMounted : Host :=
  { hostOk with isLikelyNotMountPoint := fun _ _ => .ok false }

/-- The host `hostOk`, except that the bind mount fails. -/
def hostBindFails : Host :=
  { hostOk with mount := fun _ _ _ _ _ => .error "permission denied" }

/-- The host `hostBindFails`, except that every path is a mount point and stays
one after an unmount. -/
def hostStillMounted : Host :=
  { hostBindFails with isLikelyNotMountPoint := fun _ _ => .ok false }

/-- The host `hostBindFails`, except that a path is a mount point until it is
unmounted. -/
def hostUnmounts : Host :=
  { hostBindFails with
    isLikelyNotMountPoint := fun calls path => .ok (calls.contains (.unmount path)) }

/-- The host `hostBindFails`, except that the mount-point check fails. -/
def hostCheckFails : Host :=
  { hostBindFails with isLikelyNotMountPoint := fun _ _ => .error .other }

/-- The host `hostOk`, except that format-and-mount fails. -/
def hostFormatFails : Host :=
  { hostOk with formatAndMount := fun _ _ _ _ _ => .error "bad superblock" }

/-- The host `hostOk`, except that no directory exists until it is created. -/
def hostNoDir : Host :=
  { hostOk with
    isLikelyNotMountPoint := fun calls path =>
      if calls.contains (.mkdirAll path) then .ok true else .error .notExist }

/-- The host `hostNoDir`, except that no directory can be created. -/
def hostMkdirFails : Host :=
  { hostNoDir with mkdirAll := fun _ _ => .error "read-only file system" }

/-- The mount request of pod `A` with its pod ID and without a volume name. -/
def optsNoVolume : AttachOptions := { optsA with VolumeName := "" }

/-- A mount request that names the volume `pv1` and gives no pod ID, with a
mount path that ends in `pv9`. -/
def optsOtherPath : AttachOptions :=
  { optsA with MountDir := "/pods/A/volumes/v~d/pv9", PodID := "" }

/-- The mount request of pod `B` with the mode written `RO`. -/
def optsBupperRO : AttachOptions := { optsB with RW := "RO" }

/-- The mount request of pod `B` with the mode written `RW`. -/
def optsBupperRW : AttachOptions := { optsB with RW := "RW" }

/-- Whether a call is a call of the format-and-mount primitive. -/
def isFormatAndMount : Call → Bool
  | .formatAndMount _ _ _ _ => true
  | _ => false

/-- The attachment of pod `B` made on `node1`, with the given read-only flag. -/
def attachmentBon1 (readOnly : Bool) : Attachment :=
  { Node := "node1", PodNamespace := "default", PodName := "B",
    MountDir := "/pods/B/volumes/v~d/pv1", ReadOnly := readOnly }

/-! ## Registry lemmas -/

theorem lookup_key {reg : List VolumeAttachment} {ns name : String} {obj : VolumeAttachment}
    (h : lookup reg ns name = some obj) : obj.Namespace = ns ∧ obj.Name = name := by
  have := List.find?_some h
  simpa using this

theorem lookup_append_of_none {reg : List VolumeAttachment} {ns name : String}
    (obj : VolumeAttachment) (h : lookup reg ns name = none)
    (hns : obj.Namespace = ns) (hname : obj.Name = name) :
    lookup (reg ++ [obj]) ns name = some obj := by
  unfold lookup at *
  rw [List.find?_append, h]
  simp [hns, hname]

theorem lookup_overwrite {reg : List VolumeAttachment} {ns name : String}
    {old : VolumeAttachment} (obj : VolumeAttachment) (h : lookup reg ns name = some old)
    (hns : obj.Namespace = ns) (hname : obj.Name = name) :
    lookup (overwrite reg obj) ns name = some obj := by
  subst hns hname
  unfold lookup overwrite at *
  induction reg with
  | nil => simp at h
  | cons o rest ih =>
    by_cases hk : (o.Namespace == obj.Namespace && o.Name == obj.Name) = true
    · simp only [List.map_cons, hk, if_true]
      rw [List.find?_cons]
      simp
    · simp only [Bool.not_eq_true] at hk
      rw [List.find?_cons, hk] at h
      simp only [List.map_cons, hk]
      rw [List.find?_cons]
      simp only [Bool.false_eq_true, if_false, hk]
      exact ih h

/-! ## The scan for the read-write holder -/

theorem getPodRWAttachmentObjectFrom_cases (l : List Attachment) (i : Nat) :
    (getPodRWAttachmentObjectFrom l i = -1 ∧ ∀ a ∈ l, a.ReadOnly = true) ∨
    (∃ pre a post, l = pre ++ a :: post ∧ (∀ b ∈ pre, b.ReadOnly = true) ∧
      a.ReadOnly = false ∧ getPodRWAttachmentObjectFrom l i = ((i + pre.length : Nat) : Int)) := by
  induction l generalizing i with
  | nil => left; simp [getPodRWAttachmentObjectFrom]
  | cons x rest ih =>
    by_cases hx : x.ReadOnly = true
    · rcases ih (i + 1) with ⟨h1, h2⟩ | ⟨pre, a, post, h1, h2, h3, h4⟩
      · left
        refine ⟨?_, ?_⟩
        · simp [getPodRWAttachmentObjectFrom, hx, h1]
        · intro a ha
          rcases List.mem_cons.mp ha with rfl | ha
          · exact hx
          · exact h2 a ha
      · right
        refine ⟨x :: pre, a, post, by simp [h1], ?_, h3, ?_⟩
        · intro b hb
          rcases List.mem_cons.mp hb with rfl | hb
          · exact hx
          · exact h2 b hb
        · simp only [getPodRWAttachmentObjectFrom, hx, Bool.not_true, Bool.false_eq_true,
            if_false, h4, List.length_cons]
          congr 1
          omega
    · right
      simp only [Bool.not_eq_true] at hx
      exact ⟨[], x, rest, rfl, by simp, hx, by simp [getPodRWAttachmentObjectFrom, hx]⟩

/-- The read-write holder of a record: the attachment `attach` takes at the
index returned by the scan. -/
theorem getPodRWAttachmentObject_of_split {obj : VolumeAttachment} {pre post : List Attachment}
    {a : Attachment} (h : obj.Attachments = pre ++ a :: post)
    (hpre : ∀ b ∈ pre, b.ReadOnly = true) (ha : a.ReadOnly = false) :
    getPodRWAttachmentObject obj = (pre.length : Int) := by
  unfold getPodRWAttachmentObject
  rw [h]
  clear h
  suffices hs : ∀ i : Nat, getPodRWAttachmentObjectFrom (pre ++ a :: post) i
      = ((i + pre.length : Nat) : Int) by simpa using hs 0
  induction pre with
  | nil => intro i; simp [getPodRWAttachmentObjectFrom, ha]
  | cons x rest ih =>
    intro i
    have hx : x.ReadOnly = true := hpre x (by simp)
    have := ih (fun b hb => hpre b (by simp [hb])) (i + 1)
    show getPodRWAttachmentObjectFrom (x :: (rest ++ a :: post)) i = _
    rw [getPodRWAttachmentObjectFrom, this]
    simp only [hx, Bool.not_true, Bool.false_eq_true, if_false, List.length_cons]
    congr 1
    omega

theorem getPodRWAttachmentObject_of_all_ro {obj : VolumeAttachment}
    (h : ∀ a ∈ obj.Attachments, a.ReadOnly = true) : getPodRWAttachmentObject obj = -1 := by
  unfold getPodRWAttachmentObject
  rcases getPodRWAttachmentObjectFrom_cases obj.Attachments 0 with ⟨h1, _⟩ | ⟨pre, a, post, h1, _, h3, _⟩
  · exact h1
  · have := h a (by simp [h1])
    simp [h3] at this

/-- Every record either has no read-write attachment or splits at its first
read-write attachment. -/
theorem attachments_cases (obj : VolumeAttachment) :
    (∀ a ∈ obj.Attachments, a.ReadOnly = true) ∨
    (∃ pre a post, obj.Attachments = pre ++ a :: post ∧ (∀ b ∈ pre, b.ReadOnly = true) ∧
      a.ReadOnly = false) := by
  rcases getPodRWAttachmentObjectFrom_cases obj.Attachments 0 with ⟨_, h2⟩ | ⟨pre, a, post, h1, h2, h3, _⟩
  · exact Or.inl h2
  · exact Or.inr ⟨pre, a, post, h1, h2, h3⟩

/-! ## The branches of `attach` -/

@[simp]
theorem log_registry (w : World) (c : Call) : (w.log c).registry = w.registry := rfl

@[simp]
theorem log_calls (w : World) (c : Call) : (w.log c).calls = w.calls ++ [c] := rfl

theorem attach_get_failed (env : Env) (w : World) (o : AttachOptions) {e : RegistryError}
    (hget : env.getFault = some e) (he : e ≠ .notFound) :
    attach env w o = (.error (.getVolumeCRDFailed o.VolumeName),
      w.log (.registryGet env.podNamespaceEnv o.VolumeName)) := by
  simp [attach, registryGet, hget, he]

theorem attach_not_found (env : Env) (w : World) (o : AttachOptions)
    (hget : env.getFault = some .notFound ∨
      (env.getFault = none ∧ lookup w.registry env.podNamespaceEnv o.VolumeName = none)) :
    attach env w o =
      match registryCreate env (w.log (.registryGet env.podNamespaceEnv o.VolumeName))
        (NewVolumeAttachment o.VolumeName env.podNamespaceEnv env.nodeNameEnv o.PodNamespace
          o.Pod o.MountDir (ToLower o.RW == ReadOnly)) with
      | (.error err1, w2) =>
        if err1 ≠ RegistryError.alreadyExists then
          (.error (.createVolumeCRDFailed o.VolumeName), w2)
        else
          (.error (.alreadyAttachedByDifferentPod o.VolumeName), w2)
      | (.ok _, w2) => attachDevice env w2 o := by
  rcases hget with hget | ⟨hget, hnone⟩
  · simp [attach, registryGet, hget]
  · simp [attach, registryGet, hget, hnone]

theorem attach_holder (env : Env) (w : World) (o : AttachOptions) {obj : VolumeAttachment}
    {pre post : List Attachment} {a : Attachment}
    (hget : env.getFault = none)
    (hobj : lookup w.registry env.podNamespaceEnv o.VolumeName = some obj)
    (hsplit : obj.Attachments = pre ++ a :: post)
    (hpre : ∀ b ∈ pre, b.ReadOnly = true) (ha : a.ReadOnly = false) :
    attach env w o =
      match env.podGet a.PodNamespace a.PodName with
      | .failed => (.error (.getPodFailed a.PodNamespace a.PodName),
          (w.log (.registryGet env.podNamespaceEnv o.VolumeName)).log
            (.podGet a.PodNamespace a.PodName))
      | .found phase => (.error (.alreadyAttachedByPod o.VolumeName a.PodNamespace a.PodName phase),
          (w.log (.registryGet env.podNamespaceEnv o.VolumeName)).log
            (.podGet a.PodNamespace a.PodName))
      | .notFound =>
        match registryUpdate env ((w.log (.registryGet env.podNamespaceEnv o.VolumeName)).log
            (.podGet a.PodNamespace a.PodName))
            { obj with Attachments := pre ++ requestAttachment env o :: post } with
        | (.error _, w3) => (.error (.updateVolumeCRDFailed o.VolumeName), w3)
        | (.ok _, w3) =>
          attachRecord env w3 { obj with Attachments := pre ++ requestAttachment env o :: post } o := by
  have hidx := getPodRWAttachmentObject_of_split hsplit hpre ha
  have hne : (pre.length : Int) ≠ -1 := by omega
  simp only [attach, registryGet, hget, hobj, hidx, hne, ne_eq, not_false_eq_true, if_true,
    Int.toNat_ofNat, hsplit, podsGet]
  simp only [List.getElem?_append_right (Nat.le_refl _), Nat.sub_self, List.getElem?_cons_zero,
    List.set_append_right _ _ (Nat.le_refl _), List.set_cons_zero, requestAttachment]
  cases env.podGet a.PodNamespace a.PodName <;> rfl

theorem attach_no_holder (env : Env) (w : World) (o : AttachOptions) {obj : VolumeAttachment}
    (hget : env.getFault = none)
    (hobj : lookup w.registry env.podNamespaceEnv o.VolumeName = some obj)
    (hro : ∀ a ∈ obj.Attachments, a.ReadOnly = true) :
    attach env w o =
      if o.RW == "rw" && obj.Attachments.length > 0 then
        (.error (.alreadyAttachedByPods o.VolumeName),
          w.log (.registryGet env.podNamespaceEnv o.VolumeName))
      else
        attachRecord env (w.log (.registryGet env.podNamespaceEnv o.VolumeName)) obj o := by
  have hidx := getPodRWAttachmentObject_of_all_ro hro
  simp [attach, registryGet, hget, hobj, hidx]

theorem attachDevice_registry (env : Env) (w : World) (o : AttachOptions) :
    (attachDevice env w o).2.registry = w.registry := by
  unfold attachDevice
  cases env.volumeManagerAttach o.Image o.Pool o.ClusterName <;> rfl

theorem registryUpdate_eq (env : Env) (w : World) (obj : VolumeAttachment) :
    registryUpdate env w obj = (.ok (), { w.log (.registryUpdate obj) with
        registry := overwrite w.registry obj }) ∨
    ∃ e, registryUpdate env w obj = (.error e, w.log (.registryUpdate obj)) := by
  unfold registryUpdate
  cases env.updateFault with
  | some e => right; exact ⟨e, rfl⟩
  | none =>
    cases lookup w.registry obj.Namespace obj.Name with
    | none => right; exact ⟨_, rfl⟩
    | some _ => left; rfl

theorem registryUpdate_ok (env : Env) (w : World) (obj old : VolumeAttachment)
    (hfault : env.updateFault = none)
    (hold : lookup w.registry obj.Namespace obj.Name = some old) :
    registryUpdate env w obj = (.ok (), { w.log (.registryUpdate obj) with
        registry := overwrite w.registry obj }) := by
  simp [registryUpdate, hfault, hold]

theorem registryCreate_eq (env : Env) (w : World) (obj : VolumeAttachment) :
    (lookup w.registry obj.Namespace obj.Name = none ∧
      registryCreate env w obj = (.ok (), { w.log (.registryCreate obj) with
        registry := w.registry ++ [obj] })) ∨
    ∃ e, registryCreate env w obj = (.error e, w.log (.registryCreate obj)) := by
  unfold registryCreate
  cases env.createFault with
  | some e => right; exact ⟨e, rfl⟩
  | none =>
    cases h : lookup w.registry obj.Namespace obj.Name with
    | none => left; exact ⟨rfl, rfl⟩
    | some _ => right; exact ⟨_, rfl⟩

/-- What `attachRecord` leaves in the registry: nothing new, or the record with
the request's attachment appended when no attachment had its mount path. -/
theorem attachRecord_registry (env : Env) (w : World) (obj : VolumeAttachment)
    (o : AttachOptions) :
    (attachRecord env w obj o).2.registry = w.registry ∨
    ((∀ a ∈ obj.Attachments, a.MountDir ≠ o.MountDir) ∧
      (attachRecord env w obj o).2.registry = overwrite w.registry
        { obj with Attachments := obj.Attachments ++ [requestAttachment env o] }) := by
  unfold attachRecord
  by_cases hf : obj.Attachments.any (fun a => a.MountDir == o.MountDir) = true
  · left
    simp only [hf, Bool.not_true, Bool.false_eq_true, if_false]
    exact attachDevice_registry env w o
  · have hnf : ∀ a ∈ obj.Attachments, a.MountDir ≠ o.MountDir := by
      intro a ha heq
      exact hf (List.any_eq_true.mpr ⟨a, ha, by simp [heq]⟩)
    simp only [Bool.not_eq_true] at hf
    simp only [hf, Bool.not_false, if_true]
    have hu := registryUpdate_eq env w
      { obj with Attachments := obj.Attachments ++ [requestAttachment env o] }
    simp only [requestAttachment] at hu ⊢
    rcases hu with h | ⟨e, h⟩
    · right
      refine ⟨hnf, ?_⟩
      rw [h]
      exact attachDevice_registry env _ o
    · left
      rw [h]
      rfl

theorem attach_create_registry (env : Env) (w : World) (o : AttachOptions)
    (hget : env.getFault = some .notFound ∨
      (env.getFault = none ∧ lookup w.registry env.podNamespaceEnv o.VolumeName = none)) :
    (attach env w o).2.registry = w.registry ∨
    (lookup w.registry env.podNamespaceEnv o.VolumeName = none ∧
      (attach env w o).2.registry = w.registry ++
        [NewVolumeAttachment o.VolumeName env.podNamespaceEnv env.nodeNameEnv o.PodNamespace
          o.Pod o.MountDir (ToLower o.RW == ReadOnly)]) := by
  rw [attach_not_found env w o hget]
  rcases registryCreate_eq env (w.log (.registryGet env.podNamespaceEnv o.VolumeName))
    (NewVolumeAttachment o.VolumeName env.podNamespaceEnv env.nodeNameEnv o.PodNamespace
      o.Pod o.MountDir (ToLower o.RW == ReadOnly)) with ⟨hnone, h⟩ | ⟨e, h⟩
  · right
    rw [h]
    refine ⟨by simpa [NewVolumeAttachment] using hnone, ?_⟩
    simp only []
    rw [attachDevice_registry]
    rfl
  · left
    rw [h]
    simp only []
    split <;> rfl

theorem attachRecord_found (env : Env) (w : World) (obj : VolumeAttachment) (o : AttachOptions)
    (h : ∃ a ∈ obj.Attachments, a.MountDir = o.MountDir) :
    attachRecord env w obj o = attachDevice env w o := by
  obtain ⟨a, ha, hm⟩ := h
  have hf : obj.Attachments.any (fun a => a.MountDir == o.MountDir) = true :=
    List.any_eq_true.mpr ⟨a, ha, by simp [hm]⟩
  simp [attachRecord, hf]

/-- The registry after `attach`: unchanged, or one of the three writes. -/
theorem attach_registry_cases (env : Env) (w : World) (o : AttachOptions) :
    (attach env w o).2.registry = w.registry ∨
    (lookup w.registry env.podNamespaceEnv o.VolumeName = none ∧
      (attach env w o).2.registry = w.registry ++
        [NewVolumeAttachment o.VolumeName env.podNamespaceEnv env.nodeNameEnv o.PodNamespace
          o.Pod o.MountDir (ToLower o.RW == ReadOnly)]) ∨
    (∃ obj, lookup w.registry env.podNamespaceEnv o.VolumeName = some obj ∧
      (∀ a ∈ obj.Attachments, a.ReadOnly = true) ∧
      (o.RW = "rw" → obj.Attachments = []) ∧
      (∀ a ∈ obj.Attachments, a.MountDir ≠ o.MountDir) ∧
      (attach env w o).2.registry = overwrite w.registry
        { obj with Attachments := obj.Attachments ++ [requestAttachment env o] }) ∨
    (∃ obj pre a post, lookup w.registry env.podNamespaceEnv o.VolumeName = some obj ∧
      obj.Attachments = pre ++ a :: post ∧ (∀ b ∈ pre, b.ReadOnly = true) ∧
      a.ReadOnly = false ∧ env.podGet a.PodNamespace a.PodName = .notFound ∧
      (attach env w o).2.registry = overwrite w.registry
        { obj with Attachments := pre ++ requestAttachment env o :: post }) := by
  cases hg : env.getFault with
  | some e =>
    by_cases he : e = .notFound
    · subst he
      rcases attach_create_registry env w o (Or.inl hg) with h | h
      · exact Or.inl h
      · exact Or.inr (Or.inl h)
    · left
      rw [attach_get_failed env w o hg he]
      rfl
  | none =>
    rcases Option.eq_none_or_eq_some (lookup w.registry env.podNamespaceEnv o.VolumeName)
      with hl | ⟨obj, hl⟩
    · rcases attach_create_registry env w o (Or.inr ⟨hg, hl⟩) with h | h
      · exact Or.inl h
      · exact Or.inr (Or.inl h)
    · rcases attachments_cases obj with hro | ⟨pre, a, post, hsplit, hpre, ha⟩
      · rw [attach_no_holder env w o hg hl hro]
        by_cases hc : (o.RW == "rw" && decide (obj.Attachments.length > 0)) = true
        · left
          simp only [hc, if_true]
          rfl
        · simp only [hc, if_false]
          rcases attachRecord_registry env
            (w.log (.registryGet env.podNamespaceEnv o.VolumeName)) obj o with h | ⟨hnf, h⟩
          · exact Or.inl h
          · right; right; left
            refine ⟨obj, hl, hro, ?_, hnf, h⟩
            intro hrw
            cases hatt : obj.Attachments with
            | nil => rfl
            | cons x xs => simp [hrw, hatt] at hc
      · rw [attach_holder env w o hg hl hsplit hpre ha]
        rcases hp : env.podGet a.PodNamespace a.PodName with phase | _ | _
        · left; rfl
        · simp only []
          rcases registryUpdate_eq env
            ((w.log (.registryGet env.podNamespaceEnv o.VolumeName)).log
              (.podGet a.PodNamespace a.PodName))
            { obj with Attachments := pre ++ requestAttachment env o :: post } with h | ⟨e, h⟩
          · right; right; right
            refine ⟨obj, pre, a, post, hl, hsplit, hpre, ha, hp, ?_⟩
            rw [h]
            simp only []
            rw [attachRecord_found env _ _ o ⟨requestAttachment env o, by simp, rfl⟩,
              attachDevice_registry]
            rfl
          · left
            rw [h]
            rfl
        · left; rfl

/-- The record stored for the volume after `attach`, in terms of the record
stored before. -/
theorem attach_record_cases (env : Env) (w : World) (o : AttachOptions) :
    lookup (attach env w o).2.registry env.podNamespaceEnv o.VolumeName
      = lookup w.registry env.podNamespaceEnv o.VolumeName ∨
    (lookup w.registry env.podNamespaceEnv o.VolumeName = none ∧
      lookup (attach env w o).2.registry env.podNamespaceEnv o.VolumeName =
        some (NewVolumeAttachment o.VolumeName env.podNamespaceEnv env.nodeNameEnv
          o.PodNamespace o.Pod o.MountDir (ToLower o.RW == ReadOnly))) ∨
    (∃ obj, lookup w.registry env.podNamespaceEnv o.VolumeName = some obj ∧
      (∀ a ∈ obj.Attachments, a.ReadOnly = true) ∧
      (o.RW = "rw" → obj.Attachments = []) ∧
      (∀ a ∈ obj.Attachments, a.MountDir ≠ o.MountDir) ∧
      lookup (attach env w o).2.registry env.podNamespaceEnv o.VolumeName =
        some { obj with Attachments := obj.Attachments ++ [requestAttachment env o] }) ∨
    (∃ obj pre a post, lookup w.registry env.podNamespaceEnv o.VolumeName = some obj ∧
      obj.Attachments = pre ++ a :: post ∧ (∀ b ∈ pre, b.ReadOnly = true) ∧
      a.ReadOnly = false ∧ env.podGet a.PodNamespace a.PodName = .notFound ∧
      lookup (attach env w o).2.registry env.podNamespaceEnv o.VolumeName =
        some { obj with Attachments := pre ++ requestAttachment env o :: post }) := by
  rcases attach_registry_cases env w o with h | ⟨hn, h⟩ | ⟨obj, hl, h1, h2, h3, h⟩ |
    ⟨obj, pre, a, post, hl, h1, h2, h3, h4, h⟩
  · left; rw [h]
  · right; left
    refine ⟨hn, ?_⟩
    rw [h]
    exact lookup_append_of_none _ hn rfl rfl
  · right; right; left
    refine ⟨obj, hl, h1, h2, h3, ?_⟩
    rw [h]
    exact lookup_overwrite _ hl (lookup_key hl).1 (lookup_key hl).2
  · right; right; right
    refine ⟨obj, pre, a, post, hl, h1, h2, h3, h4, ?_⟩
    rw [h]
    exact lookup_overwrite _ hl (lookup_key hl).1 (lookup_key hl).2

/-! ## The branches of `removeAttachmentObject` -/

theorem findMountDir_cases (l : List Attachment) (m : String) :
    (findMountDir l m = none ∧ ∀ a ∈ l, a.MountDir ≠ m) ∨
    (∃ pre a post, l = pre ++ a :: post ∧ (∀ b ∈ pre, b.MountDir ≠ m) ∧ a.MountDir = m ∧
      findMountDir l m = some pre.length) := by
  unfold findMountDir
  induction l with
  | nil => left; simp
  | cons x rest ih =>
    by_cases hx : x.MountDir = m
    · right
      exact ⟨[], x, rest, rfl, by simp, hx, by simp [hx]⟩
    · rcases ih with ⟨h1, h2⟩ | ⟨pre, a, post, h1, h2, h3, h4⟩
      · left
        refine ⟨by simp [hx, h1], ?_⟩
        intro a ha
        rcases List.mem_cons.mp ha with rfl | ha
        · exact hx
        · exact h2 a ha
      · right
        refine ⟨x :: pre, a, post, by simp [h1], ?_, h3, by simp [hx, h4]⟩
        intro b hb
        rcases List.mem_cons.mp hb with rfl | hb
        · exact hx
        · exact h2 b hb

theorem findMountDir_of_split {l pre post : List Attachment} {a : Attachment} {m : String}
    (h : l = pre ++ a :: post) (hpre : ∀ b ∈ pre, b.MountDir ≠ m) (ha : a.MountDir = m) :
    findMountDir l m = some pre.length := by
  subst h
  unfold findMountDir
  induction pre with
  | nil => simp [ha]
  | cons x rest ih =>
    have hx : x.MountDir ≠ m := hpre x (by simp)
    have := ih (fun b hb => hpre b (by simp [hb]))
    simp [hx, this]

theorem removeAttachmentObject_of_split (env : Env) (w : World) (o : AttachOptions)
    {obj : VolumeAttachment} {pre post : List Attachment} {a : Attachment}
    (hget : env.getFault = none)
    (hobj : lookup w.registry env.podNamespaceEnv o.VolumeName = some obj)
    (hsplit : obj.Attachments = pre ++ a :: post)
    (hpre : ∀ b ∈ pre, b.MountDir ≠ o.MountDir) (ha : a.MountDir = o.MountDir) :
    removeAttachmentObject env w o =
      match registryUpdate env (w.log (.registryGet env.podNamespaceEnv o.VolumeName))
          { obj with Attachments := pre ++ post } with
      | (.error e, w2) => (.error (.registry e), w2)
      | (.ok _, w2) => (.ok (), w2) := by
  have hidx := findMountDir_of_split hsplit hpre ha
  simp only [removeAttachmentObject, registryGet, hget, hobj, hidx]
  simp only [hsplit, List.take_left, List.drop_succ_cons]
  rw [show pre.length + 1 = (pre ++ [a]).length by simp,
    show pre ++ a :: post = (pre ++ [a]) ++ post by simp, List.drop_left]

/-- The registry after `removeAttachmentObject`: unchanged, or the record
without its first attachment at the mount path. -/
theorem removeAttachmentObject_registry_cases (env : Env) (w : World) (o : AttachOptions) :
    (removeAttachmentObject env w o).2.registry = w.registry ∨
    (∃ obj pre a post, lookup w.registry env.podNamespaceEnv o.VolumeName = some obj ∧
      obj.Attachments = pre ++ a :: post ∧ (∀ b ∈ pre, b.MountDir ≠ o.MountDir) ∧
      a.MountDir = o.MountDir ∧
      (removeAttachmentObject env w o).2.registry = overwrite w.registry
        { obj with Attachments := pre ++ post }) := by
  cases hg : env.getFault with
  | some e => left; simp [removeAttachmentObject, registryGet, hg]
  | none =>
    rcases Option.eq_none_or_eq_some (lookup w.registry env.podNamespaceEnv o.VolumeName)
      with hl | ⟨obj, hl⟩
    · left; simp [removeAttachmentObject, registryGet, hg, hl]
    · rcases findMountDir_cases obj.Attachments o.MountDir with ⟨h1, _⟩ |
        ⟨pre, a, post, hsplit, hpre, ha, _⟩
      · left; simp [removeAttachmentObject, registryGet, hg, hl, h1]
      · rw [removeAttachmentObject_of_split env w o hg hl hsplit hpre ha]
        rcases registryUpdate_eq env (w.log (.registryGet env.podNamespaceEnv o.VolumeName))
          { obj with Attachments := pre ++ post } with h | ⟨e, h⟩
        · right
          refine ⟨obj, pre, a, post, hl, hsplit, hpre, ha, ?_⟩
          rw [h]
          rfl
        · left
          rw [h]
          rfl

/-! ## Counting read-write attachments -/

theorem rwCount_split (pre post : List Attachment) (a : Attachment) :
    rwCount (pre ++ a :: post) = rwCount pre + (if a.ReadOnly then 0 else 1) + rwCount post := by
  unfold rwCount
  rw [List.countP_append, List.countP_cons]
  cases a.ReadOnly
  · simp; omega
  · simp

theorem rwCount_append (l1 l2 : List Attachment) :
    rwCount (l1 ++ l2) = rwCount l1 + rwCount l2 := by
  unfold rwCount
  exact List.countP_append _ _ _

theorem rwCount_of_all_ro {l : List Attachment} (h : ∀ a ∈ l, a.ReadOnly = true) :
    rwCount l = 0 := by
  unfold rwCount
  rw [List.countP_eq_zero]
  intro a ha
  simp [h a ha]

theorem rwCount_singleton_le (a : Attachment) : rwCount [a] ≤ 1 := by
  unfold rwCount
  exact (List.countP_le_length _).trans (by simp)

/-! ## Sequences of attach calls on one volume -/

theorem attach_create_outcome (env : Env) (w : World) (o : AttachOptions)
    (hget : env.getFault = some .notFound ∨
      (env.getFault = none ∧ lookup w.registry env.podNamespaceEnv o.VolumeName = none)) :
    (succeeded (attach env w o).1 = false ∧ (attach env w o).2.registry = w.registry) ∨
    (lookup w.registry env.podNamespaceEnv o.VolumeName = none ∧
      (attach env w o).2.registry = w.registry ++
        [NewVolumeAttachment o.VolumeName env.podNamespaceEnv env.nodeNameEnv o.PodNamespace
          o.Pod o.MountDir (ToLower o.RW == ReadOnly)]) := by
  rcases attach_create_registry env w o hget with h | h
  · rcases registryCreate_eq env (w.log (.registryGet env.podNamespaceEnv o.VolumeName))
      (NewVolumeAttachment o.VolumeName env.podNamespaceEnv env.nodeNameEnv o.PodNamespace
        o.Pod o.MountDir (ToLower o.RW == ReadOnly)) with ⟨hnone, hc⟩ | ⟨e, hc⟩
    · right
      have hreg := h
      rw [attach_not_found env w o hget, hc] at hreg
      simp only [] at hreg
      rw [attachDevice_registry] at hreg
      have : w.registry ++ [NewVolumeAttachment o.VolumeName env.podNamespaceEnv env.nodeNameEnv
          o.PodNamespace o.Pod o.MountDir (ToLower o.RW == ReadOnly)] = w.registry := hreg
      simp at this
    · left
      refine ⟨?_, h⟩
      rw [attach_not_found env w o hget, hc]
      simp only []
      split <;> rfl
  · exact Or.inr h

theorem attach_step_fresh (all : List (Env × AttachOptions)) (env : Env) (w : World)
    (o : AttachOptions) (hmem : (env, o) ∈ all)
    (hnone : lookup w.registry env.podNamespaceEnv o.VolumeName = none) :
    (lookup (attach env w o).2.registry env.podNamespaceEnv o.VolumeName = none ∧
      succeeded (attach env w o).1 = false) ∨
    heldByCallers all (attach env w o).2.registry env.podNamespaceEnv o.VolumeName := by
  have hcreate : env.getFault = some .notFound ∨ (env.getFault = none ∧
      lookup w.registry env.podNamespaceEnv o.VolumeName = none) →
      (lookup (attach env w o).2.registry env.podNamespaceEnv o.VolumeName = none ∧
        succeeded (attach env w o).1 = false) ∨
      heldByCallers all (attach env w o).2.registry env.podNamespaceEnv o.VolumeName := by
    intro hget
    rcases attach_create_outcome env w o hget with ⟨h1, h2⟩ | ⟨_, h2⟩
    · left
      rw [h2]
      exact ⟨hnone, h1⟩
    · right
      refine ⟨NewVolumeAttachment o.VolumeName env.podNamespaceEnv env.nodeNameEnv
        o.PodNamespace o.Pod o.MountDir (ToLower o.RW == ReadOnly), ?_, ?_, ?_⟩
      · rw [h2]
        exact lookup_append_of_none _ hnone rfl rfl
      · simp [NewVolumeAttachment]
      · intro a ha
        simp only [NewVolumeAttachment, List.mem_singleton] at ha
        subst ha
        exact ⟨(env, o), hmem, rfl, rfl⟩
  cases hg : env.getFault with
  | some e =>
    by_cases he : e = .notFound
    · subst he
      exact hcreate (Or.inl hg)
    · left
      rw [attach_get_failed env w o hg he]
      exact ⟨hnone, rfl⟩
  | none => exact hcreate (Or.inr ⟨hg, hnone⟩)

theorem attach_step_held (all : List (Env × AttachOptions)) (env : Env) (w : World)
    (o : AttachOptions) (hmem : (env, o) ∈ all)
    (hlive : ∀ c ∈ all, ∃ phase, env.podGet c.2.PodNamespace c.2.Pod = .found phase)
    (hheld : heldByCallers all w.registry env.podNamespaceEnv o.VolumeName) :
    heldByCallers all (attach env w o).2.registry env.podNamespaceEnv o.VolumeName ∧
      (o.RW = "rw" → succeeded (attach env w o).1 = false) := by
  obtain ⟨obj, hobj, hne, hpods⟩ := hheld
  have hsame : ∀ r : List VolumeAttachment, r = w.registry →
      heldByCallers all r env.podNamespaceEnv o.VolumeName := by
    intro r hr
    rw [hr]
    exact ⟨obj, hobj, hne, hpods⟩
  cases hg : env.getFault with
  | some e =>
    by_cases he : e = .notFound
    · subst he
      rcases attach_create_outcome env w o (Or.inl hg) with ⟨h1, h2⟩ | ⟨h1, _⟩
      · exact ⟨hsame _ h2, fun _ => h1⟩
      · rw [hobj] at h1
        cases h1
    · rw [attach_get_failed env w o hg he]
      exact ⟨hsame _ rfl, fun _ => rfl⟩
  | none =>
    rcases attachments_cases obj with hro | ⟨pre, a, post, hsplit, hpre, ha⟩
    · rw [attach_no_holder env w o hg hobj hro]
      by_cases hc : (o.RW == "rw" && decide (obj.Attachments.length > 0)) = true
      · rw [if_pos hc]
        exact ⟨hsame _ rfl, fun _ => rfl⟩
      · rw [if_neg hc]
        constructor
        · rcases attachRecord_registry env
            (w.log (.registryGet env.podNamespaceEnv o.VolumeName)) obj o with h | ⟨_, h⟩
          · exact hsame _ h
          · refine ⟨{ obj with Attachments := obj.Attachments ++ [requestAttachment env o] },
              ?_, by simp, ?_⟩
            · rw [h]
              exact lookup_overwrite _ hobj (lookup_key hobj).1 (lookup_key hobj).2
            · intro b hb
              rcases List.mem_append.mp hb with hb | hb
              · exact hpods b hb
              · simp only [List.mem_singleton] at hb
                subst hb
                exact ⟨(env, o), hmem, rfl, rfl⟩
        · intro hrw
          exfalso
          apply hc
          have hlen : obj.Attachments.length > 0 := List.length_pos.mpr hne
          simp [hrw, hlen]
    · obtain ⟨c, hc, hc1, hc2⟩ := hpods a (by simp [hsplit])
      obtain ⟨phase, hphase⟩ := hlive c hc
      rw [← hc1, ← hc2] at hphase
      rw [attach_holder env w o hg hobj hsplit hpre ha, hphase]
      exact ⟨hsame _ rfl, fun _ => rfl⟩

theorem attachAll_held (all : List (Env × AttachOptions)) (ns vol : String)
    (hlive : ∀ c ∈ all, ∀ d ∈ all, ∃ phase, c.1.podGet d.2.PodNamespace d.2.Pod = .found phase)
    (calls : List (Env × AttachOptions)) :
    ∀ w : World, (∀ c ∈ calls, c ∈ all ∧ c.1.podNamespaceEnv = ns ∧ c.2.VolumeName = vol) →
      heldByCallers all w.registry ns vol → rwSuccesses (attachAll w calls).1 = 0 := by
  induction calls with
  | nil => intro w _ _; rfl
  | cons c rest ih =>
    intro w hcalls hheld
    obtain ⟨env, o⟩ := c
    obtain ⟨hmem, hns, hvol⟩ := hcalls (env, o) (by simp)
    simp only at hns hvol
    subst hns hvol
    have hstep := attach_step_held all env w o hmem (hlive (env, o) hmem) hheld
    have hrest := ih (attach env w o).2 (fun c hc => hcalls c (by simp [hc])) hstep.1
    simp only [attachAll, rwSuccesses, List.countP_cons] at hrest ⊢
    rw [hrest]
    by_cases hrw : o.RW = "rw"
    · simp [hstep.2 hrw]
    · simp [hrw]

theorem attachAll_fresh (all : List (Env × AttachOptions)) (ns vol : String)
    (hlive : ∀ c ∈ all, ∀ d ∈ all, ∃ phase, c.1.podGet d.2.PodNamespace d.2.Pod = .found phase)
    (calls : List (Env × AttachOptions)) :
    ∀ w : World, (∀ c ∈ calls, c ∈ all ∧ c.1.podNamespaceEnv = ns ∧ c.2.VolumeName = vol) →
      lookup w.registry ns vol = none → rwSuccesses (attachAll w calls).1 ≤ 1 := by
  induction calls with
  | nil => intro w _ _; simp [attachAll, rwSuccesses]
  | cons c rest ih =>
    intro w hcalls hnone
    obtain ⟨env, o⟩ := c
    obtain ⟨hmem, hns, hvol⟩ := hcalls (env, o) (by simp)
    simp only at hns hvol
    subst hns hvol
    have hrestcalls : ∀ c ∈ rest, c ∈ all ∧ c.1.podNamespaceEnv = env.podNamespaceEnv ∧
        c.2.VolumeName = o.VolumeName := fun c hc => hcalls c (by simp [hc])
    rcases attach_step_fresh all env w o hmem hnone with ⟨h1, h2⟩ | h
    · have hrest := ih (attach env w o).2 hrestcalls h1
      simp only [attachAll, rwSuccesses, List.countP_cons] at hrest ⊢
      simp only [h2, Bool.and_false, Bool.false_eq_true, if_false, Nat.add_zero]
      exact hrest
    · have hrest := attachAll_held all env.podNamespaceEnv o.VolumeName hlive rest
        (attach env w o).2 hrestcalls h
      simp only [attachAll, rwSuccesses, List.countP_cons] at hrest ⊢
      rw [hrest]
      split <;> omega

/-! ## Removal, parsing, and the order of attach -/

theorem registryGet_world (env : Env) (w : World) (ns name : String) :
    (registryGet env w ns name).2 = w.log (.registryGet ns name) := by
  unfold registryGet
  cases env.getFault with
  | some e => rfl
  | none => cases lookup w.registry ns name <;> rfl

theorem registryGet_ok {env : Env} {w : World} {ns name : String} {obj : VolumeAttachment}
    (h : (registryGet env w ns name).1 = .ok obj) :
    env.getFault = none ∧ lookup w.registry ns name = some obj := by
  unfold registryGet at h
  cases hg : env.getFault with
  | some e => simp [hg] at h
  | none =>
    cases hl : lookup w.registry ns name with
    | none => simp [hg, hl] at h
    | some o =>
      simp only [hg, hl] at h
      cases h
      exact ⟨rfl, rfl⟩

theorem registryGet_error {env : Env} {w : World} {ns name : String} {e : RegistryError}
    (h : (registryGet env w ns name).1 = .error e) :
    registryGet env w ns name = (.error e, w.log (.registryGet ns name)) := by
  have h2 := registryGet_world env w ns name
  generalize registryGet env w ns name = r at h h2
  obtain ⟨r1, r2⟩ := r
  simp only at h h2
  rw [h, h2]

theorem splitChars_ne_nil (sep : Char) (l : List Char) : splitChars sep l ≠ [] := by
  induction l with
  | nil => simp [splitChars]
  | cons c cs ih =>
    unfold splitChars
    split
    · simp
    · split <;> simp

theorem splitChars_append_sep (sep : Char) (l1 l2 : List Char) :
    splitChars sep (l1 ++ sep :: l2) = splitChars sep l1 ++ splitChars sep l2 := by
  induction l1 with
  | nil => simp [splitChars]
  | cons c cs ih =>
    by_cases hc : c = sep
    · simp [splitChars, hc, ih]
    · have hne := splitChars_ne_nil sep cs
      cases hs : splitChars sep cs with
      | nil => exact absurd hs hne
      | cons t ts =>
        show splitChars sep (c :: (cs ++ sep :: l2)) = splitChars sep (c :: cs) ++ splitChars sep l2
        rw [splitChars, splitChars, if_neg hc, if_neg hc, ih, hs]
        rfl

theorem splitChars_of_not_mem (sep : Char) (l : List Char) (h : sep ∉ l) :
    splitChars sep l = [l] := by
  induction l with
  | nil => rfl
  | cons c cs ih =>
    have hc : c ≠ sep := fun hc => h (by simp [hc])
    have hcs : sep ∉ cs := fun hcs => h (by simp [hcs])
    simp [splitChars, hc, ih hcs]

theorem getPodAndPVNameFromMountDir_of_tokens (mountDir : String) (front : List String)
    (t1 t2 t3 t4 t5 : String) (h : Split mountDir = front ++ [t1, t2, t3, t4, t5]) :
    getPodAndPVNameFromMountDir mountDir = .ok (t2, t5) := by
  unfold getPodAndPVNameFromMountDir
  simp only [h]
  have hlen : (front ++ [t1, t2, t3, t4, t5]).length = front.length + 5 := by simp
  rw [hlen]
  have h4 : front.length + 5 - 4 = front.length + 1 := by omega
  have h1 : front.length + 5 - 1 = front.length + 4 := by omega
  have hlt : ¬ (front.length + 5 < 5) := by omega
  rw [if_neg hlt, h4, h1]
  have e4 : (front ++ [t1, t2, t3, t4, t5])[front.length + 1]? = some t2 := by
    rw [List.getElem?_append_right (by omega)]
    simp
  have e1 : (front ++ [t1, t2, t3, t4, t5])[front.length + 4]? = some t5 := by
    rw [List.getElem?_append_right (by omega)]
    simp
  rw [e4, e1]

theorem noBackendAttach_refl (w : World) : noBackendAttach w w :=
  ⟨[], by simp, by simp⟩

theorem noBackendAttach_log {w w2 : World} (h : noBackendAttach w w2) (c : Call)
    (hc : isBackendAttach c = false) : noBackendAttach w (w2.log c) := by
  obtain ⟨new, h1, h2⟩ := h
  refine ⟨new ++ [c], by simp [h1], ?_⟩
  intro d hd
  rcases List.mem_append.mp hd with hd | hd
  · exact h2 d hd
  · simp only [List.mem_singleton] at hd
    rw [hd]
    exact hc

/-! ## Teardown -/

theorem lookup_remove (reg : List VolumeAttachment) (ns name : String) :
    lookup (remove reg ns name) ns name = none := by
  unfold lookup remove
  rw [List.find?_eq_none]
  intro o ho
  have h2 := (List.mem_filter.mp ho).2
  simp only [Bool.not_eq_true'] at h2 ⊢
  simpa using h2

theorem registryDelete_world (host : Host) (w : World) (ns name : String) :
    (registryDelete host w ns name).2.calls = w.calls ++ [.registryDelete ns name] := by
  unfold registryDelete
  cases host.deleteFault with
  | some e => rfl
  | none => cases lookup w.registry ns name <;> rfl

theorem removeAttachmentObject_ok (env : Env) (w : World) (o : AttachOptions)
    {obj : VolumeAttachment} {pre post : List Attachment} {a : Attachment}
    (hget : env.getFault = none) (hupdate : env.updateFault = none)
    (hobj : lookup w.registry env.podNamespaceEnv o.VolumeName = some obj)
    (hsplit : obj.Attachments = pre ++ a :: post)
    (hpre : ∀ b ∈ pre, b.MountDir ≠ o.MountDir) (ha : a.MountDir = o.MountDir) :
    (removeAttachmentObject env w o).1 = .ok () ∧
      lookup (removeAttachmentObject env w o).2.registry env.podNamespaceEnv o.VolumeName =
        some { obj with Attachments := pre ++ post } := by
  have hkey := lookup_key hobj
  have hupd := registryUpdate_ok env (w.log (.registryGet env.podNamespaceEnv o.VolumeName))
    { obj with Attachments := pre ++ post } obj hupdate (by simpa [hkey.1, hkey.2] using hobj)
  rw [removeAttachmentObject_of_split env w o hget hobj hsplit hpre ha, hupd]
  exact ⟨rfl, lookup_overwrite _ hobj hkey.1 hkey.2⟩

theorem detach_of_record (env : Env) (host : Host) (w : World) (o : AttachOptions)
    {obj : VolumeAttachment}
    (hdetach : host.volumeManagerDetach o.Image o.Pool o.ClusterName = .ok ())
    (hget : env.getFault = none) (hdelete : host.deleteFault = none)
    (hobj : lookup w.registry env.podNamespaceEnv o.VolumeName = some obj) :
    (detach env host w o).1 = .ok () ∧
      (obj.Attachments = [] →
        lookup (detach env host w o).2.registry env.podNamespaceEnv o.VolumeName = none ∧
        (detach env host w o).2.calls = w.calls ++
          [.backendDetach o.Image o.Pool o.ClusterName,
           .registryGet env.podNamespaceEnv o.VolumeName,
           .registryDelete env.podNamespaceEnv o.VolumeName]) ∧
      (obj.Attachments ≠ [] →
        (detach env host w o).2.registry = w.registry ∧
        (detach env host w o).2.calls = w.calls ++
          [.backendDetach o.Image o.Pool o.ClusterName,
           .registryGet env.podNamespaceEnv o.VolumeName]) := by
  cases hatt : obj.Attachments with
  | nil =>
    have hd : detach env host w o = (.ok (), { (((w.log (.backendDetach o.Image o.Pool
        o.ClusterName)).log (.registryGet env.podNamespaceEnv o.VolumeName)).log
        (.registryDelete env.podNamespaceEnv o.VolumeName)) with
        registry := remove w.registry env.podNamespaceEnv o.VolumeName }) := by
      simp [detach, hdetach, registryGet, hget, hobj, hatt, registryDelete, hdelete]
    rw [hd]
    refine ⟨rfl, fun _ => ⟨lookup_remove _ _ _, by simp⟩, fun h => absurd rfl h⟩
  | cons x xs =>
    have hd : detach env host w o = (.ok (), (w.log (.backendDetach o.Image o.Pool
        o.ClusterName)).log (.registryGet env.podNamespaceEnv o.VolumeName)) := by
      simp [detach, hdetach, registryGet, hget, hobj, hatt]
    rw [hd]
    refine ⟨rfl, ?_, fun _ => ⟨rfl, by simp⟩⟩
    intro h
    cases h

theorem detach_calls (env : Env) (host : Host) (w : World) (o : AttachOptions) :
    ∃ rest, (detach env host w o).2.calls =
      w.calls ++ .backendDetach o.Image o.Pool o.ClusterName :: rest := by
  unfold detach
  cases host.volumeManagerDetach o.Image o.Pool o.ClusterName with
  | error _ => exact ⟨[], rfl⟩
  | ok _ =>
    have hw := registryGet_world env (w.log (.backendDetach o.Image o.Pool o.ClusterName))
      env.podNamespaceEnv o.VolumeName
    dsimp only
    split
    · have hd := registryDelete_world host
        (registryGet env (w.log (.backendDetach o.Image o.Pool o.ClusterName))
          env.podNamespaceEnv o.VolumeName).2 env.podNamespaceEnv o.VolumeName
      split
      · rename_i e w3 heq
        rw [heq] at hd
        simp only at hd
        exact ⟨[.registryGet env.podNamespaceEnv o.VolumeName,
          .registryDelete env.podNamespaceEnv o.VolumeName], by simp [hd, hw]⟩
      · rename_i u w3 heq
        rw [heq] at hd
        simp only at hd
        exact ⟨[.registryGet env.podNamespaceEnv o.VolumeName,
          .registryDelete env.podNamespaceEnv o.VolumeName], by simp [hd, hw]⟩
    · exact ⟨[.registryGet env.podNamespaceEnv o.VolumeName], by simp [hw]⟩

/-! ## Mount and Unmount -/

theorem Mount_eq (env : Env) (host : Host) (w : World) (o : AttachOptions)
    (h : (getAttachInfoFromMountDir env host w o).1 ≠ .error .nilPointerDereference) :
    Mount env host w o = mountResolved env host (getAttachInfoFromMountDir env host w o).2.2
      (getAttachInfoFromMountDir env host w o).2.1 := by
  unfold Mount
  generalize getAttachInfoFromMountDir env host w o = res at h ⊢
  obtain ⟨r, o1, w1⟩ := res
  split
  · rename_i heq
    simp only [Prod.mk.injEq] at heq
    exact absurd heq.1 h
  · rename_i heq
    simp only [Prod.mk.injEq] at heq
    obtain ⟨_, h2, h3⟩ := heq
    rw [h2, h3]

theorem Unmount_eq (env : Env) (host : Host) (w : World) (o : AttachOptions)
    (h : (getAttachInfoFromMountDir env host w o).1 ≠ .error .nilPointerDereference) :
    Unmount env host w o = unmountResolved env host (getAttachInfoFromMountDir env host w o).2.2
      (getAttachInfoFromMountDir env host w o).2.1 := by
  unfold Unmount
  generalize getAttachInfoFromMountDir env host w o = res at h ⊢
  obtain ⟨r, o1, w1⟩ := res
  split
  · rename_i heq
    simp only [Prod.mk.injEq] at heq
    exact absurd heq.1 h
  · rename_i heq
    simp only [Prod.mk.injEq] at heq
    obtain ⟨_, h2, h3⟩ := heq
    rw [h2, h3]

theorem Mount_Unmount_panic (env : Env) (host : Host) (w : World) (o : AttachOptions)
    (h : (getAttachInfoFromMountDir env host w o).1 = .error .nilPointerDereference) :
    Mount env host w o =
        (.error .nilPointerDereference, (getAttachInfoFromMountDir env host w o).2.2) ∧
      Unmount env host w o =
        (.error .nilPointerDereference, (getAttachInfoFromMountDir env host w o).2.2) := by
  unfold Mount Unmount
  generalize getAttachInfoFromMountDir env host w o = res at h ⊢
  obtain ⟨r, o1, w1⟩ := res
  simp only at h
  subst h
  exact ⟨rfl, rfl⟩

theorem keepsSupplied_refl (o : AttachOptions) : keepsSupplied o o :=
  ⟨rfl, rfl, rfl, fun _ => ⟨rfl, rfl⟩, fun _ => rfl, fun _ => rfl, fun _ => rfl, fun _ => rfl,
    fun _ => rfl⟩

theorem keepsSupplied_trans {o o1 o2 : AttachOptions} (h1 : keepsSupplied o o1)
    (h2 : keepsSupplied o1 o2) : keepsSupplied o o2 := by
  obtain ⟨a1, a2, a3, a4, a5, a6, a7, a8, a9⟩ := h1
  obtain ⟨b1, b2, b3, b4, b5, b6, b7, b8, b9⟩ := h2
  refine ⟨b1.trans a1, b2.trans a2, b3.trans a3, ?_, ?_, ?_, ?_, ?_, ?_⟩
  · intro h
    obtain ⟨p, q⟩ := a4 h
    obtain ⟨p2, q2⟩ := b4 (by rw [p]; exact h)
    exact ⟨p2.trans p, q2.trans q⟩
  · intro h
    exact (b5 (by rw [a5 h]; exact h)).trans (a5 h)
  · intro h
    exact (b6 (by rw [a6 h]; exact h)).trans (a6 h)
  · intro h
    exact (b7 (by rw [a7 h]; exact h)).trans (a7 h)
  · intro h
    exact (b8 (by rw [a8 h]; exact h)).trans (a8 h)
  · intro h
    exact (b9 (by rw [a9 h]; exact h)).trans (a9 h)

theorem resolvePodAndVolume_keeps {o o1 : AttachOptions} (h : resolvePodAndVolume o = .ok o1) :
    keepsSupplied o o1 := by
  unfold resolvePodAndVolume at h
  by_cases hp : o.PodID = ""
  · simp only [hp, beq_self_eq_true, if_true] at h
    split at h
    · cases h
    · cases h
      exact ⟨rfl, rfl, rfl, fun hne => absurd hp hne, fun _ => rfl, fun _ => rfl, fun _ => rfl,
        fun _ => rfl, fun _ => rfl⟩
  · have hb : (o.PodID == "") = false := by simpa using hp
    simp only [hb, Bool.false_eq_true, if_false] at h
    cases h
    exact keepsSupplied_refl o

theorem resolvePodNamespace_keeps {pv : PersistentVolume} {o o1 : AttachOptions}
    (h : resolvePodNamespace pv o = .ok o1) : keepsSupplied o o1 := by
  unfold resolvePodNamespace at h
  by_cases hp : o.PodNamespace = ""
  · simp only [hp, beq_self_eq_true, if_true] at h
    split at h
    · cases h
    · cases h
      exact ⟨rfl, rfl, rfl, fun _ => ⟨rfl, rfl⟩, fun _ => rfl, fun hne => absurd hp hne,
        fun _ => rfl, fun _ => rfl, fun _ => rfl⟩
  · have hb : (o.PodNamespace == "") = false := by simpa using hp
    simp only [hb, Bool.false_eq_true, if_false] at h
    cases h
    exact keepsSupplied_refl o

theorem resolvePod_keeps {env : Env} {host : Host} {w : World} {o o1 : AttachOptions}
    (h : (resolvePod env host w o).1 = .ok o1) : keepsSupplied o o1 := by
  unfold resolvePod at h
  by_cases hp : o.Pod = ""
  · simp only [hp, beq_self_eq_true, if_true] at h
    split at h
    · cases h
    · split at h
      · cases h
        exact ⟨rfl, rfl, rfl, fun _ => ⟨rfl, rfl⟩, fun hne => absurd hp hne, fun _ => rfl,
          fun _ => rfl, fun _ => rfl, fun _ => rfl⟩
      · cases h
        exact keepsSupplied_refl o
  · have hb : (o.Pod == "") = false := by simpa using hp
    simp only [hb, Bool.false_eq_true, if_false] at h
    cases h
    exact keepsSupplied_refl o

theorem flexVolumeOption_keeps {pv : PersistentVolume} {current key value : String}
    (h : flexVolumeOption pv current key = .ok value) : current ≠ "" → value = current := by
  intro hne
  have hb : (current == "") = false := by simpa using hne
  simp only [flexVolumeOption, hb, Bool.false_eq_true, if_false] at h
  cases h
  rfl

theorem resolveVolumeSource_keeps (pv : PersistentVolume) (o : AttachOptions) :
    keepsSupplied o (resolveVolumeSource pv o).2 := by
  unfold resolveVolumeSource
  split
  · exact keepsSupplied_refl o
  · rename_i image himage
    dsimp only
    split
    · exact ⟨rfl, rfl, rfl, fun _ => ⟨rfl, rfl⟩, fun _ => rfl, fun _ => rfl, fun _ => rfl,
        flexVolumeOption_keeps himage, fun _ => rfl⟩
    · rename_i pool hpool
      split
      · exact ⟨rfl, rfl, rfl, fun _ => ⟨rfl, rfl⟩, fun _ => rfl, fun _ => rfl,
          flexVolumeOption_keeps hpool, flexVolumeOption_keeps himage, fun _ => rfl⟩
      · rename_i sc hsc
        exact ⟨rfl, rfl, rfl, fun _ => ⟨rfl, rfl⟩, fun _ => rfl, fun _ => rfl,
          flexVolumeOption_keeps hpool, flexVolumeOption_keeps himage,
          flexVolumeOption_keeps hsc⟩

theorem keepsSupplied_clusterName {o o1 : AttachOptions} (h : keepsSupplied o o1)
    (clusterName : String) : keepsSupplied o { o1 with ClusterName := clusterName } := h

/-- Resolution only fills in what the request left empty. -/
theorem getAttachInfoFromMountDir_keeps (env : Env) (host : Host) (w : World)
    (o : AttachOptions) : keepsSupplied o (getAttachInfoFromMountDir env host w o).2.1 := by
  unfold getAttachInfoFromMountDir
  split
  · exact keepsSupplied_refl o
  · rename_i o1 h1
    have k1 := resolvePodAndVolume_keeps h1
    dsimp only
    split
    · exact k1
    · rename_i pv _
      split
      · exact k1
      · rename_i o2 h2
        have k2 := keepsSupplied_trans k1 (resolvePodNamespace_keeps h2)
        split
        · exact k2
        · rename_i o3 w2 h3
          have k3 := keepsSupplied_trans k2
            (resolvePod_keeps (by rw [h3] : (resolvePod env host _ o2).1 = .ok o3))
          have k4 := keepsSupplied_trans k3 (resolveVolumeSource_keeps pv o3)
          split
          · rename_i e o4 h4
            rw [h4] at k4
            exact k4
          · rename_i o4 h4
            rw [h4] at k4
            split
            · exact keepsSupplied_clusterName k4 ""
            · exact keepsSupplied_clusterName k4 _


/-! ## The mount stages -/

theorem mountDevice_mounted (host : Host) (w : World) (o : AttachOptions) (devicePath : String)
    (h : host.isLikelyNotMountPoint w.calls (getGlobalMountPath host o.VolumeName) = .ok false) :
    mountDevice host w o devicePath =
      (.ok (), w.log (.isLikelyNotMountPoint (getGlobalMountPath host o.VolumeName))) := by
  simp [mountDevice, h]

theorem mountDevice_check_failed (host : Host) (w : World) (o : AttachOptions)
    (devicePath : String)
    (h : host.isLikelyNotMountPoint w.calls (getGlobalMountPath host o.VolumeName) =
      .error .other) :
    mountDevice host w o devicePath =
      (.error (.mountPointCheckFailed (getGlobalMountPath host o.VolumeName)),
        w.log (.isLikelyNotMountPoint (getGlobalMountPath host o.VolumeName))) := by
  simp [mountDevice, h]

theorem mountDevice_mkdir_failed (host : Host) (w : World) (o : AttachOptions)
    (devicePath cause : String)
    (h : host.isLikelyNotMountPoint w.calls (getGlobalMountPath host o.VolumeName) =
      .error .notExist)
    (h1 : host.mkdirAll
      (w.calls ++ [.isLikelyNotMountPoint (getGlobalMountPath host o.VolumeName)])
      (getGlobalMountPath host o.VolumeName) = .error cause) :
    mountDevice host w o devicePath =
      (.error (.createGlobalMountPathFailed (getGlobalMountPath host o.VolumeName)),
        (w.log (.isLikelyNotMountPoint (getGlobalMountPath host o.VolumeName))).log
          (.mkdirAll (getGlobalMountPath host o.VolumeName))) := by
  simp [mountDevice, h, h1, World.log]

theorem mountDevice_not_mounted (host : Host) (w : World) (o : AttachOptions)
    (devicePath : String)
    (h : host.isLikelyNotMountPoint w.calls (getGlobalMountPath host o.VolumeName) = .ok true) :
    mountDevice host w o devicePath =
      match host.formatAndMount
        (w.calls ++ [.isLikelyNotMountPoint (getGlobalMountPath host o.VolumeName)])
        devicePath (getGlobalMountPath host o.VolumeName) o.FsType [o.RW] with
      | .ok _ => (.ok (), (w.log (.isLikelyNotMountPoint (getGlobalMountPath host o.VolumeName))).log
          (.formatAndMount devicePath (getGlobalMountPath host o.VolumeName) o.FsType [o.RW]))
      | .error _ =>
        (.error (.mountDeviceFailed devicePath o.FsType (getGlobalMountPath host o.VolumeName)),
          ((w.log (.isLikelyNotMountPoint (getGlobalMountPath host o.VolumeName))).log
            (.formatAndMount devicePath (getGlobalMountPath host o.VolumeName) o.FsType
              [o.RW])).log (.remove (getGlobalMountPath host o.VolumeName))) := by
  simp only [mountDevice, h, World.log, if_true, List.append_assoc, List.singleton_append]
  cases host.formatAndMount
    (w.calls ++ [.isLikelyNotMountPoint (getGlobalMountPath host o.VolumeName)])
    devicePath (getGlobalMountPath host o.VolumeName) o.FsType [o.RW] <;> rfl

theorem mountDevice_created (host : Host) (w : World) (o : AttachOptions)
    (devicePath : String)
    (h : host.isLikelyNotMountPoint w.calls (getGlobalMountPath host o.VolumeName) =
      .error .notExist)
    (h1 : host.mkdirAll
      (w.calls ++ [.isLikelyNotMountPoint (getGlobalMountPath host o.VolumeName)])
      (getGlobalMountPath host o.VolumeName) = .ok ()) :
    mountDevice host w o devicePath =
      match host.formatAndMount
        (w.calls ++ [.isLikelyNotMountPoint (getGlobalMountPath host o.VolumeName),
          .mkdirAll (getGlobalMountPath host o.VolumeName)])
        devicePath (getGlobalMountPath host o.VolumeName) o.FsType [o.RW] with
      | .ok _ => (.ok (), ((w.log (.isLikelyNotMountPoint (getGlobalMountPath host o.VolumeName))).log
          (.mkdirAll (getGlobalMountPath host o.VolumeName))).log
          (.formatAndMount devicePath (getGlobalMountPath host o.VolumeName) o.FsType [o.RW]))
      | .error _ =>
        (.error (.mountDeviceFailed devicePath o.FsType (getGlobalMountPath host o.VolumeName)),
          (((w.log (.isLikelyNotMountPoint (getGlobalMountPath host o.VolumeName))).log
            (.mkdirAll (getGlobalMountPath host o.VolumeName))).log
            (.formatAndMount devicePath (getGlobalMountPath host o.VolumeName) o.FsType
              [o.RW])).log (.remove (getGlobalMountPath host o.VolumeName))) := by
  simp only [mountDevice, h, World.log, h1, List.append_assoc, List.singleton_append]
  cases host.formatAndMount
    (w.calls ++ [.isLikelyNotMountPoint (getGlobalMountPath host o.VolumeName),
      .mkdirAll (getGlobalMountPath host o.VolumeName)])
    devicePath (getGlobalMountPath host o.VolumeName) o.FsType [o.RW] <;> rfl

theorem mount_ok (host : Host) (w : World) (o : AttachOptions)
    (h : host.mount w.calls (getGlobalMountPath host o.VolumeName) o.MountDir "" [o.RW, "bind"] =
      .ok ()) :
    mount host w o =
      (.ok (), w.log (.mount (getGlobalMountPath host o.VolumeName) o.MountDir "" [o.RW, "bind"])) := by
  simp [mount, h]

theorem mount_check_failed (host : Host) (w : World) (o : AttachOptions) (cause : String)
    (e : OsError)
    (h : host.mount w.calls (getGlobalMountPath host o.VolumeName) o.MountDir "" [o.RW, "bind"] =
      .error cause)
    (h1 : host.isLikelyNotMountPoint
      (w.calls ++ [.mount (getGlobalMountPath host o.VolumeName) o.MountDir "" [o.RW, "bind"]])
      o.MountDir = .error e) :
    (mount host w o).1 = .error (.isLikelyNotMountPointFailed o.MountDir) ∧
      newCalls w (mount host w o).2 =
        [.mount (getGlobalMountPath host o.VolumeName) o.MountDir "" [o.RW, "bind"],
          .isLikelyNotMountPoint o.MountDir] := by
  simp [mount, h, h1, World.log, newCalls]

theorem mount_not_mounted (host : Host) (w : World) (o : AttachOptions) (cause : String)
    (h : host.mount w.calls (getGlobalMountPath host o.VolumeName) o.MountDir "" [o.RW, "bind"] =
      .error cause)
    (h1 : host.isLikelyNotMountPoint
      (w.calls ++ [.mount (getGlobalMountPath host o.VolumeName) o.MountDir "" [o.RW, "bind"]])
      o.MountDir = .ok true) :
    (mount host w o).1 = .error (.mountVolumeFailed o.Pool o.Image
        (getGlobalMountPath host o.VolumeName) o.MountDir cause) ∧
      newCalls w (mount host w o).2 =
        [.mount (getGlobalMountPath host o.VolumeName) o.MountDir "" [o.RW, "bind"],
          .isLikelyNotMountPoint o.MountDir, .remove o.MountDir] := by
  simp [mount, h, h1, World.log, newCalls]

theorem mount_unmount_failed (host : Host) (w : World) (o : AttachOptions)
    (cause cause1 : String)
    (h : host.mount w.calls (getGlobalMountPath host o.VolumeName) o.MountDir "" [o.RW, "bind"] =
      .error cause)
    (h1 : host.isLikelyNotMountPoint
      (w.calls ++ [.mount (getGlobalMountPath host o.VolumeName) o.MountDir "" [o.RW, "bind"]])
      o.MountDir = .ok false)
    (h2 : host.unmount
      (w.calls ++ [.mount (getGlobalMountPath host o.VolumeName) o.MountDir "" [o.RW, "bind"],
        .isLikelyNotMountPoint o.MountDir]) o.MountDir = .error cause1) :
    (mount host w o).1 = .error (.unmountFailed o.MountDir) ∧
      newCalls w (mount host w o).2 =
        [.mount (getGlobalMountPath host o.VolumeName) o.MountDir "" [o.RW, "bind"],
          .isLikelyNotMountPoint o.MountDir, .unmount o.MountDir] := by
  simp [mount, h, h1, h2, World.log, newCalls]

theorem mount_recheck_failed (host : Host) (w : World) (o : AttachOptions) (cause : String)
    (e : OsError)
    (h : host.mount w.calls (getGlobalMountPath host o.VolumeName) o.MountDir "" [o.RW, "bind"] =
      .error cause)
    (h1 : host.isLikelyNotMountPoint
      (w.calls ++ [.mount (getGlobalMountPath host o.VolumeName) o.MountDir "" [o.RW, "bind"]])
      o.MountDir = .ok false)
    (h2 : host.unmount
      (w.calls ++ [.mount (getGlobalMountPath host o.VolumeName) o.MountDir "" [o.RW, "bind"],
        .isLikelyNotMountPoint o.MountDir]) o.MountDir = .ok ())
    (h3 : host.isLikelyNotMountPoint
      (w.calls ++ [.mount (getGlobalMountPath host o.VolumeName) o.MountDir "" [o.RW, "bind"],
        .isLikelyNotMountPoint o.MountDir, .unmount o.MountDir]) o.MountDir = .error e) :
    (mount host w o).1 = .error (.isLikelyNotMountPointFailed o.MountDir) ∧
      newCalls w (mount host w o).2 =
        [.mount (getGlobalMountPath host o.VolumeName) o.MountDir "" [o.RW, "bind"],
          .isLikelyNotMountPoint o.MountDir, .unmount o.MountDir,
          .isLikelyNotMountPoint o.MountDir] := by
  simp [mount, h, h1, h2, h3, World.log, newCalls]

theorem mount_still_mounted (host : Host) (w : World) (o : AttachOptions) (cause : String)
    (h : host.mount w.calls (getGlobalMountPath host o.VolumeName) o.MountDir "" [o.RW, "bind"] =
      .error cause)
    (h1 : host.isLikelyNotMountPoint
      (w.calls ++ [.mount (getGlobalMountPath host o.VolumeName) o.MountDir "" [o.RW, "bind"]])
      o.MountDir = .ok false)
    (h2 : host.unmount
      (w.calls ++ [.mount (getGlobalMountPath host o.VolumeName) o.MountDir "" [o.RW, "bind"],
        .isLikelyNotMountPoint o.MountDir]) o.MountDir = .ok ())
    (h3 : host.isLikelyNotMountPoint
      (w.calls ++ [.mount (getGlobalMountPath host o.VolumeName) o.MountDir "" [o.RW, "bind"],
        .isLikelyNotMountPoint o.MountDir, .unmount o.MountDir]) o.MountDir = .ok false) :
    (mount host w o).1 = .error (.stillMounted o.MountDir) ∧
      newCalls w (mount host w o).2 =
        [.mount (getGlobalMountPath host o.VolumeName) o.MountDir "" [o.RW, "bind"],
          .isLikelyNotMountPoint o.MountDir, .unmount o.MountDir,
          .isLikelyNotMountPoint o.MountDir] := by
  simp [mount, h, h1, h2, h3, World.log, newCalls]

theorem mount_unmounted (host : Host) (w : World) (o : AttachOptions) (cause : String)
    (h : host.mount w.calls (getGlobalMountPath host o.VolumeName) o.MountDir "" [o.RW, "bind"] =
      .error cause)
    (h1 : host.isLikelyNotMountPoint
      (w.calls ++ [.mount (getGlobalMountPath host o.VolumeName) o.MountDir "" [o.RW, "bind"]])
      o.MountDir = .ok false)
    (h2 : host.unmount
      (w.calls ++ [.mount (getGlobalMountPath host o.VolumeName) o.MountDir "" [o.RW, "bind"],
        .isLikelyNotMountPoint o.MountDir]) o.MountDir = .ok ())
    (h3 : host.isLikelyNotMountPoint
      (w.calls ++ [.mount (getGlobalMountPath host o.VolumeName) o.MountDir "" [o.RW, "bind"],
        .isLikelyNotMountPoint o.MountDir, .unmount o.MountDir]) o.MountDir = .ok true) :
    (mount host w o).1 = .error (.mountVolumeFailed o.Pool o.Image
        (getGlobalMountPath host o.VolumeName) o.MountDir cause) ∧
      newCalls w (mount host w o).2 =
        [.mount (getGlobalMountPath host o.VolumeName) o.MountDir "" [o.RW, "bind"],
          .isLikelyNotMountPoint o.MountDir, .unmount o.MountDir,
          .isLikelyNotMountPoint o.MountDir, .remove o.MountDir] := by
  simp [mount, h, h1, h2, h3, World.log, newCalls]

/-! ## Resolution: what is filled in, and from where -/

theorem resolvePodAndVolume_frame {o o1 : AttachOptions} (h : resolvePodAndVolume o = .ok o1) :
    o1.PodNamespace = o.PodNamespace ∧ o1.Pool = o.Pool ∧ o1.Image = o.Image ∧
      o1.StorageClass = o.StorageClass := by
  unfold resolvePodAndVolume at h
  split at h
  · split at h
    · cases h
    · cases h
      exact ⟨rfl, rfl, rfl, rfl⟩
  · cases h
    exact ⟨rfl, rfl, rfl, rfl⟩

theorem resolvePodNamespace_ok {pv : PersistentVolume} {o o1 : AttachOptions}
    (h : resolvePodNamespace pv o = .ok o1) :
    (o.PodNamespace = "" → pv.ClaimRef = some o1.PodNamespace) ∧ o1.Pool = o.Pool ∧
      o1.Image = o.Image ∧ o1.StorageClass = o.StorageClass ∧ o1.VolumeName = o.VolumeName := by
  unfold resolvePodNamespace at h
  split at h
  · split at h
    · cases h
    · rename_i ns hns
      cases h
      exact ⟨fun _ => hns, rfl, rfl, rfl, rfl⟩
  · rename_i hne
    cases h
    exact ⟨fun he => absurd (by simp [he]) hne, rfl, rfl, rfl, rfl⟩

theorem resolvePod_frame {env : Env} {host : Host} {w : World} {o o1 : AttachOptions}
    (h : (resolvePod env host w o).1 = .ok o1) :
    o1.PodNamespace = o.PodNamespace ∧ o1.Pool = o.Pool ∧ o1.Image = o.Image ∧
      o1.StorageClass = o.StorageClass ∧ o1.VolumeName = o.VolumeName := by
  unfold resolvePod at h
  dsimp only at h
  split at h
  · split at h
    · cases h
    · split at h
      · cases h
        exact ⟨rfl, rfl, rfl, rfl, rfl⟩
      · cases h
        exact ⟨rfl, rfl, rfl, rfl, rfl⟩
  · cases h
    exact ⟨rfl, rfl, rfl, rfl, rfl⟩

theorem resolvePod_calls (env : Env) (host : Host) (w : World) (o : AttachOptions) :
    ∃ new, (resolvePod env host w o).2.calls = w.calls ++ new := by
  unfold resolvePod
  dsimp only
  split
  · split
    · exact ⟨[_], rfl⟩
    · split
      · exact ⟨[_], rfl⟩
      · exact ⟨[_], rfl⟩
  · exact ⟨[], by simp⟩

theorem flexVolumeOption_ok {pv : PersistentVolume} {current key value : String}
    (h : flexVolumeOption pv current key = .ok value) (he : current = "") :
    ∃ options, pv.FlexVolume = some options ∧ value = mapGet options key := by
  subst he
  simp only [flexVolumeOption, beq_self_eq_true, if_true] at h
  split at h
  · cases h
  · rename_i options hopt
    cases h
    exact ⟨options, hopt, rfl⟩

theorem resolveVolumeSource_frame (pv : PersistentVolume) (o : AttachOptions) :
    (resolveVolumeSource pv o).2.PodNamespace = o.PodNamespace ∧
      (resolveVolumeSource pv o).2.VolumeName = o.VolumeName := by
  unfold resolveVolumeSource
  split
  · exact ⟨rfl, rfl⟩
  · dsimp only
    split
    · exact ⟨rfl, rfl⟩
    · split
      · exact ⟨rfl, rfl⟩
      · exact ⟨rfl, rfl⟩

theorem resolveVolumeSource_ok {pv : PersistentVolume} {o o1 : AttachOptions}
    (h : resolveVolumeSource pv o = (.ok (), o1)) :
    (o.Pool = "" → ∃ options, pv.FlexVolume = some options ∧ o1.Pool = mapGet options PoolKey) ∧
      (o.Image = "" →
        ∃ options, pv.FlexVolume = some options ∧ o1.Image = mapGet options ImageKey) ∧
      (o.StorageClass = "" →
        ∃ options, pv.FlexVolume = some options ∧
          o1.StorageClass = mapGet options StorageClassKey) := by
  unfold resolveVolumeSource at h
  split at h
  · cases h
  · rename_i image himage
    dsimp only at h
    split at h
    · cases h
    · rename_i pool hpool
      split at h
      · cases h
      · rename_i sc hsc
        cases h
        exact ⟨fun he => flexVolumeOption_ok hpool he, fun he => flexVolumeOption_ok himage he,
          fun he => flexVolumeOption_ok hsc he⟩

theorem parseClusterName_ok {host : Host} {w w1 : World} {storageClassName clusterName : String}
    (h : parseClusterName host w storageClassName = (.ok clusterName, w1)) :
    ∃ sc, host.storageClassesGet storageClassName = .ok sc ∧
      clusterName = (sc.Parameters.lookup "clusterName").getD DefaultClusterName := by
  unfold parseClusterName at h
  dsimp only at h
  split at h
  · cases h
  · rename_i sc hsc
    split at h
    · rename_i hnone
      cases h
      exact ⟨sc, hsc, by rw [hnone]; rfl⟩
    · rename_i c hsome
      cases h
      exact ⟨sc, hsc, by rw [hsome]; rfl⟩

theorem parseClusterName_calls (host : Host) (w : World) (storageClassName : String) :
    (parseClusterName host w storageClassName).2 =
      w.log (.storageClassesGet storageClassName) := by
  unfold parseClusterName
  dsimp only
  split
  · rfl
  · split <;> rfl

/-- What a successful resolution has read, and from where. -/
theorem getAttachInfoFromMountDir_ok (env : Env) (host : Host) (w : World) (o r : AttachOptions)
    (w1 : World) (h : getAttachInfoFromMountDir env host w o = (.ok (), r, w1)) :
    ∃ pv sc, host.persistentVolumesGet r.VolumeName = .ok pv ∧
      host.storageClassesGet r.StorageClass = .ok sc ∧
      (o.PodNamespace = "" → pv.ClaimRef = some r.PodNamespace) ∧
      (o.Pool = "" → ∃ options, pv.FlexVolume = some options ∧ r.Pool = mapGet options PoolKey) ∧
      (o.Image = "" →
        ∃ options, pv.FlexVolume = some options ∧ r.Image = mapGet options ImageKey) ∧
      (o.StorageClass = "" →
        ∃ options, pv.FlexVolume = some options ∧
          r.StorageClass = mapGet options StorageClassKey) ∧
      r.ClusterName = (sc.Parameters.lookup "clusterName").getD DefaultClusterName := by
  unfold getAttachInfoFromMountDir at h
  split at h
  · cases h
  · rename_i o1 h1
    dsimp only at h
    split at h
    · cases h
    · rename_i pv hpv
      split at h
      · cases h
      · rename_i o2 h2
        split at h
        · cases h
        · rename_i o3 w2 h3
          split at h
          · cases h
          · rename_i o4 h4
            split at h
            · cases h
            · rename_i c w3 h5
              cases h
              obtain ⟨f1n, f1p, f1i, f1s⟩ := resolvePodAndVolume_frame h1
              obtain ⟨n2, f2p, f2i, f2s, f2v⟩ := resolvePodNamespace_ok h2
              obtain ⟨f3n, f3p, f3i, f3s, f3v⟩ :=
                resolvePod_frame (by rw [h3] : (resolvePod env host _ o2).1 = .ok o3)
              have f4 := resolveVolumeSource_frame pv o3
              rw [h4] at f4
              obtain ⟨f4n, f4v⟩ := f4
              obtain ⟨s4p, s4i, s4s⟩ := resolveVolumeSource_ok h4
              obtain ⟨sc, hsc, hc⟩ := parseClusterName_ok h5
              refine ⟨pv, sc, ?_, hsc, ?_, ?_, ?_, ?_, hc⟩
              · show host.persistentVolumesGet o4.VolumeName = .ok pv
                rw [f4v, f3v, f2v]
                exact hpv
              · intro he
                show pv.ClaimRef = some o4.PodNamespace
                rw [f4n, f3n]
                exact n2 (by rw [f1n]; exact he)
              · intro he
                exact s4p (by rw [f3p, f2p, f1p]; exact he)
              · intro he
                exact s4i (by rw [f3i, f2i, f1i]; exact he)
              · intro he
                exact s4s (by rw [f3s, f2s, f1s]; exact he)

/-- The volume name after the first step of resolution is the one looked up
and the one left in the options, however resolution ends. -/
theorem getAttachInfoFromMountDir_volume (env : Env) (host : Host) (w : World)
    (o o1 : AttachOptions) (h : resolvePodAndVolume o = .ok o1) :
    (getAttachInfoFromMountDir env host w o).2.1.VolumeName = o1.VolumeName ∧
      ∃ rest, newCalls w (getAttachInfoFromMountDir env host w o).2.2 =
        .persistentVolumesGet o1.VolumeName :: rest := by
  unfold getAttachInfoFromMountDir
  rw [h]
  dsimp only
  split
  · exact ⟨rfl, [], by simp [newCalls, World.log]⟩
  · rename_i pv hpv
    split
    · exact ⟨rfl, [], by simp [newCalls, World.log]⟩
    · rename_i o2 h2
      obtain ⟨_, _, _, _, f2v⟩ := resolvePodNamespace_ok h2
      obtain ⟨new, hnew⟩ := resolvePod_calls env host
        (w.log (.persistentVolumesGet o1.VolumeName)) o2
      split
      · rename_i e w2 h3
        rw [h3] at hnew
        exact ⟨f2v, new, by simp at hnew; simp [newCalls, hnew]⟩
      · rename_i o3 w2 h3
        rw [h3] at hnew
        obtain ⟨_, _, _, _, f3v⟩ :=
          resolvePod_frame (by rw [h3] : (resolvePod env host _ o2).1 = .ok o3)
        have f4 := (resolveVolumeSource_frame pv o3).2
        split
        · rename_i e o4 h4
          rw [h4] at f4
          exact ⟨by rw [f4, f3v, f2v], new, by simp at hnew; simp [newCalls, hnew]⟩
        · rename_i o4 h4
          rw [h4] at f4
          have hw := parseClusterName_calls host w2 o4.StorageClass
          split
          · rename_i e w3 h5
            rw [h5] at hw
            simp only at hw
            refine ⟨by show o4.VolumeName = _; rw [f4, f3v, f2v],
              new ++ [.storageClassesGet o4.StorageClass], ?_⟩
            simp at hnew
            simp [newCalls, hw, World.log, hnew]
          · rename_i c w3 h5
            rw [h5] at hw
            simp only at hw
            refine ⟨by show o4.VolumeName = _; rw [f4, f3v, f2v],
              new ++ [.storageClassesGet o4.StorageClass], ?_⟩
            simp at hnew
            simp [newCalls, hw, World.log, hnew]

theorem getPodAndPVNameFromMountDir_last (mountDir : String)
    (h : 5 ≤ (Split mountDir).length) :
    ∃ podID pvName, getPodAndPVNameFromMountDir mountDir = .ok (podID, pvName) ∧
      (Split mountDir).getLast? = some pvName := by
  unfold getPodAndPVNameFromMountDir
  dsimp only
  rw [if_neg (by omega)]
  have h4 : (Split mountDir).length - 4 < (Split mountDir).length := by omega
  have h1 : (Split mountDir).length - 1 < (Split mountDir).length := by omega
  refine ⟨(Split mountDir)[(Split mountDir).length - 4], (Split mountDir)[(Split mountDir).length - 1], ?_, ?_⟩
  · rw [List.getElem?_eq_getElem h4, List.getElem?_eq_getElem h1]
  · rw [List.getLast?_eq_getElem?, List.getElem?_eq_getElem h1]

/-! ## What a successful create or append leaves in the registry -/

theorem attachRecord_appended (env : Env) (w : World) (obj : VolumeAttachment)
    (o : AttachOptions) (hno : ∀ a ∈ obj.Attachments, a.MountDir ≠ o.MountDir)
    (hok : succeeded (attachRecord env w obj o).1 = true) :
    (attachRecord env w obj o).2.registry = overwrite w.registry
      { obj with Attachments := obj.Attachments ++ [requestAttachment env o] } := by
  have hf : obj.Attachments.any (fun a => a.MountDir == o.MountDir) = false := by
    rw [List.any_eq_false]
    intro a ha
    simpa using hno a ha
  unfold attachRecord at hok ⊢
  simp only [hf, Bool.not_false, if_true] at hok ⊢
  have hu := registryUpdate_eq env w
    { obj with Attachments := obj.Attachments ++ [requestAttachment env o] }
  simp only [requestAttachment] at hu hok ⊢
  rcases hu with h | ⟨e, h⟩
  · rw [h]
    exact attachDevice_registry env _ o
  · rw [h] at hok
    cases hok

/-- A successful `attach` on a registry with no read-write attachment for the
volume and no attachment at the request's mount path has created the record or
appended the request's attachment to it. -/
theorem attach_created_or_appended (env : Env) (w : World) (o : AttachOptions)
    (hget : env.getFault = none)
    (hno : ∀ obj, lookup w.registry env.podNamespaceEnv o.VolumeName = some obj →
      ∀ a ∈ obj.Attachments, a.MountDir ≠ o.MountDir)
    (hro : ∀ obj, lookup w.registry env.podNamespaceEnv o.VolumeName = some obj →
      ∀ a ∈ obj.Attachments, a.ReadOnly = true)
    (hok : succeeded (attach env w o).1 = true) :
    (lookup w.registry env.podNamespaceEnv o.VolumeName = none ∧
      (attach env w o).2.registry = w.registry ++
        [NewVolumeAttachment o.VolumeName env.podNamespaceEnv env.nodeNameEnv o.PodNamespace
          o.Pod o.MountDir (ToLower o.RW == ReadOnly)]) ∨
    (∃ obj, lookup w.registry env.podNamespaceEnv o.VolumeName = some obj ∧
      (attach env w o).2.registry = overwrite w.registry
        { obj with Attachments := obj.Attachments ++ [requestAttachment env o] }) := by
  rcases Option.eq_none_or_eq_some (lookup w.registry env.podNamespaceEnv o.VolumeName)
    with hnone | ⟨obj, hobj⟩
  · rcases attach_create_outcome env w o (Or.inr ⟨hget, hnone⟩) with ⟨hf, _⟩ | h
    · rw [hf] at hok
      cases hok
    · exact Or.inl h
  · right
    refine ⟨obj, hobj, ?_⟩
    have ha := attach_no_holder env w o hget hobj (hro obj hobj)
    by_cases hc : (o.RW == "rw" && obj.Attachments.length > 0) = true
    · rw [ha, if_pos hc] at hok
      cases hok
    · rw [ha, if_neg hc] at hok ⊢
      exact attachRecord_appended env _ obj o (hno obj hobj) hok

/-! ## Records without mixing -/

theorem noMixing_all_read_only {l : List Attachment} (hinv : noMixing l)
    (hmem : ∃ a ∈ l, a.ReadOnly = true) : ∀ b ∈ l, b.ReadOnly = true := by
  intro b hb
  cases hro : b.ReadOnly with
  | true => rfl
  | false =>
    obtain ⟨a, ha, hat⟩ := hmem
    have hl := hinv b hb hro
    rw [hl] at ha
    simp only [List.mem_singleton] at ha
    rw [ha, hro] at hat
    cases hat

theorem noMixing_erase {pre post : List Attachment} {a : Attachment}
    (hinv : noMixing (pre ++ a :: post)) : noMixing (pre ++ post) := by
  intro b hb hro
  have hb1 : b ∈ pre ++ a :: post := by
    simp only [List.mem_append, List.mem_cons] at hb ⊢
    rcases hb with h | h
    · exact Or.inl h
    · exact Or.inr (Or.inr h)
  have hl := congrArg List.length (hinv b hb1 hro)
  simp only [List.length_append, List.length_cons, List.length_nil] at hl
  have hpre : pre = [] := List.length_eq_zero.mp (by omega)
  have hpost : post = [] := List.length_eq_zero.mp (by omega)
  subst hpre hpost
  simp at hb

/-- The removal of an attachment keeps a record without mixing. -/
theorem removeAttachmentObject_keeps_no_mixing (env : Env) (w : World) (o : AttachOptions)
    (hinv : noMixing (storedAttachments w.registry env.podNamespaceEnv o.VolumeName)) :
    noMixing (storedAttachments (removeAttachmentObject env w o).2.registry
      env.podNamespaceEnv o.VolumeName) := by
  rcases removeAttachmentObject_registry_cases env w o with h | ⟨obj, pre, a, post, hl, hs, _, _, h⟩
  · rw [h]
    exact hinv
  · have hstored : storedAttachments (removeAttachmentObject env w o).2.registry
        env.podNamespaceEnv o.VolumeName = pre ++ post := by
      have hlo : lookup (overwrite w.registry { obj with Attachments := pre ++ post })
          env.podNamespaceEnv o.VolumeName = some { obj with Attachments := pre ++ post } :=
        lookup_overwrite _ hl (lookup_key hl).1 (lookup_key hl).2
      unfold storedAttachments
      rw [h, hlo]
    rw [hstored]
    have hbefore : storedAttachments w.registry env.podNamespaceEnv o.VolumeName =
        pre ++ a :: post := by
      unfold storedAttachments
      rw [hl]
      exact hs
    rw [hbefore] at hinv
    exact noMixing_erase hinv

/-- With a read-only attachment in the record and a read-write holder that, if
there is one, is not orphaned, a request with mode "rw" fails and the registry
is left as it was. -/
theorem attach_rw_fails_unless_orphan (env : Env) (w : World) (o : AttachOptions)
    (obj : VolumeAttachment)
    (hobj : lookup w.registry env.podNamespaceEnv o.VolumeName = some obj)
    (hmem : ∃ a ∈ obj.Attachments, a.ReadOnly = true)
    (hholder : ∀ pre a post, obj.Attachments = pre ++ a :: post →
      (∀ b ∈ pre, b.ReadOnly = true) → a.ReadOnly = false →
      env.podGet a.PodNamespace a.PodName ≠ .notFound)
    (hrw : o.RW = "rw") :
    succeeded (attach env w o).1 = false ∧ (attach env w o).2.registry = w.registry := by
  cases hg : env.getFault with
  | some e =>
    by_cases he : e = .notFound
    · subst he
      rcases attach_create_outcome env w o (Or.inl hg) with h | ⟨h1, _⟩
      · exact h
      · rw [hobj] at h1
        cases h1
    · rw [attach_get_failed env w o hg he]
      exact ⟨rfl, rfl⟩
  | none =>
    rcases attachments_cases obj with hall | ⟨pre, a, post, hsplit, hpre, ha⟩
    · rw [attach_no_holder env w o hg hobj hall]
      obtain ⟨b, hb, _⟩ := hmem
      have hlen : obj.Attachments.length > 0 := List.length_pos.mpr (List.ne_nil_of_mem hb)
      rw [if_pos (by simp [hrw, hlen])]
      exact ⟨rfl, rfl⟩
    · rw [attach_holder env w o hg hobj hsplit hpre ha]
      have hp := hholder pre a post hsplit hpre ha
      cases hpod : env.podGet a.PodNamespace a.PodName with
      | found phase => exact ⟨rfl, rfl⟩
      | notFound => exact absurd hpod hp
      | failed => exact ⟨rfl, rfl⟩

/-- A record without mixing has at most one read-write attachment. -/
theorem noMixing_rwCount_le {l : List Attachment} (hinv : noMixing l) : rwCount l ≤ 1 := by
  by_cases h : ∃ b ∈ l, b.ReadOnly = false
  · obtain ⟨b, hb, hro⟩ := h
    rw [hinv b hb hro]
    simp [rwCount, List.countP_cons, hro]
  · have hall : ∀ a ∈ l, a.ReadOnly = true := by
      intro a ha
      cases hr : a.ReadOnly with
      | true => rfl
      | false => exact absurd ⟨a, ha, hr⟩ h
    rw [rwCount_of_all_ro hall]
    omega

/-! ## Resolution: which fields come out non-empty -/

theorem resolvePodAndVolume_parsed {o o1 : AttachOptions} (h : resolvePodAndVolume o = .ok o1) :
    (o.PodID = "" → getPodAndPVNameFromMountDir o.MountDir = .ok (o1.PodID, o1.VolumeName)) ∧
      o1.Pod = o.Pod := by
  unfold resolvePodAndVolume at h
  split at h
  · split at h
    · cases h
    · rename_i podID pvName hp
      cases h
      exact ⟨fun _ => hp, rfl⟩
  · rename_i hne
    cases h
    exact ⟨fun he => absurd (by simp [he]) hne, rfl⟩

theorem resolvePodNamespace_identity {pv : PersistentVolume} {o o1 : AttachOptions}
    (h : resolvePodNamespace pv o = .ok o1) : o1.PodID = o.PodID ∧ o1.Pod = o.Pod := by
  unfold resolvePodNamespace at h
  split at h
  · split at h
    · cases h
    · cases h
      exact ⟨rfl, rfl⟩
  · cases h
    exact ⟨rfl, rfl⟩

theorem resolvePod_ok {env : Env} {host : Host} {w : World} {o o1 : AttachOptions}
    (h : (resolvePod env host w o).1 = .ok o1) :
    o1.PodID = o.PodID ∧
      (o.Pod = "" → ∃ pods, host.podsList o.PodNamespace env.nodeNameEnv = .ok pods ∧
        o1.Pod = match findPodByID pods o.PodID with
          | some pod => pod.Name
          | none => "") := by
  unfold resolvePod at h
  dsimp only at h
  split at h
  · rename_i hempty
    have he : o.Pod = "" := by simpa using hempty
    split at h
    · cases h
    · rename_i pods hpods
      split at h
      · rename_i pod hpod
        cases h
        exact ⟨rfl, fun _ => ⟨pods, hpods, by simp only [hpod]⟩⟩
      · rename_i hnone
        cases h
        exact ⟨rfl, fun _ => ⟨pods, hpods, by simp only [hnone]; exact he⟩⟩
  · rename_i hne
    cases h
    exact ⟨rfl, fun he => absurd (by simp [he]) hne⟩

theorem resolveVolumeSource_identity (pv : PersistentVolume) (o : AttachOptions) :
    (resolveVolumeSource pv o).2.PodID = o.PodID ∧ (resolveVolumeSource pv o).2.Pod = o.Pod := by
  unfold resolveVolumeSource
  split
  · exact ⟨rfl, rfl⟩
  · dsimp only
    split
    · exact ⟨rfl, rfl⟩
    · split
      · exact ⟨rfl, rfl⟩
      · exact ⟨rfl, rfl⟩

/-- Where a successful resolution has taken pod ID, volume name and pod name
from, when the request left them empty. -/
theorem getAttachInfoFromMountDir_identity (env : Env) (host : Host) (w : World)
    (o r : AttachOptions) (w1 : World)
    (h : getAttachInfoFromMountDir env host w o = (.ok (), r, w1)) :
    (o.PodID = "" → getPodAndPVNameFromMountDir o.MountDir = .ok (r.PodID, r.VolumeName)) ∧
      (o.Pod = "" → ∃ pods, host.podsList r.PodNamespace env.nodeNameEnv = .ok pods ∧
        r.Pod = match findPodByID pods r.PodID with
          | some pod => pod.Name
          | none => "") := by
  unfold getAttachInfoFromMountDir at h
  split at h
  · cases h
  · rename_i o1 h1
    dsimp only at h
    split at h
    · cases h
    · rename_i pv hpv
      split at h
      · cases h
      · rename_i o2 h2
        split at h
        · cases h
        · rename_i o3 w2 h3
          split at h
          · cases h
          · rename_i o4 h4
            split at h
            · cases h
            · rename_i c w3 h5
              cases h
              obtain ⟨p1, f1pod⟩ := resolvePodAndVolume_parsed h1
              obtain ⟨_, _, _, _, f2v⟩ := resolvePodNamespace_ok h2
              obtain ⟨f2id, f2pod⟩ := resolvePodNamespace_identity h2
              obtain ⟨f3n, _, _, _, f3v⟩ :=
                resolvePod_frame (by rw [h3] : (resolvePod env host _ o2).1 = .ok o3)
              obtain ⟨f3id, p3⟩ :=
                resolvePod_ok (by rw [h3] : (resolvePod env host _ o2).1 = .ok o3)
              have f4 := resolveVolumeSource_frame pv o3
              have f4i := resolveVolumeSource_identity pv o3
              rw [h4] at f4 f4i
              obtain ⟨f4n, f4v⟩ := f4
              obtain ⟨f4id, f4pod⟩ := f4i
              have hid : o4.PodID = o1.PodID := by rw [f4id, f3id, f2id]
              have hvol : o4.VolumeName = o1.VolumeName := by rw [f4v, f3v, f2v]
              refine ⟨fun he => ?_, fun he => ?_⟩
              · show getPodAndPVNameFromMountDir o.MountDir = .ok (o4.PodID, o4.VolumeName)
                rw [hid, hvol]
                exact p1 he
              · obtain ⟨pods, hpods, hpod⟩ := p3 (by rw [f2pod, f1pod]; exact he)
                refine ⟨pods, ?_, ?_⟩
                · show host.podsList o4.PodNamespace env.nodeNameEnv = .ok pods
                  rw [f4n, f3n]
                  exact hpods
                · show o4.Pod = match findPodByID pods o4.PodID with
                    | some pod => pod.Name
                    | none => ""
                  rw [f4pod, hpod, f4id, f3id]

theorem filled_ne_empty_iff {given result : String} {source : Prop}
    (hkeep : given ≠ "" → result = given)
    (hfill : given = "" → (result ≠ "" ↔ source)) :
    result ≠ "" ↔ given ≠ "" ∨ source := by
  by_cases he : given = ""
  · rw [hfill he]
    constructor
    · exact Or.inr
    · rintro (h | h)
      · exact absurd he h
      · exact h
  · constructor
    · exact fun _ => Or.inl he
    · intro _
      rw [hkeep he]
      exact he
/-! ## The claims -/

/-- C1. Single read-write holder is an invariant of the attachment record: if
the record stored for the volume (when there is one) has at most one attachment
with read-only = false, then so has the record stored after `attach` returns,
for every request, mode string, pod-lookup answer and registry or backend
outcome, whether the call succeeds or fails; and so has the record stored after
`removeAttachmentObject` returns. -/
theorem single_read_write_holder_preserved (env : Env) (w : World) (o : AttachOptions)
    (hinv : ∀ obj, lookup w.registry env.podNamespaceEnv o.VolumeName = some obj →
      rwCount obj.Attachments ≤ 1) :
    (∀ obj, lookup (attach env w o).2.registry env.podNamespaceEnv o.VolumeName = some obj →
      rwCount obj.Attachments ≤ 1) ∧
    (∀ obj, lookup (removeAttachmentObject env w o).2.registry env.podNamespaceEnv o.VolumeName
      = some obj → rwCount obj.Attachments ≤ 1) := by
  constructor
  · intro stored hstored
    rcases attach_record_cases env w o with h | ⟨_, h⟩ | ⟨obj, _, hro, _, _, h⟩ |
      ⟨obj, pre, a, post, hl, hsplit, _, ha, _, h⟩
    · exact hinv stored (h ▸ hstored)
    · rw [h] at hstored
      cases hstored
      exact rwCount_singleton_le _
    · rw [h] at hstored
      cases hstored
      show rwCount (obj.Attachments ++ [requestAttachment env o]) ≤ 1
      rw [rwCount_append, rwCount_of_all_ro hro]
      simpa using rwCount_singleton_le (requestAttachment env o)
    · rw [h] at hstored
      cases hstored
      have hold := hinv obj hl
      rw [hsplit, rwCount_split, ha] at hold
      show rwCount (pre ++ requestAttachment env o :: post) ≤ 1
      rw [rwCount_split]
      simp only [Bool.false_eq_true, if_false] at hold
      split <;> omega
  · intro stored hstored
    rcases removeAttachmentObject_registry_cases env w o with h | ⟨obj, pre, a, post, hl, hsplit, _, _, h⟩
    · exact hinv stored (h ▸ hstored)
    · rw [h, lookup_overwrite { obj with Attachments := pre ++ post } hl (lookup_key hl).1
        (lookup_key hl).2] at hstored
      cases hstored
      have hold := hinv obj hl
      rw [hsplit, rwCount_split] at hold
      show rwCount (pre ++ post) ≤ 1
      rw [rwCount_append]
      omega

/-- Witness: pod `A` holds `pv1` read-write and is gone, pod `B` attaches
read-write; pod `A` holds `pv1` and its attachment is removed. -/
theorem single_read_write_holder_preserved_witness :
    lookup (attach envGone (worldOf [attachmentA]) optsB).2.registry "rook-system" "pv1" =
        some (recordOf [attachmentB]) ∧
      rwCount (recordOf [attachmentB]).Attachments ≤ 1 ∧
      lookup (removeAttachmentObject envLive (worldOf [attachmentA]) optsA).2.registry
        "rook-system" "pv1" = some (recordOf []) ∧
      rwCount (recordOf []).Attachments ≤ 1 :=
  ⟨by decide,
    (single_read_write_holder_preserved envGone (worldOf [attachmentA]) optsB
      (fun obj h => by
        have h2 : lookup (worldOf [attachmentA]).registry envGone.podNamespaceEnv
            optsB.VolumeName = some (recordOf [attachmentA]) := by decide
        rw [h2] at h
        cases h
        decide)).1 (recordOf [attachmentB]) (by decide),
    by decide,
    (single_read_write_holder_preserved envLive (worldOf [attachmentA]) optsA
      (fun obj h => by
        have h2 : lookup (worldOf [attachmentA]).registry envLive.podNamespaceEnv
            optsA.VolumeName = some (recordOf [attachmentA]) := by decide
        rw [h2] at h
        cases h
        decide)).2 (recordOf []) (by decide)⟩

/-- C2. Starting from no record for a volume, in every sequence of attach calls
on that volume (same agent namespace, same volume name) in which every
environment finds the pod of every call of the sequence, whatever the registry
and backend outcomes and with nothing but these calls acting on the registry,
at most one call with mode "rw" returns success.  The pods need not even be
distinct. -/
theorem at_most_one_rw_attach_succeeds (w : World) (ns vol : String)
    (calls : List (Env × AttachOptions))
    (hnone : lookup w.registry ns vol = none)
    (hvol : ∀ c ∈ calls, c.1.podNamespaceEnv = ns ∧ c.2.VolumeName = vol)
    (hlive : ∀ c ∈ calls, ∀ d ∈ calls,
      ∃ phase, c.1.podGet d.2.PodNamespace d.2.Pod = .found phase) :
    rwSuccesses (attachAll w calls).1 ≤ 1 :=
  attachAll_fresh calls ns vol hlive calls w (fun c hc => ⟨hc, hvol c hc⟩) hnone

/-- Witness: pods `A` and `B` ask for `pv1` read-write and pod `P` read-only,
in this order, all present: only the request of `A` succeeds. -/
theorem at_most_one_rw_attach_succeeds_witness :
    rwSuccesses (attachAll worldEmpty [(envLive, optsA), (envLive, optsB), (envLive, optsP)]).1
        ≤ 1 ∧
      rwSuccesses (attachAll worldEmpty [(envLive, optsA), (envLive, optsB), (envLive, optsP)]).1
        = 1 :=
  ⟨at_most_one_rw_attach_succeeds worldEmpty "rook-system" "pv1"
    [(envLive, optsA), (envLive, optsB), (envLive, optsP)] (by decide) (by decide)
    (fun c hc _ _ => by
      simp only [List.mem_cons, List.mem_singleton, List.not_mem_nil, or_false] at hc
      rcases hc with rfl | rfl | rfl <;> exact ⟨"Running", rfl⟩),
    by decide⟩

/-- C3. If the record's read-write holder (the first read-write attachment, the
one whose pod `attach` looks up; under the single-holder invariant the only
one) belongs to a pod that is still present, then `attach` fails with the
already-attached error, for a request of any mode from any pod, so for mode
"rw" from a different pod; the registry is left as it was, and the only calls
made are the registry Get and the pod lookup: no Create, no Update, no call of
the device backend. -/
theorem attach_rw_fails_while_holder_present (env : Env) (w : World) (o : AttachOptions)
    (obj : VolumeAttachment) (pre post : List Attachment) (a : Attachment) (phase : String)
    (hget : env.getFault = none)
    (hobj : lookup w.registry env.podNamespaceEnv o.VolumeName = some obj)
    (hsplit : obj.Attachments = pre ++ a :: post)
    (hpre : ∀ b ∈ pre, b.ReadOnly = true) (ha : a.ReadOnly = false)
    (hlive : env.podGet a.PodNamespace a.PodName = .found phase) :
    (attach env w o).1 =
        .error (.alreadyAttachedByPod o.VolumeName a.PodNamespace a.PodName phase) ∧
      (attach env w o).2.registry = w.registry ∧
      (attach env w o).2.calls = w.calls ++
        [.registryGet env.podNamespaceEnv o.VolumeName, .podGet a.PodNamespace a.PodName] := by
  rw [attach_holder env w o hget hobj hsplit hpre ha, hlive]
  simp

/-- Witness: pod `A` holds `pv1` read-write and is present, pod `B` requests
read-write. -/
theorem attach_rw_fails_while_holder_present_witness :
    (attach envLive (worldOf [attachmentA]) optsB).1 =
        .error (.alreadyAttachedByPod "pv1" "default" "A" "Running") ∧
      (attach envLive (worldOf [attachmentA]) optsB).2.registry = [recordOf [attachmentA]] ∧
      (attach envLive (worldOf [attachmentA]) optsB).2.calls =
        [.registryGet "rook-system" "pv1", .podGet "default" "A"] :=
  attach_rw_fails_while_holder_present envLive (worldOf [attachmentA]) optsB
    (recordOf [attachmentA]) [] [] attachmentA "Running" rfl (by decide) rfl
    (by decide) rfl rfl

/-- C4. Orphan reclamation: if the record's first read-write attachment belongs
to a pod that no longer exists (the pod lookup returns not-found) and the
registry Update and the backend Attach succeed, then a read-write `attach`
succeeds with the backend's device path, and the stored record has the same
number of attachments as before: the orphaned attachment now carries the
request's node, mount path, pod namespace, pod name and read-only flag (false),
and every other attachment is unchanged and in place. -/
theorem attach_rw_reclaims_orphan (env : Env) (w : World) (o : AttachOptions)
    (obj : VolumeAttachment) (pre post : List Attachment) (a : Attachment) (devicePath : String)
    (hget : env.getFault = none)
    (hobj : lookup w.registry env.podNamespaceEnv o.VolumeName = some obj)
    (hsplit : obj.Attachments = pre ++ a :: post)
    (hpre : ∀ b ∈ pre, b.ReadOnly = true) (ha : a.ReadOnly = false)
    (hgone : env.podGet a.PodNamespace a.PodName = .notFound)
    (hupdate : env.updateFault = none)
    (hbackend : env.volumeManagerAttach o.Image o.Pool o.ClusterName = .ok devicePath)
    (hrw : o.RW = "rw") :
    (attach env w o).1 = .ok devicePath ∧
      ∃ stored, lookup (attach env w o).2.registry env.podNamespaceEnv o.VolumeName = some stored ∧
        stored.Name = obj.Name ∧ stored.Namespace = obj.Namespace ∧
        stored.Attachments.length = obj.Attachments.length ∧
        stored.Attachments = pre ++
          { Node := env.nodeNameEnv, PodNamespace := o.PodNamespace, PodName := o.Pod,
            MountDir := o.MountDir, ReadOnly := false } :: post := by
  have hreq : requestAttachment env o =
      { Node := env.nodeNameEnv, PodNamespace := o.PodNamespace, PodName := o.Pod,
        MountDir := o.MountDir, ReadOnly := false } := by
    simp [requestAttachment, hrw, ReadOnly]
  have hkey := lookup_key hobj
  have hupd := registryUpdate_ok env
    ((w.log (.registryGet env.podNamespaceEnv o.VolumeName)).log
      (.podGet a.PodNamespace a.PodName))
    { obj with Attachments := pre ++ requestAttachment env o :: post } obj hupdate
    (by simpa [hkey.1, hkey.2] using hobj)
  rw [attach_holder env w o hget hobj hsplit hpre ha, hgone]
  simp only []
  rw [hupd]
  simp only []
  rw [attachRecord_found env _ _ o ⟨requestAttachment env o, by simp, rfl⟩]
  refine ⟨by simp [attachDevice, hbackend], ?_⟩
  refine ⟨{ obj with Attachments := pre ++ requestAttachment env o :: post }, ?_, rfl, rfl, ?_, ?_⟩
  · rw [attachDevice_registry]
    exact lookup_overwrite _ hobj hkey.1 hkey.2
  · simp [hsplit]
  · simp [hreq]

/-- Witness: pod `A` holds `pv1` read-write and is gone, pod `B` requests
read-write from `node2`. -/
theorem attach_rw_reclaims_orphan_witness :
    (attach envGone (worldOf [attachmentA]) optsB).1 = .ok "/dev/rbd0" ∧
      ∃ stored, lookup (attach envGone (worldOf [attachmentA]) optsB).2.registry
          "rook-system" "pv1" = some stored ∧
        stored.Name = "pv1" ∧ stored.Namespace = "rook-system" ∧
        stored.Attachments.length = 1 ∧
        stored.Attachments = [attachmentB] :=
  attach_rw_reclaims_orphan envGone (worldOf [attachmentA]) optsB
    (recordOf [attachmentA]) [] [] attachmentA "/dev/rbd0" rfl (by decide) rfl
    (by decide) rfl rfl rfl rfl rfl

/-- C5, the claim as stated fails: pod `A` holds `pv1` read-write and is still
present; the registry and the backend have no fault; the request of pod `B`
with mode "ro" does not succeed, it gets the already-attached error. -/
theorem attach_ro_fails_while_holder_present :
    lookup (worldOf [attachmentA]).registry envLive.podNamespaceEnv optsBro.VolumeName =
        some (recordOf [attachmentA]) ∧
      attachmentA.ReadOnly = false ∧ optsBro.RW = "ro" ∧
      envLive.getFault = none ∧ envLive.updateFault = none ∧
      envLive.volumeManagerAttach optsBro.Image optsBro.Pool optsBro.ClusterName =
        .ok "/dev/rbd0" ∧
      (attach envLive (worldOf [attachmentA]) optsBro).1 =
        .error (.alreadyAttachedByPod "pv1" "default" "A" "Running") := by
  decide

/-- C5, amended. For a record with a read-write holder (its first read-write
attachment), given that the registry Get and Update and the backend Attach
succeed, an attach request with mode "ro" succeeds when the holder's pod no
longer exists (the pod lookup returns not-found), the holder's attachment
being overwritten by the request's, read-only; when the holder's pod is still
present the request fails with the already-attached error, and when the pod
lookup itself fails it fails with that error. -/
theorem attach_ro_with_holder (env : Env) (w : World) (o : AttachOptions)
    (obj : VolumeAttachment) (pre post : List Attachment) (a : Attachment) (devicePath : String)
    (hget : env.getFault = none)
    (hobj : lookup w.registry env.podNamespaceEnv o.VolumeName = some obj)
    (hsplit : obj.Attachments = pre ++ a :: post)
    (hpre : ∀ b ∈ pre, b.ReadOnly = true) (ha : a.ReadOnly = false)
    (hupdate : env.updateFault = none)
    (hbackend : env.volumeManagerAttach o.Image o.Pool o.ClusterName = .ok devicePath)
    (hro : o.RW = "ro") :
    (env.podGet a.PodNamespace a.PodName = .notFound →
      (attach env w o).1 = .ok devicePath ∧
      lookup (attach env w o).2.registry env.podNamespaceEnv o.VolumeName =
        some { obj with Attachments := pre ++
          { Node := env.nodeNameEnv, PodNamespace := o.PodNamespace, PodName := o.Pod,
            MountDir := o.MountDir, ReadOnly := true } :: post }) ∧
    (∀ phase, env.podGet a.PodNamespace a.PodName = .found phase → (attach env w o).1 =
      .error (.alreadyAttachedByPod o.VolumeName a.PodNamespace a.PodName phase)) ∧
    (env.podGet a.PodNamespace a.PodName = .failed → (attach env w o).1 =
      .error (.getPodFailed a.PodNamespace a.PodName)) := by
  have hreq : requestAttachment env o =
      { Node := env.nodeNameEnv, PodNamespace := o.PodNamespace, PodName := o.Pod,
        MountDir := o.MountDir, ReadOnly := true } := by
    simp [requestAttachment, hro, ReadOnly]
  have hkey := lookup_key hobj
  have hupd := registryUpdate_ok env
    ((w.log (.registryGet env.podNamespaceEnv o.VolumeName)).log
      (.podGet a.PodNamespace a.PodName))
    { obj with Attachments := pre ++ requestAttachment env o :: post } obj hupdate
    (by simpa [hkey.1, hkey.2] using hobj)
  rw [attach_holder env w o hget hobj hsplit hpre ha]
  refine ⟨?_, ?_, ?_⟩
  · intro hgone
    rw [hgone]
    simp only []
    rw [hupd]
    simp only []
    rw [attachRecord_found env _ _ o ⟨requestAttachment env o, by simp, rfl⟩]
    refine ⟨by simp [attachDevice, hbackend], ?_⟩
    rw [attachDevice_registry, ← hreq]
    exact lookup_overwrite _ hobj hkey.1 hkey.2
  · intro phase hlive
    rw [hlive]
  · intro hfailed
    rw [hfailed]

/-- Witness: pod `A` holds `pv1` read-write, pod `B` requests read-only, once
with pod `A` gone and once with pod `A` present. -/
theorem attach_ro_with_holder_witness :
    ((attach envGone (worldOf [attachmentA]) optsBro).1 = .ok "/dev/rbd0" ∧
      lookup (attach envGone (worldOf [attachmentA]) optsBro).2.registry "rook-system" "pv1" =
        some (recordOf [{ attachmentB with ReadOnly := true }])) ∧
    (attach envLive (worldOf [attachmentA]) optsBro).1 =
      .error (.alreadyAttachedByPod "pv1" "default" "A" "Running") :=
  ⟨(attach_ro_with_holder envGone (worldOf [attachmentA]) optsBro (recordOf [attachmentA])
      [] [] attachmentA "/dev/rbd0" rfl (by decide) rfl (by decide) rfl rfl rfl rfl).1 rfl,
    (attach_ro_with_holder envLive (worldOf [attachmentA]) optsBro (recordOf [attachmentA])
      [] [] attachmentA "/dev/rbd0" rfl (by decide) rfl (by decide) rfl rfl rfl rfl).2.1
      "Running" rfl⟩

/-- C6. For every existing record that contains at least one read-only
attachment, among the records in which a read-write attachment, if present, is
the only attachment (the records `attach` stores, C26), an attach request with
mode "rw" fails, and the registry is left unchanged. -/
theorem attach_rw_fails_beside_read_only (env : Env) (w : World) (o : AttachOptions)
    (obj : VolumeAttachment)
    (hobj : lookup w.registry env.podNamespaceEnv o.VolumeName = some obj)
    (hmem : ∃ a ∈ obj.Attachments, a.ReadOnly = true)
    (hinv : noMixing obj.Attachments)
    (hrw : o.RW = "rw") :
    succeeded (attach env w o).1 = false ∧ (attach env w o).2.registry = w.registry := by
  have hall := noMixing_all_read_only hinv hmem
  refine attach_rw_fails_unless_orphan env w o obj hobj hmem ?_ hrw
  intro pre a post hsplit _ ha
  have hin : a ∈ obj.Attachments := by rw [hsplit]; simp
  rw [hall a hin] at ha
  cases ha

/-- Witness: pod `P` holds `pv1` read-only, pod `B` requests read-write. -/
theorem attach_rw_fails_beside_read_only_witness :
    succeeded (attach envLive (worldOf [attachmentP]) optsB).1 = false ∧
      (attach envLive (worldOf [attachmentP]) optsB).2.registry = [recordOf [attachmentP]] :=
  attach_rw_fails_beside_read_only envLive (worldOf [attachmentP]) optsB (recordOf [attachmentP])
    (by decide) ⟨attachmentP, by decide, rfl⟩ (by unfold noMixing; decide) rfl

/-- C7. First attach: when the registry has no record for the volume (Get
returns not-found) and Create and the backend Attach succeed, `attach` succeeds
and returns the backend's device path; the record created is stored under the
volume name, and it contains exactly one attachment, carrying the request's pod
name, pod namespace and mount path, whose read-only flag is false for mode "rw"
and true for mode "ro". -/
theorem attach_first_creates_record (env : Env) (w : World) (o : AttachOptions)
    (devicePath : String)
    (hget : env.getFault = none)
    (hnone : lookup w.registry env.podNamespaceEnv o.VolumeName = none)
    (hcreate : env.createFault = none)
    (hbackend : env.volumeManagerAttach o.Image o.Pool o.ClusterName = .ok devicePath) :
    (attach env w o).1 = .ok devicePath ∧
      ∃ a, lookup (attach env w o).2.registry env.podNamespaceEnv o.VolumeName =
          some { Name := o.VolumeName, Namespace := env.podNamespaceEnv, Attachments := [a] } ∧
        (attach env w o).2.registry = w.registry ++
          [{ Name := o.VolumeName, Namespace := env.podNamespaceEnv, Attachments := [a] }] ∧
        a.PodName = o.Pod ∧ a.PodNamespace = o.PodNamespace ∧ a.MountDir = o.MountDir ∧
        (o.RW = "rw" → a.ReadOnly = false) ∧ (o.RW = "ro" → a.ReadOnly = true) := by
  have hc : registryCreate env (w.log (.registryGet env.podNamespaceEnv o.VolumeName))
      (NewVolumeAttachment o.VolumeName env.podNamespaceEnv env.nodeNameEnv o.PodNamespace
        o.Pod o.MountDir (ToLower o.RW == ReadOnly)) =
      (.ok (), { (w.log (.registryGet env.podNamespaceEnv o.VolumeName)).log
        (.registryCreate (NewVolumeAttachment o.VolumeName env.podNamespaceEnv env.nodeNameEnv
          o.PodNamespace o.Pod o.MountDir (ToLower o.RW == ReadOnly))) with
        registry := w.registry ++ [NewVolumeAttachment o.VolumeName env.podNamespaceEnv
          env.nodeNameEnv o.PodNamespace o.Pod o.MountDir (ToLower o.RW == ReadOnly)] }) := by
    simp [registryCreate, hcreate, NewVolumeAttachment, hnone]
  rw [attach_not_found env w o (Or.inr ⟨hget, hnone⟩), hc]
  simp only []
  refine ⟨by simp [attachDevice, hbackend], ?_⟩
  refine ⟨⟨env.nodeNameEnv, o.PodNamespace, o.Pod, o.MountDir, ToLower o.RW == ReadOnly⟩,
    ?_, ?_, rfl, rfl, rfl, ?_, ?_⟩
  · rw [attachDevice_registry]
    exact lookup_append_of_none _ hnone rfl rfl
  · rw [attachDevice_registry]
    rfl
  · intro h
    show (ToLower o.RW == ReadOnly) = false
    rw [h]
    decide
  · intro h
    show (ToLower o.RW == ReadOnly) = true
    rw [h]
    decide

/-- Witness: no record, pod `A` requests read-write at
`/pods/A/volumes/v~d/pv1`: one attachment of pod `A`, not read-only. -/
theorem attach_first_creates_record_witness :
    (attach envLive worldEmpty optsA).1 = .ok "/dev/rbd0" ∧
      lookup (attach envLive worldEmpty optsA).2.registry "rook-system" "pv1" =
        some (recordOf [attachmentA]) ∧
      (attach envLive worldEmpty optsA).2.registry = [recordOf [attachmentA]] :=
  ⟨(attach_first_creates_record envLive worldEmpty optsA "/dev/rbd0" rfl (by decide) rfl rfl).1,
    by decide, by decide⟩

/-- C8, at the failing input: pod `A` attaches `pv1` read-write, which creates
the record; the same request issued again, with pod `A` still present, fails
with the already-attached error naming pod `A` itself.  The read-only request
of pod `P`, issued twice in the same way, succeeds the second time and leaves
the attachment list as it was. -/
theorem reattach_rw_by_holder_fails :
    (attach envLive worldEmpty optsA).1 = .ok "/dev/rbd0" ∧
      (attach envLive worldEmpty optsA).2.registry = [recordOf [attachmentA]] ∧
      (attach envLive (attach envLive worldEmpty optsA).2 optsA).1 =
        .error (.alreadyAttachedByPod "pv1" "default" "A" "Running") ∧
      (attach envLive worldEmpty optsP).2.registry = [recordOf [attachmentP]] ∧
      (attach envLive (attach envLive worldEmpty optsP).2 optsP).1 = .ok "/dev/rbd0" ∧
      (attach envLive (attach envLive worldEmpty optsP).2 optsP).2.registry =
        [recordOf [attachmentP]] := by
  decide

/-- C9. Mount paths are unique within a record: if in the record stored for
the volume no two attachments share a mount path and a read-write attachment,
if present, is the only attachment (so at most one is read-write; the records
`attach` stores, C26), then for every attach request the record stored after
`attach` returns has no two attachments with the same mount path, also when an
orphaned read-write attachment is overwritten with the request's mount path. -/
theorem attach_keeps_mount_paths_unique (env : Env) (w : World) (o : AttachOptions)
    (hnodup : (mountDirs (storedAttachments w.registry env.podNamespaceEnv
      o.VolumeName)).Nodup)
    (hinv : noMixing (storedAttachments w.registry env.podNamespaceEnv o.VolumeName)) :
    (mountDirs (storedAttachments (attach env w o).2.registry env.podNamespaceEnv
      o.VolumeName)).Nodup := by
  unfold storedAttachments at *
  rcases attach_record_cases env w o with h | ⟨_, h⟩ | ⟨obj, hl, _, _, hno, h⟩ |
    ⟨obj, pre, a, post, hl, h1, _, h3, _, h⟩
  · rw [h]
    exact hnodup
  · rw [h]
    simp [NewVolumeAttachment, mountDirs]
  · rw [h]
    rw [hl] at hnodup
    simp only [mountDirs, List.map_append, List.map_cons, List.map_nil] at hnodup ⊢
    rw [List.nodup_append]
    refine ⟨hnodup, List.nodup_singleton _, ?_⟩
    intro x hx hy
    simp only [List.mem_map] at hx
    simp only [List.mem_singleton] at hy
    obtain ⟨b, hb, hbx⟩ := hx
    exact hno b hb (by rw [hbx, hy]; rfl)
  · rw [h]
    rw [hl] at hinv
    have hinv1 : noMixing obj.Attachments := hinv
    have hone : obj.Attachments = [a] := hinv1 a (by rw [h1]; simp) h3
    rw [h1] at hone
    have hlen := congrArg List.length hone
    simp only [List.length_append, List.length_cons, List.length_nil] at hlen
    have hpre : pre = [] := List.length_eq_zero.mp (by omega)
    have hpost : post = [] := List.length_eq_zero.mp (by omega)
    subst hpre hpost
    simp [mountDirs]

/-- Witness: pod `A` holds `pv1` read-write and is gone; the request of pod `B`
overwrites its attachment. -/
theorem attach_keeps_mount_paths_unique_witness :
    (mountDirs (storedAttachments (worldOf [attachmentA]).registry envGone.podNamespaceEnv
        optsB.VolumeName)).Nodup ∧
      storedAttachments (attach envGone (worldOf [attachmentA]) optsB).2.registry
        envGone.podNamespaceEnv optsB.VolumeName = [attachmentB] ∧
      (mountDirs (storedAttachments (attach envGone (worldOf [attachmentA]) optsB).2.registry
        envGone.podNamespaceEnv optsB.VolumeName)).Nodup :=
  ⟨by decide, by decide,
    attach_keeps_mount_paths_unique envGone (worldOf [attachmentA]) optsB (by decide)
      (by unfold noMixing; decide)⟩

/-- C10. If the record stored for the volume contains an attachment whose mount
path equals the request's, and the registry Get and Update succeed, then
`removeAttachmentObject` succeeds and stores the record with exactly the first
attachment at that mount path removed, all other attachments kept in their
original order; the record is not deleted, even when the list becomes empty:
the calls made are the Get and the Update, and the record is still stored. -/
theorem removeAttachmentObject_removes_first (env : Env) (w : World) (o : AttachOptions)
    (obj : VolumeAttachment)
    (hget : env.getFault = none)
    (hobj : lookup w.registry env.podNamespaceEnv o.VolumeName = some obj)
    (hupdate : env.updateFault = none)
    (hmem : ∃ a ∈ obj.Attachments, a.MountDir = o.MountDir) :
    ∃ pre a post, obj.Attachments = pre ++ a :: post ∧
      (∀ b ∈ pre, b.MountDir ≠ o.MountDir) ∧ a.MountDir = o.MountDir ∧
      (removeAttachmentObject env w o).1 = .ok () ∧
      lookup (removeAttachmentObject env w o).2.registry env.podNamespaceEnv o.VolumeName =
        some { obj with Attachments := pre ++ post } ∧
      (removeAttachmentObject env w o).2.calls = w.calls ++
        [.registryGet env.podNamespaceEnv o.VolumeName,
         .registryUpdate { obj with Attachments := pre ++ post }] := by
  rcases findMountDir_cases obj.Attachments o.MountDir with ⟨_, hno⟩ |
    ⟨pre, a, post, hsplit, hpre, ha, _⟩
  · obtain ⟨a, ha, hm⟩ := hmem
    exact absurd hm (hno a ha)
  · have hkey := lookup_key hobj
    have hupd := registryUpdate_ok env (w.log (.registryGet env.podNamespaceEnv o.VolumeName))
      { obj with Attachments := pre ++ post } obj hupdate (by simpa [hkey.1, hkey.2] using hobj)
    refine ⟨pre, a, post, hsplit, hpre, ha, ?_⟩
    rw [removeAttachmentObject_of_split env w o hget hobj hsplit hpre ha, hupd]
    refine ⟨rfl, ?_, by simp⟩
    exact lookup_overwrite _ hobj hkey.1 hkey.2

/-- Witness: pod `A` holds `pv1` alone and its attachment is removed; the
record stays, with an empty list. -/
theorem removeAttachmentObject_removes_first_witness :
    ∃ pre a post, (recordOf [attachmentA]).Attachments = pre ++ a :: post ∧
      (∀ b ∈ pre, b.MountDir ≠ optsA.MountDir) ∧ a.MountDir = optsA.MountDir ∧
      (removeAttachmentObject envLive (worldOf [attachmentA]) optsA).1 = .ok () ∧
      lookup (removeAttachmentObject envLive (worldOf [attachmentA]) optsA).2.registry
        "rook-system" "pv1" = some (recordOf (pre ++ post)) ∧
      (removeAttachmentObject envLive (worldOf [attachmentA]) optsA).2.calls = [] ++
        [.registryGet "rook-system" "pv1",
         .registryUpdate (recordOf (pre ++ post))] :=
  removeAttachmentObject_removes_first envLive (worldOf [attachmentA]) optsA
    (recordOf [attachmentA]) rfl (by decide) rfl ⟨attachmentA, by decide, by decide⟩

/-- C11. `removeAttachmentObject` returns an error, leaves the registry as it
was and makes no call but the Get (so no Update), whenever the registry Get
fails, not-found included, or the record it returns has no attachment at the
request's mount path; in every other case its result is the result of the
registry Update of the record without its first attachment at that path, and
the world it leaves is the one that Update leaves. -/
theorem removeAttachmentObject_fails_or_updates (env : Env) (w : World) (o : AttachOptions) :
    (∀ e, (registryGet env w env.podNamespaceEnv o.VolumeName).1 = .error e →
      succeeded (removeAttachmentObject env w o).1 = false ∧
      (removeAttachmentObject env w o).2.registry = w.registry ∧
      (removeAttachmentObject env w o).2.calls =
        w.calls ++ [.registryGet env.podNamespaceEnv o.VolumeName]) ∧
    (∀ obj, (registryGet env w env.podNamespaceEnv o.VolumeName).1 = .ok obj →
      (∀ a ∈ obj.Attachments, a.MountDir ≠ o.MountDir) →
      succeeded (removeAttachmentObject env w o).1 = false ∧
      (removeAttachmentObject env w o).2.registry = w.registry ∧
      (removeAttachmentObject env w o).2.calls =
        w.calls ++ [.registryGet env.podNamespaceEnv o.VolumeName]) ∧
    (∀ obj, (registryGet env w env.podNamespaceEnv o.VolumeName).1 = .ok obj →
      (∃ a ∈ obj.Attachments, a.MountDir = o.MountDir) →
      ∃ pre a post, obj.Attachments = pre ++ a :: post ∧
        (∀ b ∈ pre, b.MountDir ≠ o.MountDir) ∧ a.MountDir = o.MountDir ∧
        (removeAttachmentObject env w o).1 =
          (match (registryUpdate env (w.log (.registryGet env.podNamespaceEnv o.VolumeName))
              { obj with Attachments := pre ++ post }).1 with
            | .ok _ => .ok ()
            | .error e => .error (.registry e)) ∧
        (removeAttachmentObject env w o).2 =
          (registryUpdate env (w.log (.registryGet env.podNamespaceEnv o.VolumeName))
            { obj with Attachments := pre ++ post }).2) := by
  refine ⟨?_, ?_, ?_⟩
  · intro e he
    simp only [removeAttachmentObject, registryGet_error he]
    exact ⟨rfl, rfl, rfl⟩
  · intro obj hobj hno
    obtain ⟨hg, hl⟩ := registryGet_ok hobj
    rcases findMountDir_cases obj.Attachments o.MountDir with ⟨h1, _⟩ | ⟨pre, a, post, hs, _, ha, _⟩
    · simp only [removeAttachmentObject, registryGet, hg, hl, h1]
      exact ⟨rfl, rfl, rfl⟩
    · exact absurd ha (hno a (by simp [hs]))
  · intro obj hobj hmem
    obtain ⟨hg, hl⟩ := registryGet_ok hobj
    rcases findMountDir_cases obj.Attachments o.MountDir with ⟨_, hno⟩ | ⟨pre, a, post, hs, hpre, ha, _⟩
    · obtain ⟨a, ha, hm⟩ := hmem
      exact absurd hm (hno a ha)
    · refine ⟨pre, a, post, hs, hpre, ha, ?_⟩
      rw [removeAttachmentObject_of_split env w o hg hl hs hpre ha]
      generalize registryUpdate env (w.log (.registryGet env.podNamespaceEnv o.VolumeName))
        { obj with Attachments := pre ++ post } = r
      obtain ⟨r1, r2⟩ := r
      cases r1 <;> exact ⟨rfl, rfl⟩

/-- Witness: the record of `pv1` holds only the attachment of pod `P`, and the
attachment of pod `A` is to be removed; then the record only that of `A`. -/
theorem removeAttachmentObject_fails_or_updates_witness :
    (succeeded (removeAttachmentObject envLive (worldOf [attachmentP]) optsA).1 = false ∧
      (removeAttachmentObject envLive (worldOf [attachmentP]) optsA).2.registry =
        [recordOf [attachmentP]] ∧
      (removeAttachmentObject envLive (worldOf [attachmentP]) optsA).2.calls =
        [] ++ [.registryGet "rook-system" "pv1"]) ∧
    (removeAttachmentObject envLive (worldOf [attachmentA]) optsA).1 = .ok () :=
  ⟨(removeAttachmentObject_fails_or_updates envLive (worldOf [attachmentP]) optsA).2.1
      (recordOf [attachmentP]) (by decide) (by decide),
    by decide⟩

/-- C12, at the failing input: the record of `pv1` holds the attachment of pod
`P`, the backend Detach succeeds and the registry Get fails with an error other
than not-found.  `detach` takes the empty record returned with the error for
the record of the volume, issues the Delete, and the record, whose attachment
set is not empty, is gone. -/
theorem detach_deletes_record_after_failed_get :
    lookup (worldOf [attachmentP]).registry "rook-system" "pv1" = some (recordOf [attachmentP]) ∧
      (recordOf [attachmentP]).Attachments ≠ [] ∧
      hostOk.volumeManagerDetach optsP.Image optsP.Pool optsP.ClusterName = .ok () ∧
      (registryGet { envLive with getFault := some .other } (worldOf [attachmentP])
        "rook-system" "pv1").1 = .error .other ∧
      (detach { envLive with getFault := some .other } hostOk (worldOf [attachmentP]) optsP).1
        = .ok () ∧
      (detach { envLive with getFault := some .other } hostOk (worldOf [attachmentP]) optsP).2.calls
        = [.backendDetach "img1" "pool1" "rook", .registryGet "rook-system" "pv1",
           .registryDelete "rook-system" "pv1"] ∧
      lookup (detach { envLive with getFault := some .other } hostOk (worldOf [attachmentP])
        optsP).2.registry "rook-system" "pv1" = none := by
  decide

/-- C13, the claim as stated fails: the mount path of pod `A` has a single
other reference, the global mount; the reference lookup, the pod-level unmount
and the attachment removal succeed (the record of `pv1` is left empty), but
the global mount cannot be unmounted.  `Unmount` returns that error and
`detach` is not invoked: no backend Detach, no registry Delete. -/
theorem unmount_stops_when_global_unmount_fails :
    hostBusy.getMountRefs [] "/pods/A/volumes/v~d/pv1" =
        .ok ["/var/lib/kubelet/plugins/rook.io/rook/mounts/pv1"] ∧
      (Unmount envLive hostBusy (worldOf [attachmentA]) optsUnmountA).1 =
        .error (.unmountVolumeFailed "/var/lib/kubelet/plugins/rook.io/rook/mounts/pv1") ∧
      (Unmount envLive hostBusy (worldOf [attachmentA]) optsUnmountA).2.registry =
        [recordOf []] ∧
      (Unmount envLive hostBusy (worldOf [attachmentA]) optsUnmountA).2.calls =
        [.persistentVolumesGet "pv1", .podsList "default" "node1",
         .storageClassesGet "rook-block",
         .getMountRefs "/pods/A/volumes/v~d/pv1",
         .unmountPath "/pods/A/volumes/v~d/pv1",
         .registryGet "rook-system" "pv1",
         .registryUpdate (recordOf []),
         .unmountPath "/var/lib/kubelet/plugins/rook.io/rook/mounts/pv1"] := by
  decide

/-- C13, amended. For every Unmount call in which the mount-reference lookup,
the pod-level unmount and the attachment removal all succeed: the global
unmount is attempted if and only if the reference list obtained before the
pod-level unmount has exactly one element, and `detach` is invoked if and only
if, in addition, that global unmount succeeds.  With a reference count other
than one, `Unmount` returns success right after the removal: no global unmount,
no backend Detach, no registry Delete.  With exactly one reference, a failed
global unmount is returned as the error of `Unmount` with no call after it, and
after a successful one the outcome of `Unmount` is that of `detach`, whose
first call is the backend Detach. -/
theorem unmount_teardown_by_reference_count (env : Env) (host : Host) (w : World)
    (o o1 : AttachOptions) (r : Except Error Unit) (w1 w4 : World) (refs : List String)
    (hres : getAttachInfoFromMountDir env host w o = (r, o1, w1))
    (hr : r ≠ .error .nilPointerDereference)
    (hrefs : host.getMountRefs w1.calls o1.MountDir = .ok refs)
    (hunmount : host.unmountPath (w1.log (.getMountRefs o1.MountDir)).calls o1.MountDir = .ok ())
    (hremove : removeAttachmentObject env
      ((w1.log (.getMountRefs o1.MountDir)).log (.unmountPath o1.MountDir)) o1 = (.ok (), w4)) :
    (refs.length ≠ 1 → Unmount env host w o = (.ok (), w4)) ∧
    (refs.length = 1 →
      (∀ msg, host.unmountPath w4.calls (getGlobalMountPath host o1.VolumeName) = .error msg →
        Unmount env host w o =
          (.error (.unmountVolumeFailed (getGlobalMountPath host o1.VolumeName)),
            w4.log (.unmountPath (getGlobalMountPath host o1.VolumeName)))) ∧
      (host.unmountPath w4.calls (getGlobalMountPath host o1.VolumeName) = .ok () →
        Unmount env host w o =
          detach env host (w4.log (.unmountPath (getGlobalMountPath host o1.VolumeName))) o1 ∧
        ∃ rest, (Unmount env host w o).2.calls = w4.calls ++
          .unmountPath (getGlobalMountPath host o1.VolumeName) ::
          .backendDetach o1.Image o1.Pool o1.ClusterName :: rest)) := by
  have hU : Unmount env host w o = unmountResolved env host w1 o1 := by
    rw [Unmount_eq env host w o (by rw [hres]; exact hr), hres]
  have hstage : unmount env host (w1.log (.getMountRefs o1.MountDir)) o1 = (.ok (), w4) := by
    simp only [unmount, hunmount, hremove]
  rw [hU]
  refine ⟨?_, ?_⟩
  · intro hne
    have hb : (refs.length == 1) = false := by simpa using hne
    simp only [unmountResolved, hrefs, hstage, hb, Bool.false_eq_true, if_false]
  · intro h1
    have hb : (refs.length == 1) = true := by simpa using h1
    refine ⟨?_, ?_⟩
    · intro msg hfail
      simp only [unmountResolved, hrefs, hstage, hb, if_true, unmountDevice, hfail]
    · intro hok
      have hd : unmountResolved env host w1 o1 =
          detach env host (w4.log (.unmountPath (getGlobalMountPath host o1.VolumeName))) o1 := by
        simp only [unmountResolved, hrefs, hstage, hb, if_true, unmountDevice, hok]
      rw [hd]
      obtain ⟨rest, hrest⟩ := detach_calls env host
        (w4.log (.unmountPath (getGlobalMountPath host o1.VolumeName))) o1
      exact ⟨rfl, rest, by rw [hrest]; simp⟩

/-- Witness: the unmount of the mount of pod `A`, the only pod mount of `pv1`,
on a host without faults: the outcome is that of `detach` after the global
unmount, which deletes the emptied record. -/
theorem unmount_teardown_by_reference_count_witness :
    (Unmount envLive hostOk (worldOf [attachmentA]) optsUnmountA =
        detach envLive hostOk (worldAfterRemoval.log
          (.unmountPath "/var/lib/kubelet/plugins/rook.io/rook/mounts/pv1")) optsResolvedA) ∧
      (Unmount envLive hostOk (worldOf [attachmentA]) optsUnmountA).1 = .ok () ∧
      (Unmount envLive hostOk (worldOf [attachmentA]) optsUnmountA).2.registry = [] :=
  ⟨(((unmount_teardown_by_reference_count envLive hostOk (worldOf [attachmentA]) optsUnmountA
      optsResolvedA (.ok ()) worldResolved worldAfterRemoval
      ["/var/lib/kubelet/plugins/rook.io/rook/mounts/pv1"]
      rfl (by decide) rfl rfl rfl).2 rfl).2 rfl).1,
    by decide, by decide⟩

/-- C14. Round trip on the record: on a registry state with no attachment at
the request's mount path and no read-write attachment for the volume, so that
`attach` has no orphan to replace and can only create the record or append to
it, when `attach` succeeds and the registry Get, Update and Delete and the
backend Detach then succeed, `removeAttachmentObject` of the same request
succeeds and leaves a record whose attachment list is the list before the
attach (the empty list when no record existed); a following `detach` succeeds
and deletes the record exactly when that list is empty, and otherwise leaves
the registry as the removal left it. -/
theorem attach_remove_detach_round_trip (env : Env) (host : Host) (w : World)
    (o : AttachOptions)
    (hget : env.getFault = none) (hupdate : env.updateFault = none)
    (hdelete : host.deleteFault = none)
    (hdetach : host.volumeManagerDetach o.Image o.Pool o.ClusterName = .ok ())
    (hno : ∀ obj, lookup w.registry env.podNamespaceEnv o.VolumeName = some obj →
      ∀ a ∈ obj.Attachments, a.MountDir ≠ o.MountDir)
    (hro : ∀ obj, lookup w.registry env.podNamespaceEnv o.VolumeName = some obj →
      ∀ a ∈ obj.Attachments, a.ReadOnly = true)
    (hok : succeeded (attach env w o).1 = true) :
    (removeAttachmentObject env (attach env w o).2 o).1 = .ok () ∧
      (lookup (removeAttachmentObject env (attach env w o).2 o).2.registry
        env.podNamespaceEnv o.VolumeName).isSome = true ∧
      storedAttachments (removeAttachmentObject env (attach env w o).2 o).2.registry
          env.podNamespaceEnv o.VolumeName =
        storedAttachments w.registry env.podNamespaceEnv o.VolumeName ∧
      (detach env host (removeAttachmentObject env (attach env w o).2 o).2 o).1 = .ok () ∧
      (lookup (detach env host (removeAttachmentObject env (attach env w o).2 o).2 o).2.registry
          env.podNamespaceEnv o.VolumeName = none ↔
        storedAttachments w.registry env.podNamespaceEnv o.VolumeName = []) ∧
      (storedAttachments w.registry env.podNamespaceEnv o.VolumeName ≠ [] →
        (detach env host (removeAttachmentObject env (attach env w o).2 o).2 o).2.registry =
          (removeAttachmentObject env (attach env w o).2 o).2.registry) := by
  have key : ∀ (rec1 : VolumeAttachment) (pre : List Attachment) (a : Attachment),
      lookup (attach env w o).2.registry env.podNamespaceEnv o.VolumeName = some rec1 →
      rec1.Attachments = pre ++ a :: [] → (∀ b ∈ pre, b.MountDir ≠ o.MountDir) →
      a.MountDir = o.MountDir →
      storedAttachments w.registry env.podNamespaceEnv o.VolumeName = pre →
      (removeAttachmentObject env (attach env w o).2 o).1 = .ok () ∧
      (lookup (removeAttachmentObject env (attach env w o).2 o).2.registry
        env.podNamespaceEnv o.VolumeName).isSome = true ∧
      storedAttachments (removeAttachmentObject env (attach env w o).2 o).2.registry
          env.podNamespaceEnv o.VolumeName =
        storedAttachments w.registry env.podNamespaceEnv o.VolumeName ∧
      (detach env host (removeAttachmentObject env (attach env w o).2 o).2 o).1 = .ok () ∧
      (lookup (detach env host (removeAttachmentObject env (attach env w o).2 o).2 o).2.registry
          env.podNamespaceEnv o.VolumeName = none ↔
        storedAttachments w.registry env.podNamespaceEnv o.VolumeName = []) ∧
      (storedAttachments w.registry env.podNamespaceEnv o.VolumeName ≠ [] →
        (detach env host (removeAttachmentObject env (attach env w o).2 o).2 o).2.registry =
          (removeAttachmentObject env (attach env w o).2 o).2.registry) := by
    intro rec1 pre a hrec hsplit hpre ha hbefore
    obtain ⟨hr1, hr2⟩ := removeAttachmentObject_ok env (attach env w o).2 o hget hupdate hrec
      hsplit hpre ha
    obtain ⟨hd1, hd2, hd3⟩ := detach_of_record env host
      (removeAttachmentObject env (attach env w o).2 o).2 o hdetach hget hdelete hr2
    have hstored : storedAttachments (removeAttachmentObject env (attach env w o).2 o).2.registry
        env.podNamespaceEnv o.VolumeName = pre := by
      simp [storedAttachments, hr2]
    refine ⟨hr1, by simp [hr2], by rw [hstored, hbefore], hd1, ?_, ?_⟩
    · rw [hbefore]
      constructor
      · intro hnone
        by_contra hne
        have h3 := (hd3 (by simpa using hne)).1
        rw [h3, hr2] at hnone
        cases hnone
      · intro hnil
        exact (hd2 (by simp [hnil])).1
    · intro hne
      rw [hbefore] at hne
      exact (hd3 (by simpa using hne)).1
  rcases attach_created_or_appended env w o hget hno hro hok with
    ⟨hnone, hreg⟩ | ⟨obj, hobj, hreg⟩
  · refine key (NewVolumeAttachment o.VolumeName env.podNamespaceEnv env.nodeNameEnv
      o.PodNamespace o.Pod o.MountDir (ToLower o.RW == ReadOnly)) []
      ⟨env.nodeNameEnv, o.PodNamespace, o.Pod, o.MountDir, ToLower o.RW == ReadOnly⟩
      ?_ rfl (by simp) rfl (by simp [storedAttachments, hnone])
    rw [hreg]
    exact lookup_append_of_none _ hnone rfl rfl
  · refine key { obj with Attachments := obj.Attachments ++ [requestAttachment env o] }
      obj.Attachments (requestAttachment env o) ?_ rfl (hno obj hobj) rfl
      (by simp [storedAttachments, hobj])
    rw [hreg]
    exact lookup_overwrite _ hobj (lookup_key hobj).1 (lookup_key hobj).2

/-- Witness: no record, pod `A` attaches `pv1`, its attachment is removed and
the volume detached: the record is created, emptied and deleted. -/
theorem attach_remove_detach_round_trip_witness :
    (removeAttachmentObject envLive (attach envLive worldEmpty optsA).2 optsA).1 = .ok () ∧
      storedAttachments (removeAttachmentObject envLive (attach envLive worldEmpty optsA).2
        optsA).2.registry "rook-system" "pv1" = [] ∧
      lookup (detach envLive hostOk (removeAttachmentObject envLive
        (attach envLive worldEmpty optsA).2 optsA).2 optsA).2.registry "rook-system" "pv1"
        = none :=
  ⟨(attach_remove_detach_round_trip envLive hostOk worldEmpty optsA rfl rfl rfl rfl
      (fun _ h => by simp [worldEmpty, lookup] at h)
      (fun _ h => by simp [worldEmpty, lookup] at h) (by decide)).1,
    by decide, by decide⟩

/-- C15, at the failing input: pod `A` asks to mount `pv1` with no pod ID and
the mount path `a/b/c` of three segments.  `getAttachInfoFromMountDir` returns
the parse error, `Mount` does not look at it and goes on: the registry is
asked for the record of `pv1`, the record is created, the backend attaches the
device, the mounts are made, and `Mount` returns success. -/
theorem mount_goes_on_after_parse_error :
    optsShort.PodID = "" ∧ Split optsShort.MountDir = ["a", "b", "c"] ∧
      (getAttachInfoFromMountDir envLive hostOk worldEmpty optsShort).1 =
        .error (.parseMountDirFailed "a/b/c") ∧
      (Mount envLive hostOk worldEmpty optsShort).1 = .ok () ∧
      (Mount envLive hostOk worldEmpty optsShort).2.calls =
        [.registryGet "rook-system" "pv1",
         .registryCreate (recordOf [{ attachmentA with MountDir := "a/b/c" }]),
         .backendAttach "img1" "pool1" "rook",
         .isLikelyNotMountPoint "/var/lib/kubelet/plugins/rook.io/rook/mounts/pv1",
         .formatAndMount "/dev/rbd0" "/var/lib/kubelet/plugins/rook.io/rook/mounts/pv1" "ext4"
           ["rw"],
         .mount "/var/lib/kubelet/plugins/rook.io/rook/mounts/pv1" "a/b/c" "" ["rw", "bind"]] := by
  decide

/-- C16. For every mount path of the form
`<root>/pods/<podID>/volumes/<vendor>~<driver>/<volumeName>` in which the pod
ID, the vendor~driver segment and the volume name contain no path separator
(empty or not), `getPodAndPVNameFromMountDir` succeeds and returns exactly the
pod ID and the volume name. -/
theorem getPodAndPVNameFromMountDir_of_layout (root podID vendorDriver volumeName : String)
    (hpod : '/' ∉ podID.data) (hvd : '/' ∉ vendorDriver.data)
    (hvol : '/' ∉ volumeName.data) :
    getPodAndPVNameFromMountDir
      (root ++ "/pods/" ++ podID ++ "/volumes/" ++ vendorDriver ++ "/" ++ volumeName)
      = .ok (podID, volumeName) := by
  apply getPodAndPVNameFromMountDir_of_tokens _ ((splitChars '/' root.data).map String.mk)
    "pods" podID "volumes" vendorDriver volumeName
  have hdata : (root ++ "/pods/" ++ podID ++ "/volumes/" ++ vendorDriver ++ "/" ++
      volumeName).data = root.data ++ '/' :: (['p', 'o', 'd', 's'] ++ '/' :: (podID.data ++
        '/' :: (['v', 'o', 'l', 'u', 'm', 'e', 's'] ++ '/' :: (vendorDriver.data ++
          '/' :: volumeName.data)))) := by
    simp [String.data_append]
  unfold Split
  rw [hdata, splitChars_append_sep, splitChars_append_sep, splitChars_append_sep,
    splitChars_append_sep, splitChars_append_sep,
    splitChars_of_not_mem _ _ hpod, splitChars_of_not_mem _ _ hvd,
    splitChars_of_not_mem _ _ hvol,
    splitChars_of_not_mem '/' ['p', 'o', 'd', 's'] (by decide),
    splitChars_of_not_mem '/' ['v', 'o', 'l', 'u', 'm', 'e', 's'] (by decide)]
  simp

/-- Witness: `/pods/A/volumes/v~d/pv1` gives pod ID `A` and volume name `pv1`. -/
theorem getPodAndPVNameFromMountDir_of_layout_witness :
    getPodAndPVNameFromMountDir ("" ++ "/pods/" ++ "A" ++ "/volumes/" ++ "v~d" ++ "/" ++ "pv1")
        = .ok ("A", "pv1") ∧
      "" ++ "/pods/" ++ "A" ++ "/volumes/" ++ "v~d" ++ "/" ++ "pv1" = "/pods/A/volumes/v~d/pv1" :=
  ⟨getPodAndPVNameFromMountDir_of_layout "" "A" "v~d" "pv1" (by decide) (by decide) (by decide),
    by decide⟩

/-- C17, the claim as stated fails: the absolute path `/a/b/c/d` has four
non-empty components, fewer than five, and `getPodAndPVNameFromMountDir` does
not reject it: it returns pod ID `a` and volume name `d`. -/
theorem getPodAndPVNameFromMountDir_accepts_four_segments :
    segments "/a/b/c/d" = ["a", "b", "c", "d"] ∧ (segments "/a/b/c/d").length < 5 ∧
      getPodAndPVNameFromMountDir "/a/b/c/d" = .ok ("a", "d") := by
  decide

/-- C17, amended. `getPodAndPVNameFromMountDir` returns an error if and only
if the mount path, split at every separator, has fewer than five components,
the empty ones counted (a leading separator gives an empty first component, so
`/a/b/c/d` has five and is accepted, while `a/b/c/d` has four and is
rejected); the error is then the parse error. -/
theorem getPodAndPVNameFromMountDir_error_iff (mountDir : String) :
    ((∃ e, getPodAndPVNameFromMountDir mountDir = .error e) ↔ (Split mountDir).length < 5) ∧
      ((Split mountDir).length < 5 →
        getPodAndPVNameFromMountDir mountDir = .error (.parseMountDirFailed mountDir)) ∧
      getPodAndPVNameFromMountDir "a/b/c/d" = .error (.parseMountDirFailed "a/b/c/d") := by
  have hlt : (Split mountDir).length < 5 →
      getPodAndPVNameFromMountDir mountDir = .error (.parseMountDirFailed mountDir) := by
    intro h
    simp [getPodAndPVNameFromMountDir, h]
  refine ⟨⟨?_, fun h => ⟨_, hlt h⟩⟩, hlt, by decide⟩
  rintro ⟨e, he⟩
  by_contra hge
  have h4 : (Split mountDir).length - 4 < (Split mountDir).length := by omega
  have h1 : (Split mountDir).length - 1 < (Split mountDir).length := by omega
  simp only [getPodAndPVNameFromMountDir, if_neg hge, List.getElem?_eq_getElem h4,
    List.getElem?_eq_getElem h1] at he
  cases he

/-- Witness: `a/b/c` splits into three components and is rejected. -/
theorem getPodAndPVNameFromMountDir_error_iff_witness :
    (Split "a/b/c").length < 5 ∧
      getPodAndPVNameFromMountDir "a/b/c" = .error (.parseMountDirFailed "a/b/c") :=
  ⟨by decide, (getPodAndPVNameFromMountDir_error_iff "a/b/c").2.1 (by decide)⟩

/-- C18, the claim as stated fails: the mount request for `pv1` gives a pod ID
that no pod of the node has and no pod name.  Resolution succeeds and leaves
the pod name empty, `attach` consumes it (the attachment it records has an
empty pod name), and `Mount` returns success. -/
theorem mount_succeeds_with_empty_pod_name :
    (getAttachInfoFromMountDir envLive hostOk worldEmpty optsNoPod).1 = .ok () ∧
      (getAttachInfoFromMountDir envLive hostOk worldEmpty optsNoPod).2.1.Pod = "" ∧
      (Mount envLive hostOk worldEmpty optsNoPod).1 = .ok () ∧
      (Mount envLive hostOk worldEmpty optsNoPod).2.registry =
        [recordOf [{ attachmentA with PodName := "" }]] := by
  decide

/-- C18, amended. For every Mount or Unmount call whose context resolution
succeeds, the stages (attach, removeAttachmentObject, detach) consume the
options as resolution left them, and in these an identity field is non-empty
exactly when the request supplied it non-empty or the source resolution reads
it from is non-empty: for the pod ID and the volume name the components of the
mount path (read when no pod ID is supplied, the volume name being the supplied
one otherwise), for the pod name the name of the pod of that UID in the pod
list of the node, for the pod namespace the namespace of the claim of the
persistent volume, for pool and image the options of its flexvolume source, for
the cluster name the `clusterName` parameter of the storage class, the default
name standing in when the class has none. -/
theorem resolved_fields_non_empty_when_sourced (env : Env) (host : Host) (w : World)
    (o : AttachOptions) (hok : (getAttachInfoFromMountDir env host w o).1 = .ok ()) :
    let r := (getAttachInfoFromMountDir env host w o).2.1
    let w1 := (getAttachInfoFromMountDir env host w o).2.2
    Mount env host w o = mountResolved env host w1 r ∧
    Unmount env host w o = unmountResolved env host w1 r ∧
    (r.PodID ≠ "" ↔ o.PodID ≠ "" ∨
      ∃ podID pvName, getPodAndPVNameFromMountDir o.MountDir = .ok (podID, pvName) ∧
        podID ≠ "") ∧
    (r.VolumeName ≠ "" ↔ (o.PodID ≠ "" ∧ o.VolumeName ≠ "") ∨
      (o.PodID = "" ∧
        ∃ podID pvName, getPodAndPVNameFromMountDir o.MountDir = .ok (podID, pvName) ∧
          pvName ≠ "")) ∧
    (r.Pod ≠ "" ↔ o.Pod ≠ "" ∨
      ∃ pods pod, host.podsList r.PodNamespace env.nodeNameEnv = .ok pods ∧
        findPodByID pods r.PodID = some pod ∧ pod.Name ≠ "") ∧
    ∃ pv sc, host.persistentVolumesGet r.VolumeName = .ok pv ∧
      host.storageClassesGet r.StorageClass = .ok sc ∧
      (r.PodNamespace ≠ "" ↔ o.PodNamespace ≠ "" ∨ ∃ ns, pv.ClaimRef = some ns ∧ ns ≠ "") ∧
      (r.Pool ≠ "" ↔ o.Pool ≠ "" ∨
        ∃ options, pv.FlexVolume = some options ∧ mapGet options PoolKey ≠ "") ∧
      (r.Image ≠ "" ↔ o.Image ≠ "" ∨
        ∃ options, pv.FlexVolume = some options ∧ mapGet options ImageKey ≠ "") ∧
      (r.ClusterName ≠ "" ↔ sc.Parameters.lookup "clusterName" ≠ some "") := by
  intro r w1
  have hne : (getAttachInfoFromMountDir env host w o).1 ≠ .error .nilPointerDereference := by
    rw [hok]
    exact fun h => by cases h
  have heq : getAttachInfoFromMountDir env host w o = (.ok (), r, w1) := by rw [← hok]
  obtain ⟨_, _, _, k4, k5, k6, k7, k8, _⟩ := getAttachInfoFromMountDir_keeps env host w o
  obtain ⟨hparse, hpod⟩ := getAttachInfoFromMountDir_identity env host w o r w1 heq
  obtain ⟨pv, sc, hpv, hsc, hns, hpool, himage, _, hcluster⟩ :=
    getAttachInfoFromMountDir_ok env host w o r w1 heq
  refine ⟨Mount_eq env host w o hne, Unmount_eq env host w o hne, ?_, ?_, ?_, pv, sc, hpv, hsc,
    ?_, ?_, ?_, ?_⟩
  · refine filled_ne_empty_iff (fun h => (k4 h).1) (fun he => ?_)
    have hp := hparse he
    constructor
    · exact fun h => ⟨r.PodID, r.VolumeName, hp, h⟩
    · rintro ⟨podID, pvName, hp1, h⟩
      rw [hp] at hp1
      cases hp1
      exact h
  · by_cases he : o.PodID = ""
    · have hp := hparse he
      constructor
      · exact fun h => Or.inr ⟨he, r.PodID, r.VolumeName, hp, h⟩
      · rintro (⟨h, _⟩ | ⟨_, podID, pvName, hp1, h⟩)
        · exact absurd he h
        · rw [hp] at hp1
          cases hp1
          exact h
    · have hv : r.VolumeName = o.VolumeName := (k4 he).2
      constructor
      · intro h
        rw [hv] at h
        exact Or.inl ⟨he, h⟩
      · rintro (⟨_, h⟩ | ⟨h, _⟩)
        · rw [hv]
          exact h
        · exact absurd h he
  · refine filled_ne_empty_iff k5 (fun he => ?_)
    obtain ⟨pods, hpods, hname⟩ := hpod he
    constructor
    · intro h
      cases hf : findPodByID pods r.PodID with
      | none =>
        rw [hf] at hname
        exact absurd hname h
      | some pod =>
        rw [hf] at hname
        have hname1 : r.Pod = pod.Name := hname
        exact ⟨pods, pod, hpods, hf, by rw [← hname1]; exact h⟩
    · rintro ⟨pods1, pod, hpods1, hf, h⟩
      rw [hpods] at hpods1
      cases hpods1
      rw [hf] at hname
      have hname1 : r.Pod = pod.Name := hname
      rw [hname1]
      exact h
  · refine filled_ne_empty_iff k6 (fun he => ?_)
    have hc := hns he
    constructor
    · exact fun h => ⟨r.PodNamespace, hc, h⟩
    · rintro ⟨ns, hc1, h⟩
      rw [hc] at hc1
      cases hc1
      exact h
  · refine filled_ne_empty_iff k7 (fun he => ?_)
    obtain ⟨options, hopt, hval⟩ := hpool he
    constructor
    · exact fun h => ⟨options, hopt, by rw [← hval]; exact h⟩
    · rintro ⟨options1, hopt1, h⟩
      rw [hopt] at hopt1
      cases hopt1
      rw [hval]
      exact h
  · refine filled_ne_empty_iff k8 (fun he => ?_)
    obtain ⟨options, hopt, hval⟩ := himage he
    constructor
    · exact fun h => ⟨options, hopt, by rw [← hval]; exact h⟩
    · rintro ⟨options1, hopt1, h⟩
      rw [hopt] at hopt1
      cases hopt1
      rw [hval]
      exact h
  · rw [hcluster]
    cases hl : sc.Parameters.lookup "clusterName" with
    | none =>
      simp only [Option.getD_none]
      exact ⟨fun _ h => (by cases h), fun _ => (by decide)⟩
    | some c =>
      simp only [Option.getD_some]
      constructor
      · intro h hc
        cases hc
        exact h rfl
      · intro h hc
        exact h (by rw [hc])

/-- Witness: the unmount request for the mount path of pod `A`, which supplies
the mount path alone; resolution succeeds, and the pod ID read from the mount
path is not empty. -/
theorem resolved_fields_non_empty_when_sourced_witness :
    (getAttachInfoFromMountDir envLive hostOk worldEmpty optsUnmountA).1 = .ok () ∧
      (getAttachInfoFromMountDir envLive hostOk worldEmpty optsUnmountA).2.1.PodID ≠ "" ∧
      Unmount envLive hostOk worldEmpty optsUnmountA = unmountResolved envLive hostOk
        (getAttachInfoFromMountDir envLive hostOk worldEmpty optsUnmountA).2.2
        (getAttachInfoFromMountDir envLive hostOk worldEmpty optsUnmountA).2.1 :=
  ⟨by decide,
    (resolved_fields_non_empty_when_sourced envLive hostOk worldEmpty optsUnmountA
      (by decide)).2.2.1.mpr (Or.inr ⟨"A", "pv1", by decide, by decide⟩),
    (resolved_fields_non_empty_when_sourced envLive hostOk worldEmpty optsUnmountA
      (by decide)).2.1⟩

/-- C19, at the failing input: context resolution fails and the later stages
run all the same.  In `Mount`, the persistent volume `pv9` of the request is
unknown, resolution returns that error, and attach, device mount and bind
mount are run; `Mount` returns success.  In `Unmount`, the mount path `a/b/c`
cannot be parsed, resolution returns the parse error, and the reference
lookup, the pod unmount and the registry Get of the attachment removal are
run; the error `Unmount` returns is that of the removal. -/
theorem stages_run_after_failed_resolution :
    (getAttachInfoFromMountDir envLive hostOk worldEmpty optsUnknown).1 =
        .error (.getPersistentVolumeFailed "pv9") ∧
      (Mount envLive hostOk worldEmpty optsUnknown).1 = .ok () ∧
      (Mount envLive hostOk worldEmpty optsUnknown).2.calls =
        [.persistentVolumesGet "pv9",
         .registryGet "rook-system" "pv9",
         .registryCreate { recordOf [attachmentA] with Name := "pv9" },
         .backendAttach "img1" "pool1" "rook",
         .isLikelyNotMountPoint "/var/lib/kubelet/plugins/rook.io/rook/mounts/pv9",
         .formatAndMount "/dev/rbd0" "/var/lib/kubelet/plugins/rook.io/rook/mounts/pv9" "ext4"
           ["rw"],
         .mount "/var/lib/kubelet/plugins/rook.io/rook/mounts/pv9" "/pods/A/volumes/v~d/pv1" ""
           ["rw", "bind"]] ∧
      (getAttachInfoFromMountDir envLive hostOk worldEmpty
        { optsUnmountA with MountDir := "a/b/c" }).1 = .error (.parseMountDirFailed "a/b/c") ∧
      (Unmount envLive hostOk worldEmpty { optsUnmountA with MountDir := "a/b/c" }).1 =
        .error (.removeAttachmentFailed "a/b/c") ∧
      (Unmount envLive hostOk worldEmpty { optsUnmountA with MountDir := "a/b/c" }).2.calls =
        [.getMountRefs "a/b/c", .unmountPath "a/b/c", .registryGet "rook-system" ""] := by
  decide

/-- C20. `attach` calls the device backend only after the registry step has
succeeded: when the registry Get fails with an error other than not-found,
when the Create fails (an already-exists answer included), when the lookup of
the holder's pod fails, when the holder's pod is present, when "rw" is asked
against a non-empty set without read-write holder, or when the Update fails
(after an orphan overwrite or after an append), `attach` returns an error and
none of the calls it made is a backend Attach. -/
theorem attach_no_backend_before_registry (env : Env) (w : World) (o : AttachOptions) :
    (∀ e, env.getFault = some e → e ≠ .notFound →
      succeeded (attach env w o).1 = false ∧ noBackendAttach w (attach env w o).2) ∧
    ((env.getFault = some .notFound ∨
        (env.getFault = none ∧ lookup w.registry env.podNamespaceEnv o.VolumeName = none)) →
      (∃ e, (registryCreate env (w.log (.registryGet env.podNamespaceEnv o.VolumeName))
        (NewVolumeAttachment o.VolumeName env.podNamespaceEnv env.nodeNameEnv o.PodNamespace
          o.Pod o.MountDir (ToLower o.RW == ReadOnly))).1 = .error e) →
      succeeded (attach env w o).1 = false ∧ noBackendAttach w (attach env w o).2) ∧
    (∀ obj pre a post, env.getFault = none →
      lookup w.registry env.podNamespaceEnv o.VolumeName = some obj →
      obj.Attachments = pre ++ a :: post → (∀ b ∈ pre, b.ReadOnly = true) →
      a.ReadOnly = false →
      (env.podGet a.PodNamespace a.PodName = .failed ∨
        (∃ phase, env.podGet a.PodNamespace a.PodName = .found phase) ∨
        (env.podGet a.PodNamespace a.PodName = .notFound ∧
          ∃ e, (registryUpdate env ((w.log (.registryGet env.podNamespaceEnv o.VolumeName)).log
            (.podGet a.PodNamespace a.PodName))
            { obj with Attachments := pre ++ requestAttachment env o :: post }).1 = .error e)) →
      succeeded (attach env w o).1 = false ∧ noBackendAttach w (attach env w o).2) ∧
    (∀ obj, env.getFault = none →
      lookup w.registry env.podNamespaceEnv o.VolumeName = some obj →
      (∀ a ∈ obj.Attachments, a.ReadOnly = true) →
      ((o.RW = "rw" ∧ obj.Attachments ≠ []) ∨
        ((∀ a ∈ obj.Attachments, a.MountDir ≠ o.MountDir) ∧
          ∃ e, (registryUpdate env (w.log (.registryGet env.podNamespaceEnv o.VolumeName))
            { obj with Attachments := obj.Attachments ++ [requestAttachment env o] }).1
              = .error e)) →
      succeeded (attach env w o).1 = false ∧ noBackendAttach w (attach env w o).2) := by
  refine ⟨?_, ?_, ?_, ?_⟩
  · intro e hg he
    rw [attach_get_failed env w o hg he]
    exact ⟨rfl, noBackendAttach_log (noBackendAttach_refl w) _ (by rfl)⟩
  · rintro hget ⟨e, hc⟩
    rw [attach_not_found env w o hget]
    rcases registryCreate_eq env (w.log (.registryGet env.podNamespaceEnv o.VolumeName))
      (NewVolumeAttachment o.VolumeName env.podNamespaceEnv env.nodeNameEnv o.PodNamespace
        o.Pod o.MountDir (ToLower o.RW == ReadOnly)) with ⟨_, h⟩ | ⟨e1, h⟩
    · rw [h] at hc
      cases hc
    · rw [h]
      simp only []
      split
      · exact ⟨rfl, by
        refine noBackendAttach_log (noBackendAttach_log (noBackendAttach_refl w) _ ?_) _ ?_ <;> rfl⟩
      · exact ⟨rfl, by
        refine noBackendAttach_log (noBackendAttach_log (noBackendAttach_refl w) _ ?_) _ ?_ <;> rfl⟩
  · intro obj pre a post hg hobj hsplit hpre ha hcause
    rw [attach_holder env w o hg hobj hsplit hpre ha]
    rcases hcause with hp | ⟨phase, hp⟩ | ⟨hp, e, hu⟩
    · rw [hp]
      exact ⟨rfl, by
        refine noBackendAttach_log (noBackendAttach_log (noBackendAttach_refl w) _ ?_) _ ?_ <;> rfl⟩
    · rw [hp]
      exact ⟨rfl, by
        refine noBackendAttach_log (noBackendAttach_log (noBackendAttach_refl w) _ ?_) _ ?_ <;> rfl⟩
    · rw [hp]
      simp only []
      rcases registryUpdate_eq env ((w.log (.registryGet env.podNamespaceEnv o.VolumeName)).log
        (.podGet a.PodNamespace a.PodName))
        { obj with Attachments := pre ++ requestAttachment env o :: post } with h | ⟨e1, h⟩
      · rw [h] at hu
        cases hu
      · rw [h]
        exact ⟨rfl, by
        refine noBackendAttach_log (noBackendAttach_log (noBackendAttach_log
          (noBackendAttach_refl w) _ ?_) _ ?_) _ ?_ <;> rfl⟩
  · intro obj hg hobj hro hcause
    rw [attach_no_holder env w o hg hobj hro]
    rcases hcause with ⟨hrw, hne⟩ | ⟨hnf, e, hu⟩
    · have hlen : obj.Attachments.length > 0 := List.length_pos.mpr hne
      rw [if_pos (by simp [hrw, hlen])]
      exact ⟨rfl, noBackendAttach_log (noBackendAttach_refl w) _ (by rfl)⟩
    · split
      · exact ⟨rfl, noBackendAttach_log (noBackendAttach_refl w) _ (by rfl)⟩
      · have hf : obj.Attachments.any (fun a => a.MountDir == o.MountDir) = false := by
          rw [Bool.eq_false_iff]
          intro hany
          obtain ⟨a, ha, hm⟩ := List.any_eq_true.mp hany
          exact hnf a ha (by simpa using hm)
        simp only [attachRecord, hf, Bool.not_false, if_true]
        have hu2 := registryUpdate_eq env (w.log (.registryGet env.podNamespaceEnv o.VolumeName))
          { obj with Attachments := obj.Attachments ++ [requestAttachment env o] }
        simp only [requestAttachment] at hu hu2 ⊢
        rcases hu2 with h | ⟨e1, h⟩
        · rw [h] at hu
          cases hu
        · rw [h]
          exact ⟨rfl, by
        refine noBackendAttach_log (noBackendAttach_log (noBackendAttach_refl w) _ ?_) _ ?_ <;> rfl⟩

/-- Witness: pod `A` holds `pv1` read-write and is present, pod `B` requests
read-write: an error, after a Get and a pod lookup only. -/
theorem attach_no_backend_before_registry_witness :
    succeeded (attach envLive (worldOf [attachmentA]) optsB).1 = false ∧
      noBackendAttach (worldOf [attachmentA]) (attach envLive (worldOf [attachmentA]) optsB).2 :=
  (attach_no_backend_before_registry envLive (worldOf [attachmentA]) optsB).2.2.1
    (recordOf [attachmentA]) [] attachmentA [] rfl (by decide) rfl (by decide) rfl
    (Or.inr (Or.inl ⟨"Running", rfl⟩))


/-- C21: when the bind mount fails, `mount` returns an error.  If the check
then says the target is not a mount point, the error is the one that carries
the failure of the bind mount.  If it says the target is a mount point, the
target is unmounted, and after the unmount it is checked again: still a mount
point gives the "still mounted" error, no longer a mount point gives the error
that carries the failure of the bind mount.  When `mount` returns success, the
bind mount succeeded and was the only call, with the global mount path as
source, `MountDir` as target and the options mode and "bind". -/
theorem mount_never_succeeds_after_failed_bind (host : Host) (w : World) (o : AttachOptions) :
    let G := getGlobalMountPath host o.VolumeName
    let B := Call.mount G o.MountDir "" [o.RW, "bind"]
    let K := Call.isLikelyNotMountPoint o.MountDir
    let U := Call.unmount o.MountDir
    (∀ cause, host.mount w.calls G o.MountDir "" [o.RW, "bind"] = .error cause →
      succeeded (mount host w o).1 = false ∧
      (host.isLikelyNotMountPoint (w.calls ++ [B]) o.MountDir = .ok true →
        (mount host w o).1 = .error (.mountVolumeFailed o.Pool o.Image G o.MountDir cause)) ∧
      (host.isLikelyNotMountPoint (w.calls ++ [B]) o.MountDir = .ok false →
        (∃ rest, newCalls w (mount host w o).2 = B :: K :: U :: rest) ∧
        (host.unmount (w.calls ++ [B, K]) o.MountDir = .ok () →
          (∃ rest, newCalls w (mount host w o).2 = B :: K :: U :: K :: rest) ∧
          (host.isLikelyNotMountPoint (w.calls ++ [B, K, U]) o.MountDir = .ok false →
            (mount host w o).1 = .error (.stillMounted o.MountDir)) ∧
          (host.isLikelyNotMountPoint (w.calls ++ [B, K, U]) o.MountDir = .ok true →
            (mount host w o).1 =
              .error (.mountVolumeFailed o.Pool o.Image G o.MountDir cause))))) ∧
    (succeeded (mount host w o).1 = true →
      host.mount w.calls G o.MountDir "" [o.RW, "bind"] = .ok () ∧
        newCalls w (mount host w o).2 = [B]) := by
  intro G B K U
  rcases hb : host.mount w.calls G o.MountDir "" [o.RW, "bind"] with cause | u
  · refine ⟨?_, ?_⟩
    swap
    · intro hs
      exfalso
      revert hs
      rcases hc : host.isLikelyNotMountPoint (w.calls ++ [B]) o.MountDir with e | b
      · rw [(mount_check_failed host w o cause e hb hc).1]; simp [succeeded]
      · cases b
        · rcases hu : host.unmount (w.calls ++ [B, K]) o.MountDir with cause1 | u
          · rw [(mount_unmount_failed host w o cause cause1 hb hc hu).1]; simp [succeeded]
          · rcases hr : host.isLikelyNotMountPoint (w.calls ++ [B, K, U]) o.MountDir with e | b
            · rw [(mount_recheck_failed host w o cause e hb hc hu hr).1]; simp [succeeded]
            · cases b
              · rw [(mount_still_mounted host w o cause hb hc hu hr).1]; simp [succeeded]
              · rw [(mount_unmounted host w o cause hb hc hu hr).1]; simp [succeeded]
        · rw [(mount_not_mounted host w o cause hb hc).1]; simp [succeeded]
    · intro cause0 hcause
      cases hcause
      rcases hc : host.isLikelyNotMountPoint (w.calls ++ [B]) o.MountDir with e | b
      · refine ⟨?_, (fun h => by cases h), (fun h => by cases h)⟩
        rw [(mount_check_failed host w o cause e hb hc).1]; rfl
      · cases b
        · refine ⟨?_, (fun h => by cases h), fun _ => ?_⟩
          · rcases hu : host.unmount (w.calls ++ [B, K]) o.MountDir with cause1 | u
            · rw [(mount_unmount_failed host w o cause cause1 hb hc hu).1]; rfl
            · rcases hr : host.isLikelyNotMountPoint (w.calls ++ [B, K, U]) o.MountDir
                with e | b
              · rw [(mount_recheck_failed host w o cause e hb hc hu hr).1]; rfl
              · cases b
                · rw [(mount_still_mounted host w o cause hb hc hu hr).1]; rfl
                · rw [(mount_unmounted host w o cause hb hc hu hr).1]; rfl
          · rcases hu : host.unmount (w.calls ++ [B, K]) o.MountDir with cause1 | u
            · refine ⟨⟨[], ?_⟩, (fun h => by cases h)⟩
              rw [(mount_unmount_failed host w o cause cause1 hb hc hu).2]
            · refine ⟨?_, fun _ => ?_⟩
              · rcases hr : host.isLikelyNotMountPoint (w.calls ++ [B, K, U]) o.MountDir
                  with e | b
                · exact ⟨[K], by rw [(mount_recheck_failed host w o cause e hb hc hu hr).2]⟩
                · cases b
                  · exact ⟨[K], by rw [(mount_still_mounted host w o cause hb hc hu hr).2]⟩
                  · exact ⟨[K, .remove o.MountDir],
                      by rw [(mount_unmounted host w o cause hb hc hu hr).2]⟩
              · rcases hr : host.isLikelyNotMountPoint (w.calls ++ [B, K, U]) o.MountDir
                  with e | b
                · exact ⟨⟨[], by rw [(mount_recheck_failed host w o cause e hb hc hu hr).2]⟩,
                    (fun h => by cases h), (fun h => by cases h)⟩
                · cases b
                  · exact ⟨⟨[], by rw [(mount_still_mounted host w o cause hb hc hu hr).2]⟩,
                      fun _ => (mount_still_mounted host w o cause hb hc hu hr).1,
                      (fun h => by cases h)⟩
                  · exact ⟨⟨[.remove o.MountDir],
                        by rw [(mount_unmounted host w o cause hb hc hu hr).2]⟩,
                      (fun h => by cases h),
                      fun _ => (mount_unmounted host w o cause hb hc hu hr).1⟩
        · refine ⟨?_, fun _ => (mount_not_mounted host w o cause hb hc).1, (fun h => by cases h)⟩
          rw [(mount_not_mounted host w o cause hb hc).1]; rfl
  · refine ⟨(fun cause h => by cases h), fun _ => ⟨rfl, ?_⟩⟩
    rw [mount_ok host w o hb]
    simp [newCalls, World.log, B, G]

theorem mount_never_succeeds_after_failed_bind_witness :
    hostUnmounts.mount worldEmpty.calls (getGlobalMountPath hostUnmounts optsA.VolumeName)
        optsA.MountDir "" [optsA.RW, "bind"] = .error "permission denied" ∧
      (mount hostUnmounts worldEmpty optsA).1 =
        .error (.mountVolumeFailed optsA.Pool optsA.Image
          (getGlobalMountPath hostUnmounts optsA.VolumeName) optsA.MountDir
          "permission denied") :=
  ⟨by decide,
    (((((mount_never_succeeds_after_failed_bind hostUnmounts worldEmpty optsA).1
      "permission denied" (by decide)).2.2 (by decide)).2 (by decide)).2.2 (by decide))⟩

/-- C22: `mountDevice` calls format-and-mount, with the device path, the global
mount path, the filesystem type and the mode as only option, exactly when the
check says the global mount path is not a mount point, or says it does not
exist and the directory is then created; no other format-and-mount call is
made; when it is called, `mountDevice` succeeds exactly when it succeeds; and
when the path is already a mount point `mountDevice` returns success after the
check alone. -/
theorem mountDevice_formats_unless_mounted (host : Host) (w : World) (o : AttachOptions)
    (devicePath : String) :
    let G := getGlobalMountPath host o.VolumeName
    let K := Call.isLikelyNotMountPoint G
    let D := Call.mkdirAll G
    let F := Call.formatAndMount devicePath G o.FsType [o.RW]
    ((∃ c ∈ newCalls w (mountDevice host w o devicePath).2, isFormatAndMount c = true) ↔
      (host.isLikelyNotMountPoint w.calls G = .ok true ∨
        (host.isLikelyNotMountPoint w.calls G = .error .notExist ∧
          host.mkdirAll (w.calls ++ [K]) G = .ok ()))) ∧
    (∀ c ∈ newCalls w (mountDevice host w o devicePath).2, isFormatAndMount c = true → c = F) ∧
    (host.isLikelyNotMountPoint w.calls G = .ok true →
      (∃ rest, newCalls w (mountDevice host w o devicePath).2 = K :: F :: rest) ∧
      (succeeded (mountDevice host w o devicePath).1 = true ↔
        host.formatAndMount (w.calls ++ [K]) devicePath G o.FsType [o.RW] = .ok ())) ∧
    (host.isLikelyNotMountPoint w.calls G = .error .notExist →
      host.mkdirAll (w.calls ++ [K]) G = .ok () →
      (∃ rest, newCalls w (mountDevice host w o devicePath).2 = K :: D :: F :: rest) ∧
      (succeeded (mountDevice host w o devicePath).1 = true ↔
        host.formatAndMount (w.calls ++ [K, D]) devicePath G o.FsType [o.RW] = .ok ())) ∧
    (host.isLikelyNotMountPoint w.calls G = .ok false →
      (mountDevice host w o devicePath).1 = .ok () ∧
      newCalls w (mountDevice host w o devicePath).2 = [K]) := by
  intro G K D F
  rcases hc : host.isLikelyNotMountPoint w.calls G with e | b
  · cases e
    · rcases hd : host.mkdirAll (w.calls ++ [K]) G with cause | u
      · have hm := mountDevice_mkdir_failed host w o devicePath cause hc hd
        rw [hm]
        simp [newCalls, World.log, isFormatAndMount]
      · have hm := mountDevice_created host w o devicePath hc hd
        rw [hm]
        rcases hf : host.formatAndMount (w.calls ++ [K, D]) devicePath G o.FsType [o.RW]
          with cause | u
        · simp [newCalls, World.log, isFormatAndMount, succeeded, hf, K, D, F, G]
        · simp [newCalls, World.log, isFormatAndMount, succeeded, hf, K, D, F, G]
    · have hm := mountDevice_check_failed host w o devicePath hc
      rw [hm]
      simp [newCalls, World.log, isFormatAndMount]
  · cases b
    · have hm := mountDevice_mounted host w o devicePath hc
      rw [hm]
      simp [newCalls, World.log, isFormatAndMount, K, G]
    · have hm := mountDevice_not_mounted host w o devicePath hc
      rw [hm]
      rcases hf : host.formatAndMount (w.calls ++ [K]) devicePath G o.FsType [o.RW]
        with cause | u
      · simp [newCalls, World.log, isFormatAndMount, succeeded, hf, K, D, F, G]
      · simp [newCalls, World.log, isFormatAndMount, succeeded, hf, K, D, F, G]

theorem mountDevice_formats_unless_mounted_witness :
    hostNoDir.isLikelyNotMountPoint worldEmpty.calls
        (getGlobalMountPath hostNoDir optsA.VolumeName) = .error .notExist ∧
      (succeeded (mountDevice hostNoDir worldEmpty optsA "/dev/rbd0").1 = true ↔
        hostNoDir.formatAndMount
          (worldEmpty.calls ++
            [Call.isLikelyNotMountPoint (getGlobalMountPath hostNoDir optsA.VolumeName),
              Call.mkdirAll (getGlobalMountPath hostNoDir optsA.VolumeName)])
          "/dev/rbd0" (getGlobalMountPath hostNoDir optsA.VolumeName) optsA.FsType
          [optsA.RW] = .ok ()) :=
  ⟨by decide,
    ((mountDevice_formats_unless_mounted hostNoDir worldEmpty optsA "/dev/rbd0").2.2.2.1
      (by decide) (by decide)).2⟩

/-- C23, counterexample: the bind mount fails on a target that stays a mount
point, and `mount` returns the "still mounted" error after the calls bind
mount, check, unmount, check, without a removal of `MountDir`; the directory of
the global mount cannot be created, and `mountDevice` returns its error after
the calls check and `MkdirAll`, without a removal of the global mount path. -/
theorem stage_errors_without_removal :
    (mount hostStillMounted worldEmpty optsA).1 =
        .error (.stillMounted "/pods/A/volumes/v~d/pv1") ∧
      (mount hostStillMounted worldEmpty optsA).2.calls =
        [.mount "/var/lib/kubelet/plugins/rook.io/rook/mounts/pv1" "/pods/A/volumes/v~d/pv1" ""
            ["rw", "bind"],
          .isLikelyNotMountPoint "/pods/A/volumes/v~d/pv1",
          .unmount "/pods/A/volumes/v~d/pv1",
          .isLikelyNotMountPoint "/pods/A/volumes/v~d/pv1"] ∧
      (mountDevice hostMkdirFails worldEmpty optsA "/dev/rbd0").1 =
        .error (.createGlobalMountPathFailed
          "/var/lib/kubelet/plugins/rook.io/rook/mounts/pv1") ∧
      (mountDevice hostMkdirFails worldEmpty optsA "/dev/rbd0").2.calls =
        [.isLikelyNotMountPoint "/var/lib/kubelet/plugins/rook.io/rook/mounts/pv1",
          .mkdirAll "/var/lib/kubelet/plugins/rook.io/rook/mounts/pv1"] := by
  decide

/-- C23, amended: `mountDevice` removes the global mount path, as its last
call, when it returns the error of a failed format-and-mount, and makes no
removal on any other return; `mount` removes `MountDir`, as its last call, when
it returns the error that carries the failure of the bind mount, and makes no
removal on any other return. -/
theorem stage_removes_target_when_mount_failed (host : Host) (w : World) (o : AttachOptions)
    (devicePath : String) :
    let G := getGlobalMountPath host o.VolumeName
    ((mountDevice host w o devicePath).1 = .error (.mountDeviceFailed devicePath o.FsType G) →
      (newCalls w (mountDevice host w o devicePath).2).getLast? = some (.remove G)) ∧
    ((mountDevice host w o devicePath).1 ≠ .error (.mountDeviceFailed devicePath o.FsType G) →
      ∀ c ∈ newCalls w (mountDevice host w o devicePath).2, isRemove c = false) ∧
    (∀ cause,
      (mount host w o).1 = .error (.mountVolumeFailed o.Pool o.Image G o.MountDir cause) →
      (newCalls w (mount host w o).2).getLast? = some (.remove o.MountDir)) ∧
    ((∀ cause,
        (mount host w o).1 ≠ .error (.mountVolumeFailed o.Pool o.Image G o.MountDir cause)) →
      ∀ c ∈ newCalls w (mount host w o).2, isRemove c = false) := by
  intro G
  have hdev : ((mountDevice host w o devicePath).1 =
        .error (.mountDeviceFailed devicePath o.FsType G) →
      (newCalls w (mountDevice host w o devicePath).2).getLast? = some (.remove G)) ∧
    ((mountDevice host w o devicePath).1 ≠ .error (.mountDeviceFailed devicePath o.FsType G) →
      ∀ c ∈ newCalls w (mountDevice host w o devicePath).2, isRemove c = false) := by
    rcases hc : host.isLikelyNotMountPoint w.calls G with e | b
    · cases e
      · rcases hd : host.mkdirAll (w.calls ++ [.isLikelyNotMountPoint G]) G with cause | u
        · rw [mountDevice_mkdir_failed host w o devicePath cause hc hd]
          simp [newCalls, World.log, isRemove]
        · rw [mountDevice_created host w o devicePath hc hd]
          rcases hf : host.formatAndMount
            (w.calls ++ [.isLikelyNotMountPoint G, .mkdirAll G]) devicePath G o.FsType [o.RW]
            with cause | u
          · simp [newCalls, World.log, isRemove, hf, G]
          · simp [newCalls, World.log, isRemove, hf, G]
      · rw [mountDevice_check_failed host w o devicePath hc]
        simp [newCalls, World.log, isRemove]
    · cases b
      · rw [mountDevice_mounted host w o devicePath hc]
        simp [newCalls, World.log, isRemove]
      · rw [mountDevice_not_mounted host w o devicePath hc]
        rcases hf : host.formatAndMount (w.calls ++ [.isLikelyNotMountPoint G]) devicePath G
          o.FsType [o.RW] with cause | u
        · simp [newCalls, World.log, isRemove, hf, G]
        · simp [newCalls, World.log, isRemove, hf, G]
  refine ⟨hdev.1, hdev.2, ?_⟩
  rcases hb : host.mount w.calls G o.MountDir "" [o.RW, "bind"] with cause | u
  · rcases hc : host.isLikelyNotMountPoint
      (w.calls ++ [.mount G o.MountDir "" [o.RW, "bind"]]) o.MountDir with e | b
    · obtain ⟨h1, h2⟩ := mount_check_failed host w o cause e hb hc
      rw [h1, h2]
      simp [isRemove]
    · cases b
      · rcases hu : host.unmount (w.calls ++ [.mount G o.MountDir "" [o.RW, "bind"],
          .isLikelyNotMountPoint o.MountDir]) o.MountDir with cause1 | u
        · obtain ⟨h1, h2⟩ := mount_unmount_failed host w o cause cause1 hb hc hu
          rw [h1, h2]
          simp [isRemove]
        · rcases hr : host.isLikelyNotMountPoint
            (w.calls ++ [.mount G o.MountDir "" [o.RW, "bind"],
              .isLikelyNotMountPoint o.MountDir, .unmount o.MountDir]) o.MountDir with e | b
          · obtain ⟨h1, h2⟩ := mount_recheck_failed host w o cause e hb hc hu hr
            rw [h1, h2]
            simp [isRemove]
          · cases b
            · obtain ⟨h1, h2⟩ := mount_still_mounted host w o cause hb hc hu hr
              rw [h1, h2]
              simp [isRemove]
            · obtain ⟨h1, h2⟩ := mount_unmounted host w o cause hb hc hu hr
              rw [h1, h2]
              simp [isRemove, G]
      · obtain ⟨h1, h2⟩ := mount_not_mounted host w o cause hb hc
        rw [h1, h2]
        simp [isRemove, G]
  · rw [mount_ok host w o hb]
    simp [newCalls, World.log, isRemove]

theorem stage_removes_target_when_mount_failed_witness :
    (mountDevice hostFormatFails worldEmpty optsA "/dev/rbd0").1 =
        .error (.mountDeviceFailed "/dev/rbd0" optsA.FsType
          (getGlobalMountPath hostFormatFails optsA.VolumeName)) ∧
      (newCalls worldEmpty (mountDevice hostFormatFails worldEmpty optsA "/dev/rbd0").2).getLast? =
        some (.remove (getGlobalMountPath hostFormatFails optsA.VolumeName)) :=
  ⟨by decide,
    (stage_removes_target_when_mount_failed hostFormatFails worldEmpty optsA "/dev/rbd0").1
      (by decide)⟩

/-- C24: resolution only fills in absent fields.  `getAttachInfoFromMountDir`
leaves each of pod ID, pod name, pod namespace, pool, image and storage class
as it was when it was non-empty on entry, and never changes `MountDir`, `RW` or
`FsType`.  When it succeeds, the persistent volume of the resolved volume name
was found, an empty pod namespace has been set to the namespace of its claim,
an empty pool, image or storage class to the option of that name of its
flexvolume source, and the cluster name to the `clusterName` parameter of the
resolved storage class, or to the default cluster name when the class has no
such parameter. -/
theorem resolution_fills_only_absent_fields (env : Env) (host : Host) (w : World)
    (o : AttachOptions) :
    let r := (getAttachInfoFromMountDir env host w o).2.1
    (o.PodID ≠ "" → r.PodID = o.PodID) ∧ (o.Pod ≠ "" → r.Pod = o.Pod) ∧
    (o.PodNamespace ≠ "" → r.PodNamespace = o.PodNamespace) ∧ (o.Pool ≠ "" → r.Pool = o.Pool) ∧
    (o.Image ≠ "" → r.Image = o.Image) ∧ (o.StorageClass ≠ "" → r.StorageClass = o.StorageClass) ∧
    r.MountDir = o.MountDir ∧ r.RW = o.RW ∧ r.FsType = o.FsType ∧
    ((getAttachInfoFromMountDir env host w o).1 = .ok () →
      ∃ pv sc, host.persistentVolumesGet r.VolumeName = .ok pv ∧
        host.storageClassesGet r.StorageClass = .ok sc ∧
        (o.PodNamespace = "" → pv.ClaimRef = some r.PodNamespace) ∧
        (o.Pool = "" →
          ∃ options, pv.FlexVolume = some options ∧ r.Pool = mapGet options PoolKey) ∧
        (o.Image = "" →
          ∃ options, pv.FlexVolume = some options ∧ r.Image = mapGet options ImageKey) ∧
        (o.StorageClass = "" →
          ∃ options, pv.FlexVolume = some options ∧
            r.StorageClass = mapGet options StorageClassKey) ∧
        r.ClusterName = (sc.Parameters.lookup "clusterName").getD DefaultClusterName) := by
  intro r
  obtain ⟨k1, k2, k3, k4, k5, k6, k7, k8, k9⟩ := getAttachInfoFromMountDir_keeps env host w o
  refine ⟨fun h => (k4 h).1, k5, k6, k7, k8, k9, k1, k2, k3, fun hok => ?_⟩
  exact getAttachInfoFromMountDir_ok env host w o r (getAttachInfoFromMountDir env host w o).2.2
    (by rw [← hok])

theorem resolution_fills_only_absent_fields_witness :
    (getAttachInfoFromMountDir envLive hostOk worldEmpty optsUnmountA).1 = .ok () ∧
      ∃ pv sc,
        hostOk.persistentVolumesGet
          (getAttachInfoFromMountDir envLive hostOk worldEmpty optsUnmountA).2.1.VolumeName =
          .ok pv ∧
        hostOk.storageClassesGet
          (getAttachInfoFromMountDir envLive hostOk worldEmpty optsUnmountA).2.1.StorageClass =
          .ok sc ∧
        (getAttachInfoFromMountDir envLive hostOk worldEmpty optsUnmountA).2.1.ClusterName =
          (sc.Parameters.lookup "clusterName").getD DefaultClusterName :=
  ⟨by decide,
    Exists.elim
      ((resolution_fills_only_absent_fields envLive hostOk worldEmpty optsUnmountA).2.2.2.2.2.2.2.2.2
        (by decide))
      (fun pv h => Exists.elim h (fun sc h1 => ⟨pv, sc, h1.1, h1.2.1, h1.2.2.2.2.2.2⟩))⟩

/-- C25, counterexample: a request with the pod ID `A`, no volume name and the
five-segment mount path of pod `A` keeps its empty volume name, and the
persistent volume looked up is the one of the empty name; a request with the
volume name `pv1`, no pod ID and a mount path that ends in `pv9` comes out
with the volume name `pv9`. -/
theorem volume_name_follows_pod_id :
    optsNoVolume.PodID = "A" ∧ optsNoVolume.VolumeName = "" ∧
      segments optsNoVolume.MountDir = ["pods", "A", "volumes", "v~d", "pv1"] ∧
      (getAttachInfoFromMountDir envLive hostOk worldEmpty optsNoVolume).2.1.VolumeName = "" ∧
      (getAttachInfoFromMountDir envLive hostOk worldEmpty optsNoVolume).2.2.calls =
        [.persistentVolumesGet ""] ∧
      optsOtherPath.PodID = "" ∧ optsOtherPath.VolumeName = "pv1" ∧
      (getAttachInfoFromMountDir envLive hostOk worldEmpty optsOtherPath).2.1.VolumeName =
        "pv9" := by
  decide

/-- C25, amended: when the pod ID is not supplied and the mount path has at
least five components, after `getAttachInfoFromMountDir` the volume name is the
last component of the mount path, whether or not a volume name was supplied;
when the pod ID is supplied the volume name is left as it was given.  In both
cases that volume name is the one of the metadata lookup, and, unless
resolution stops on a nil pointer, the one in the options `Mount` hands to its
stages, where `attach` takes it as record key. -/
theorem volume_name_from_path_without_pod_id (env : Env) (host : Host) (w : World)
    (o : AttachOptions) :
    let r := (getAttachInfoFromMountDir env host w o).2.1
    (o.PodID = "" → 5 ≤ (Split o.MountDir).length →
      (Split o.MountDir).getLast? = some r.VolumeName) ∧
    (o.PodID ≠ "" → r.VolumeName = o.VolumeName) ∧
    ((o.PodID = "" → 5 ≤ (Split o.MountDir).length) →
      ∃ rest, newCalls w (getAttachInfoFromMountDir env host w o).2.2 =
        .persistentVolumesGet r.VolumeName :: rest) ∧
    ((getAttachInfoFromMountDir env host w o).1 ≠ .error .nilPointerDereference →
      Mount env host w o =
        mountResolved env host (getAttachInfoFromMountDir env host w o).2.2 r) := by
  intro r
  have hsupplied : o.PodID ≠ "" → resolvePodAndVolume o = .ok o := by
    intro hne
    have hb : (o.PodID == "") = false := by simpa using hne
    simp [resolvePodAndVolume, hb]
  have hparsed : o.PodID = "" → 5 ≤ (Split o.MountDir).length →
      ∃ o1, resolvePodAndVolume o = .ok o1 ∧ (Split o.MountDir).getLast? = some o1.VolumeName := by
    intro he hlen
    obtain ⟨podID, pvName, hp, hlast⟩ := getPodAndPVNameFromMountDir_last o.MountDir hlen
    exact ⟨{ o with PodID := podID, VolumeName := pvName },
      by simp [resolvePodAndVolume, he, hp], hlast⟩
  refine ⟨?_, ?_, ?_, Mount_eq env host w o⟩
  · intro he hlen
    obtain ⟨o1, h1, hlast⟩ := hparsed he hlen
    rw [hlast]
    exact congrArg some (getAttachInfoFromMountDir_volume env host w o o1 h1).1.symm
  · intro hne
    exact (getAttachInfoFromMountDir_volume env host w o o (hsupplied hne)).1
  · intro h
    by_cases he : o.PodID = ""
    · obtain ⟨o1, h1, _⟩ := hparsed he (h he)
      obtain ⟨hv, rest, hrest⟩ := getAttachInfoFromMountDir_volume env host w o o1 h1
      exact ⟨rest, hrest.trans
        (congrArg (fun v => Call.persistentVolumesGet v :: rest) hv.symm)⟩
    · obtain ⟨hv, rest, hrest⟩ := getAttachInfoFromMountDir_volume env host w o o (hsupplied he)
      exact ⟨rest, hrest.trans
        (congrArg (fun v => Call.persistentVolumesGet v :: rest) hv.symm)⟩

theorem volume_name_from_path_without_pod_id_witness :
    optsOtherPath.PodID = "" ∧ 5 ≤ (Split optsOtherPath.MountDir).length ∧
      (Split optsOtherPath.MountDir).getLast? =
        some (getAttachInfoFromMountDir envLive hostOk worldEmpty optsOtherPath).2.1.VolumeName :=
  ⟨by decide, by decide,
    (volume_name_from_path_without_pod_id envLive hostOk worldEmpty optsOtherPath).1
      (by decide) (by decide)⟩

/-- C26: no mixing of read-write with read-only.  If in the record stored for
the volume (when there is one) a read-write attachment, if present, is the only
attachment, and the mode of the request is exactly "rw" or "ro", then the
record stored after `attach` returns has that property again. -/
theorem attach_keeps_no_mixing (env : Env) (w : World) (o : AttachOptions)
    (hmode : o.RW = "rw" ∨ o.RW = "ro")
    (hinv : noMixing (storedAttachments w.registry env.podNamespaceEnv o.VolumeName)) :
    noMixing (storedAttachments (attach env w o).2.registry env.podNamespaceEnv
      o.VolumeName) := by
  unfold storedAttachments at *
  rcases attach_record_cases env w o with h | ⟨_, h⟩ | ⟨obj, hl, h1, h2, _, h⟩ |
    ⟨obj, pre, a, post, hl, h1, _, h3, _, h⟩
  · rw [h]
    exact hinv
  · rw [h]
    intro a ha _
    simp only [NewVolumeAttachment, List.mem_singleton] at ha ⊢
    rw [ha]
  · rw [h]
    intro a ha hro
    simp only [List.mem_append, List.mem_singleton] at ha ⊢
    rcases hmode with hm | hm
    · rw [h2 hm] at ha ⊢
      rcases ha with ha | ha
      · cases ha
      · rw [ha]
        rfl
    · rcases ha with ha | ha
      · rw [h1 a ha] at hro
        cases hro
      · rw [ha] at hro
        simp [requestAttachment, hm, ReadOnly] at hro
  · rw [h]
    rw [hl] at hinv
    have hinv1 : noMixing obj.Attachments := hinv
    have hone : obj.Attachments = [a] := hinv1 a (by rw [h1]; simp) h3
    rw [h1] at hone
    have hpre : pre = [] := by
      cases pre with
      | nil => rfl
      | cons x xs =>
        simp only [List.cons_append, List.cons.injEq] at hone
        have := congrArg List.length hone.2
        simp at this
    subst hpre
    simp only [List.nil_append, List.cons.injEq, true_and] at hone
    subst hone
    intro b hb _
    simp only [List.nil_append, List.mem_singleton] at hb ⊢
    rw [hb]

theorem attach_keeps_no_mixing_witness :
    noMixing (storedAttachments (worldOf [attachmentP]).registry envLive.podNamespaceEnv
        optsBro.VolumeName) ∧
      noMixing (storedAttachments (attach envLive (worldOf [attachmentP]) optsBro).2.registry
        envLive.podNamespaceEnv optsBro.VolumeName) :=
  ⟨by unfold noMixing; decide,
    attach_keeps_no_mixing envLive (worldOf [attachmentP]) optsBro (Or.inr (by decide))
      (by unfold noMixing; decide)⟩

/-- C27, evaluation: with the mode written `RO`, `attach` stores read-only =
true when it creates the record and read-only = false when it appends to the
record or overwrites an orphaned attachment; with the mode written `RW`, the
request passes the exclusivity check that stops `rw` beside a read-only
attachment, and is stored with read-only = false. -/
theorem mode_flag_differs_between_paths :
    (attach envLive worldEmpty optsBupperRO).2.registry = [recordOf [attachmentBon1 true]] ∧
      (attach envLive (worldOf [attachmentP]) optsBupperRO).2.registry =
        [recordOf [attachmentP, attachmentBon1 false]] ∧
      (attach envGone (worldOf [attachmentA]) optsBupperRO).2.registry =
        [recordOf [attachmentB]] ∧
      (attach envLive (worldOf [attachmentP]) optsB).1 = .error (.alreadyAttachedByPods "pv1") ∧
      (attach envLive (worldOf [attachmentP]) optsBupperRW).1 = .ok "/dev/rbd0" ∧
      (attach envLive (worldOf [attachmentP]) optsBupperRW).2.registry =
        [recordOf [attachmentP, attachmentBon1 false]] := by
  decide

/-- C28, evaluation: the mount path of pod `A` parses to pod `A` and volume
`pv1`; with a separator appended it parses to pod `volumes` and an empty volume
name, and with a doubled separator after the pod ID to an empty pod ID; the
cleaned forms of both parse as the mount path does. -/
theorem getPodAndPVNameFromMountDir_parses_uncleaned_path :
    getPodAndPVNameFromMountDir "/pods/A/volumes/v~d/pv1" = .ok ("A", "pv1") ∧
      getPodAndPVNameFromMountDir "/pods/A/volumes/v~d/pv1/" = .ok ("volumes", "") ∧
      getPodAndPVNameFromMountDir "/pods/A//volumes/v~d/pv1" = .ok ("", "pv1") ∧
      getPodAndPVNameFromMountDir (Clean "/pods/A/volumes/v~d/pv1/") = .ok ("A", "pv1") ∧
      getPodAndPVNameFromMountDir (Clean "/pods/A//volumes/v~d/pv1") = .ok ("A", "pv1") := by
  decide

end Flexvolume
